import Mathlib

/-!
# Poco::Data record sets, statements, ODBC extraction, SQLite utilities, and
the RSA stream transforms of Poco::Crypto: a shallow embedding

The definitions below follow `Data/src/RecordSet.cpp`,
`Data/ODBC/include/Poco/Data/ODBC/Extractor.h`,
`Data/include/Poco/Data/Statement.h`, `Data/SQLite/src/Utility.cpp` and
`Crypto/src/RSACipherImpl.cpp`.
Machine integers of type
`std::size_t` are natural numbers below `2 ^ 64`, with the wrap-around of
unsigned arithmetic written out.  A C++ exception is an `Except.error`.  The
loop of the RSA transforms is run for a number of passes given as fuel.
-/

namespace Poco.Data

/-! ## Machine arithmetic -/

/-- The number of values of `std::size_t`. -/
def SIZE_MOD : Nat := 2 ^ 64

/-- The number of values of `Poco::UInt32`. -/
def UINT32_MOD : Nat := 2 ^ 32

/-- Unsigned `a - b` on `std::size_t`, the difference modulo `2 ^ 64`: the
plain difference when `b` does not exceed `a`, and otherwise the wrap-around
`2 ^ 64 - (b - a)`. -/
def subSize (a b : Nat) : Nat :=
  if b % SIZE_MOD ≤ a % SIZE_MOD then a % SIZE_MOD - b % SIZE_MOD
  else SIZE_MOD - (b % SIZE_MOD - a % SIZE_MOD)

/-- Unsigned `++a` on `std::size_t`. -/
def incSize (a : Nat) : Nat := (a + 1) % SIZE_MOD

/-- Unsigned `--a` on `std::size_t`. -/
def decSize (a : Nat) : Nat := subSize a 1

/-! ## Data model -/

/-- Modelled from the spec: the enumeration `MetaColumn::ColumnDataType`, whose
declaration is not part of the sources.  The sixteen named enumerators are the
ones the `switch` statements of `RecordSet::value` name; `FDT_OTHER code` stands
for every further value of the enumeration type, the ones that reach a
`default:` label. -/
inductive ColumnDataType where
  | FDT_BOOL
  | FDT_INT8
  | FDT_UINT8
  | FDT_INT16
  | FDT_UINT16
  | FDT_INT32
  | FDT_UINT32
  | FDT_INT64
  | FDT_UINT64
  | FDT_FLOAT
  | FDT_DOUBLE
  | FDT_STRING
  | FDT_BLOB
  | FDT_DATE
  | FDT_TIME
  | FDT_TIMESTAMP
  | FDT_OTHER (code : Nat)
  deriving DecidableEq, Repr

/-- The C++ types `T` at which the templates `value<T>` and `extract(pos, T&)`
are instantiated. -/
inductive CppType where
  | bool
  | Int8
  | UInt8
  | Int16
  | UInt16
  | Int32
  | UInt32
  | Int64
  | UInt64
  | float
  | double
  | string
  | BLOB
  | Date
  | Time
  | DateTime
  deriving DecidableEq, Repr

/-- The exceptions thrown by the embedded code or by its collaborators. -/
inductive Exception where
  | RangeException
  | UnknownTypeException
  | NotFoundException
  | DataFormatException
  | BadCastException
  | StatementException
  | AssertionViolationException
  | StateError
  deriving DecidableEq, Repr

/-- A `Poco::DynamicAny`: empty when default-constructed, otherwise holding a
value of some C++ type; the held value is kept in its textual form. -/
inductive DynamicAny where
  | empty
  | holding (type : CppType) (content : String)
  deriving DecidableEq, Repr

/-- Modelled from the spec: the class `Row`, which is not part of the sources:
"each row object owns an ordered sequence of (column name, Value Cell) pairs",
kept as the sequence of names and the sequence of values. -/
structure Row where
  names : List String
  values : List DynamicAny
  deriving DecidableEq, Repr

/-- Modelled from the spec: `Row::Row()`, a row without columns. -/
def Row.new : Row := ⟨[], []⟩

/-- Modelled from the spec: `Row::Row(names)`, a row that takes over a name
sequence and has one empty value per name. -/
def Row.ofNames (names : List String) : Row :=
  ⟨names, List.replicate names.length DynamicAny.empty⟩

/-- Modelled from the spec: `Row::append(name, value)` adds one
(column name, Value Cell) pair at the end of the row. -/
def Row.append (r : Row) (name : String) (v : DynamicAny) : Row :=
  ⟨r.names ++ [name], r.values ++ [v]⟩

/-- Modelled from the spec: `Row::set(pos, value)` overwrites the value of the
pair at `pos`; a position outside the row is a RangeError. -/
def Row.set (r : Row) (pos : Nat) (v : DynamicAny) : Except Exception Row :=
  if pos < r.values.length then pure ⟨r.names, r.values.set pos v⟩
  else throw Exception.RangeException

/-- The statement behind a record set, as `RecordSet.cpp` sees it: the
accessors it calls whose definitions (`RecordSet.h`, `StatementImpl`) are not
part of the sources are the fields. -/
structure FetchedData where
  /-- The result of `rowCount()`, a `std::size_t`. -/
  rowCount : Nat
  /-- The result of `columnCount()`, a `std::size_t`. -/
  columnCount : Nat
  /-- The result of `columnType(col)`. -/
  columnType : Nat → Except Exception ColumnDataType
  /-- The result of `_pImpl->metaColumn(pos).name()`. -/
  columnName : Nat → Except Exception String
  /-- The position of the column called `name`, `metaColumn(name).position()`. -/
  position : String → Except Exception Nat
  /-- The result of the typed accessor `value<T>(col, row)`. -/
  cell : CppType → Nat → Nat → Except Exception String
  /-- The result of `isNull(col, row)`. -/
  isNull : Nat → Nat → Except Exception Bool

/-- The member `_rowMap`, a `std::map<std::size_t, Row*>`: the entries in
ascending key order. -/
abbrev RowMap := List (Nat × Row)

/-- The iterator returned by `std::map::find`, `none` for `end()`. -/
def RowMap.find (m : RowMap) (pos : Nat) : Option Row :=
  match m with
  | [] => none
  | (k, r) :: rest => if k = pos then some r else RowMap.find rest pos

/-- The effect of `std::map::insert`: the entry is put at its place in key
order, and an entry whose key is already there is not replaced. -/
def RowMap.insert (m : RowMap) (pos : Nat) (r : Row) : RowMap :=
  match m with
  | [] => [(pos, r)]
  | (k, r') :: rest =>
    if pos < k then (pos, r) :: (k, r') :: rest
    else if pos = k then (k, r') :: rest
    else (k, r') :: RowMap.insert rest pos r

/-- The keys of the row cache. -/
def RowMap.keys (m : RowMap) : List Nat := m.map Prod.fst

/-- A `RecordSet`: the statement it copies and its own members. -/
structure RecordSet where
  data : FetchedData
  _currentRow : Nat
  _rowMap : RowMap

/-- The constructor `RecordSet::RecordSet(const Statement&)`. -/
def RecordSet.new (d : FetchedData) : RecordSet :=
  { data := d, _currentRow := 0, _rowMap := [] }

/-! ## Cursor movement -/

/-- The method `RecordSet::moveFirst`: the flag returned and the record set
afterwards. -/
def RecordSet.moveFirst (rs : RecordSet) : Bool × RecordSet :=
  if rs.data.rowCount > 0 then (true, { rs with _currentRow := 0 })
  else (false, rs)

/-- The method `RecordSet::moveNext`: the flag returned and the record set
afterwards. -/
def RecordSet.moveNext (rs : RecordSet) : Bool × RecordSet :=
  if rs._currentRow ≥ subSize rs.data.rowCount 1 then (false, rs)
  else (true, { rs with _currentRow := incSize rs._currentRow })

/-- The method `RecordSet::movePrevious`: the flag returned and the record set
afterwards. -/
def RecordSet.movePrevious (rs : RecordSet) : Bool × RecordSet :=
  if 0 = rs._currentRow then (false, rs)
  else (true, { rs with _currentRow := decSize rs._currentRow })

/-- The method `RecordSet::moveLast`: the flag returned and the record set
afterwards. -/
def RecordSet.moveLast (rs : RecordSet) : Bool × RecordSet :=
  if rs.data.rowCount > 0 then
    (true, { rs with _currentRow := subSize rs.data.rowCount 1 })
  else (false, rs)

/-! ## Single cells -/

/-- The typed accessor `value<T>(col, row)`, its result converted to the
`DynamicAny` that `RecordSet::value` returns. -/
def RecordSet.valueAs (rs : RecordSet) (T : CppType) (col row : Nat) :
    Except Exception DynamicAny :=
  (rs.data.cell T col row).map (DynamicAny.holding T)

/-- Modelled from the spec: `columnType(name)` of `RecordSet.h`, which is not
part of the sources: the type of the column called `name`. -/
def RecordSet.columnTypeByName (rs : RecordSet) (name : String) :
    Except Exception ColumnDataType :=
  rs.data.position name >>= rs.data.columnType

/-- Modelled from the spec: the typed accessor `value<T>(name, row)` of
`RecordSet.h`, which is not part of the sources: the typed accessor at the
column called `name`. -/
def RecordSet.valueAsByName (rs : RecordSet) (T : CppType) (name : String)
    (row : Nat) : Except Exception DynamicAny :=
  rs.data.position name >>= fun col => rs.valueAs T col row

/-- Modelled from the spec: `isNull(name)` of `RecordSet.h`, which is not part
of the sources: whether the cell of the column called `name` in the current
row is null. -/
def RecordSet.isNullByName (rs : RecordSet) (name : String) :
    Except Exception Bool :=
  rs.data.position name >>= fun col => rs.data.isNull col rs._currentRow

/-- The method `RecordSet::value(std::size_t col, std::size_t row)`. -/
def RecordSet.value (rs : RecordSet) (col row : Nat) :
    Except Exception DynamicAny :=
  rs.data.columnType col >>= fun t =>
    match t with
    | .FDT_BOOL => rs.valueAs .bool col row
    | .FDT_INT8 => rs.valueAs .Int8 col row
    | .FDT_UINT8 => rs.valueAs .UInt8 col row
    | .FDT_INT16 => rs.valueAs .Int16 col row
    | .FDT_UINT16 => rs.valueAs .UInt16 col row
    | .FDT_INT32 => rs.valueAs .Int32 col row
    | .FDT_UINT32 => rs.valueAs .UInt32 col row
    | .FDT_INT64 => rs.valueAs .Int64 col row
    | .FDT_UINT64 => rs.valueAs .UInt64 col row
    | .FDT_FLOAT => rs.valueAs .float col row
    | .FDT_DOUBLE => rs.valueAs .double col row
    | .FDT_STRING => rs.valueAs .string col row
    | .FDT_BLOB => rs.valueAs .BLOB col row
    | .FDT_DATE => rs.valueAs .Date col row
    | .FDT_TIME => rs.valueAs .Time col row
    | .FDT_TIMESTAMP => rs.valueAs .DateTime col row
    | .FDT_OTHER _ => throw Exception.UnknownTypeException

/-- The method `RecordSet::value(const std::string& name, std::size_t row)`. -/
def RecordSet.valueByName (rs : RecordSet) (name : String) (row : Nat) :
    Except Exception DynamicAny :=
  rs.columnTypeByName name >>= fun t =>
    match t with
    | .FDT_BOOL => rs.valueAsByName .bool name row
    | .FDT_INT8 => rs.valueAsByName .Int8 name row
    | .FDT_UINT8 => rs.valueAsByName .UInt8 name row
    | .FDT_INT16 => rs.valueAsByName .Int16 name row
    | .FDT_UINT16 => rs.valueAsByName .UInt16 name row
    | .FDT_INT32 => rs.valueAsByName .Int32 name row
    | .FDT_UINT32 => rs.valueAsByName .UInt32 name row
    | .FDT_INT64 => rs.valueAsByName .Int64 name row
    | .FDT_UINT64 => rs.valueAsByName .UInt64 name row
    | .FDT_FLOAT => rs.valueAsByName .float name row
    | .FDT_DOUBLE => rs.valueAsByName .double name row
    | .FDT_STRING => rs.valueAsByName .string name row
    | .FDT_BLOB => rs.valueAsByName .BLOB name row
    | .FDT_DATE => rs.valueAsByName .Date name row
    | .FDT_TIME => rs.valueAsByName .Time name row
    | .FDT_TIMESTAMP => rs.valueAsByName .DateTime name row
    | .FDT_OTHER _ => throw Exception.UnknownTypeException

/-- The method `RecordSet::nvl(const std::string& name, const DynamicAny& deflt)`. -/
def RecordSet.nvlByName (rs : RecordSet) (name : String) (deflt : DynamicAny) :
    Except Exception DynamicAny :=
  rs.isNullByName name >>= fun null =>
    if null then pure deflt else rs.valueByName name rs._currentRow

/-- The method `RecordSet::nvl(std::size_t index, const DynamicAny& deflt)`. -/
def RecordSet.nvl (rs : RecordSet) (index : Nat) (deflt : DynamicAny) :
    Except Exception DynamicAny :=
  rs.data.isNull index rs._currentRow >>= fun null =>
    if null then pure deflt else rs.value index rs._currentRow

/-! ## Rows -/

/-- The method `Statement::metaColumn(std::size_t pos)` of `Statement.h`, followed by
`name()`: the position is cast to `UInt32`. -/
def RecordSet.metaColumnName (rs : RecordSet) (pos : Nat) :
    Except Exception String :=
  rs.data.columnName (pos % UINT32_MOD)

/-- The loop of `RecordSet::row` that fills a row made from the names of an
earlier row: `pRow->set(i, value(i, pos))` for `i` from `0` to
`columnCount() - 1`. -/
def RecordSet.fillBySet (rs : RecordSet) (pos : Nat) (pRow : Row) :
    Except Exception Row :=
  (List.range rs.data.columnCount).foldlM
    (fun r i => rs.value i pos >>= fun v => r.set i v) pRow

/-- The loop of `RecordSet::row` that fills a new row:
`pRow->append(metaColumn(static_cast<UInt32>(pos)).name(), value(i, pos))` for
`i` from `0` to `columnCount() - 1`; the name is read before the value. -/
def RecordSet.fillByAppend (rs : RecordSet) (pos : Nat) (pRow : Row) :
    Except Exception Row :=
  (List.range rs.data.columnCount).foldlM
    (fun r i =>
      rs.metaColumnName (pos % UINT32_MOD) >>= fun name =>
      rs.value i pos >>= fun v =>
      pure (r.append name v)) pRow

/-- The part of `RecordSet::row` that makes the row of a position that is not
in `_rowMap`: `if (_rowMap.size())` the row takes over the names of the first
row of the map, `_rowMap.begin()->second->names()`, and is filled by `set`;
otherwise it is a new row filled by `append`. -/
def RecordSet.newRow (rs : RecordSet) (pos : Nat) : Except Exception Row :=
  match rs._rowMap with
  | (_, first) :: _ => rs.fillBySet pos (Row.ofNames first.names)
  | [] => rs.fillByAppend pos Row.new

/-- The method `RecordSet::row(std::size_t pos)`: the row returned and the record set
afterwards. -/
def RecordSet.row (rs : RecordSet) (pos : Nat) :
    Except Exception (Row × RecordSet) :=
  if pos > subSize rs.data.rowCount 1 then throw Exception.RangeException
  else
    match rs._rowMap.find pos with
    | none =>
      rs.newRow pos >>= fun pRow =>
      pure (pRow, { rs with _rowMap := rs._rowMap.insert pos pRow })
    | some pRow => pure (pRow, rs)

/-- A sequence of calls of `RecordSet::row`, each of which returns: the record
set after the last of them. -/
def RecordSet.rows (rs : RecordSet) : List Nat → Except Exception RecordSet
  | [] => pure rs
  | pos :: rest => rs.row pos >>= fun res => RecordSet.rows res.2 rest

/-- The table of claim C9, in the words of the specification: the sixteen
supported column types and the C++ type of the typed accessor of each; no
other column type has one. -/
def supportedType : ColumnDataType → Option CppType
  | .FDT_BOOL => some .bool
  | .FDT_INT8 => some .Int8
  | .FDT_UINT8 => some .UInt8
  | .FDT_INT16 => some .Int16
  | .FDT_UINT16 => some .UInt16
  | .FDT_INT32 => some .Int32
  | .FDT_UINT32 => some .UInt32
  | .FDT_INT64 => some .Int64
  | .FDT_UINT64 => some .UInt64
  | .FDT_FLOAT => some .float
  | .FDT_DOUBLE => some .double
  | .FDT_STRING => some .string
  | .FDT_BLOB => some .BLOB
  | .FDT_DATE => some .Date
  | .FDT_TIME => some .Time
  | .FDT_TIMESTAMP => some .DateTime
  | .FDT_OTHER _ => none

end Poco.Data

namespace Poco.Data.ODBC

open Poco.Data

/-- The ODBC `Extractor`, as `extractImpl` sees it: the calls it makes whose
definitions (`ODBCColumn`, `Extractor.cpp`) are not part of the sources are the
fields. -/
structure Extractor where
  /-- The result of `ODBCColumn(_rStmt, pos).type()`. -/
  columnType : Nat → Except Exception ColumnDataType
  /-- The typed `extract(pos, T& val)`: from the incoming `val`, the flag
  returned and `val` afterwards. -/
  extract : CppType → Nat → String → Except Exception (Bool × String)
  /-- The value of a local variable declared without initialiser, `bool b;`,
  `float f;` or `double d;`. -/
  indeterminate : CppType → String
  /-- The value of a default-constructed `Poco::DateTime`, the current time. -/
  now : String

/-- One case of the `switch` of `extractImpl`:
`{ T i = init; extract(pos, i); val = i; return true; }`. -/
def Extractor.extractCase (ex : Extractor) (T : CppType) (init : String)
    (pos : Nat) : Except Exception (Bool × DynamicAny) :=
  ex.extract T pos init >>= fun res => pure (true, DynamicAny.holding T res.2)

/-- The method `Extractor::extractImpl(std::size_t pos, T& val)` for `T` one of `Any` and
`DynamicAny`: the flag returned and `val` afterwards. -/
def Extractor.extractImpl (ex : Extractor) (pos : Nat) (_val : DynamicAny) :
    Except Exception (Bool × DynamicAny) :=
  ex.columnType pos >>= fun t =>
    match t with
    | .FDT_INT8 => ex.extractCase .Int8 "0" pos
    | .FDT_UINT8 => ex.extractCase .UInt8 "0" pos
    | .FDT_INT16 => ex.extractCase .Int16 "0" pos
    | .FDT_UINT16 => ex.extractCase .UInt16 "0" pos
    | .FDT_INT32 => ex.extractCase .Int32 "0" pos
    | .FDT_UINT32 => ex.extractCase .UInt32 "0" pos
    | .FDT_INT64 => ex.extractCase .Int64 "0" pos
    | .FDT_UINT64 => ex.extractCase .UInt64 "0" pos
    | .FDT_BOOL => ex.extractCase .bool (ex.indeterminate .bool) pos
    | .FDT_FLOAT => ex.extractCase .float (ex.indeterminate .float) pos
    | .FDT_DOUBLE => ex.extractCase .double (ex.indeterminate .double) pos
    | .FDT_STRING => ex.extractCase .string "" pos
    | .FDT_BLOB => ex.extractCase .BLOB "" pos
    | .FDT_TIMESTAMP => ex.extractCase .DateTime ex.now pos
    | _ => throw Exception.DataFormatException

end Poco.Data.ODBC

namespace Poco.Data

/-! ## Sample record sets -/

/-- The result of a statement that produced no column and no row. -/
def emptyData : FetchedData where
  rowCount := 0
  columnCount := 0
  columnType := fun _ => throw Exception.RangeException
  columnName := fun _ => throw Exception.RangeException
  position := fun _ => throw Exception.NotFoundException
  cell := fun _ _ _ => throw Exception.RangeException
  isNull := fun _ _ => throw Exception.RangeException

/-- The result of `SELECT id, name FROM Person` on a table of two persons, the
second of them without a name: the column `id` is an `Int32`, the column `name`
a string. -/
def personData : FetchedData where
  rowCount := 2
  columnCount := 2
  columnType := fun col =>
    match col with
    | 0 => pure .FDT_INT32
    | 1 => pure .FDT_STRING
    | _ => throw Exception.RangeException
  columnName := fun col =>
    match col with
    | 0 => pure "id"
    | 1 => pure "name"
    | _ => throw Exception.RangeException
  position := fun name =>
    if name = "id" then pure 0
    else if name = "name" then pure 1
    else throw Exception.NotFoundException
  cell := fun T col row =>
    match col, row, T with
    | 0, 0, .Int32 => pure "1"
    | 0, 1, .Int32 => pure "2"
    | 1, 0, .string => pure "alice"
    | 1, 1, .string => pure ""
    | 0, 0, _ => throw Exception.BadCastException
    | 0, 1, _ => throw Exception.BadCastException
    | 1, 0, _ => throw Exception.BadCastException
    | 1, 1, _ => throw Exception.BadCastException
    | _, _, _ => throw Exception.RangeException
  isNull := fun col row =>
    match col, row with
    | 0, 0 => pure false
    | 0, 1 => pure false
    | 1, 0 => pure false
    | 1, 1 => pure true
    | _, _ => throw Exception.RangeException

/-- The result of a statement with one row and three columns: `born`, a date,
`shape`, of a type of the backend that is none of the sixteen supported ones,
and `at`, a time. -/
def mixedData : FetchedData where
  rowCount := 1
  columnCount := 3
  columnType := fun col =>
    match col with
    | 0 => pure .FDT_DATE
    | 1 => pure (.FDT_OTHER 16)
    | 2 => pure .FDT_TIME
    | _ => throw Exception.RangeException
  columnName := fun col =>
    match col with
    | 0 => pure "born"
    | 1 => pure "shape"
    | 2 => pure "at"
    | _ => throw Exception.RangeException
  position := fun name =>
    if name = "born" then pure 0
    else if name = "shape" then pure 1
    else if name = "at" then pure 2
    else throw Exception.NotFoundException
  cell := fun T col row =>
    match col, row, T with
    | 0, 0, .Date => pure "2008-02-29"
    | 2, 0, .Time => pure "23:59:59"
    | 0, 0, _ => throw Exception.BadCastException
    | 1, 0, _ => throw Exception.BadCastException
    | 2, 0, _ => throw Exception.BadCastException
    | _, _, _ => throw Exception.RangeException
  isNull := fun col row =>
    match col, row with
    | 0, 0 => pure false
    | 1, 0 => pure false
    | 2, 0 => pure false
    | _, _ => throw Exception.RangeException

end Poco.Data

namespace Poco.Data.ODBC

open Poco.Data

/-- An extractor on a row whose column 0 is reported as a date and whose
column 1 is reported as a time, both not null: the typed extraction of a `Date`
at position 0 and of a `Time` at position 1 deliver the values. -/
def dateExtractor : Extractor where
  columnType := fun pos =>
    match pos with
    | 0 => pure .FDT_DATE
    | 1 => pure .FDT_TIME
    | _ => throw Exception.StatementException
  extract := fun T pos val =>
    match pos, T with
    | 0, .Date => pure (true, "2008-02-29")
    | 1, .Time => pure (true, "23:59:59")
    | 0, _ => pure (false, val)
    | 1, _ => pure (false, val)
    | _, _ => throw Exception.StatementException
  indeterminate := fun _ => "?"
  now := "2008-03-01T00:00:00Z"

end Poco.Data.ODBC

namespace Poco.Data.ODBC

open Poco.Data

/-! ## Typed extraction -/

/-- Modelled from the spec: the macro `SQL_NULL_DATA` of the ODBC headers, which
are not part of the sources: the designated sentinel length that indicates SQL
NULL, which the comment on `isNullLengthIndicator` gives as the literal -1. -/
def SQL_NULL_DATA : Int := -1

/-- The conversion `(int) val` of a `SQLLEN`: the value modulo `2 ^ 32`, taken
in the range of a 32-bit `int` (the conversion that every supported compiler
makes, and the one that C++20 prescribes). -/
def toInt (val : Int) : Int := (val + 2147483648) % 4294967296 - 2147483648

/-- The method `Extractor::isNullLengthIndicator(SQLLEN val)`. -/
def isNullLengthIndicator (val : Int) : Bool := decide (SQL_NULL_DATA = toInt val)

/-- What one call of `SQLGetData` leaves behind: the return code, the content of
the value buffer and the content of the length indicator. -/
structure GetDataResult where
  rc : Int
  value : String
  indicator : Int
  deriving DecidableEq, Repr

/-- The ODBC `Extractor`, as the typed extraction paths `extractBoundImpl` and
`extractManualImpl` see it: the calls they make whose definitions
(`Extractor.cpp`, `Preparation`, `Utility`, the ODBC driver) are not part of the
sources are the fields. -/
structure TypedSource where
  /-- The result of `isNull(pos)`. -/
  isNull : Nat → Except Exception Bool
  /-- The prepared buffer `_rPreparation[pos]`, a `Poco::Any`: the type it
  holds and the value. -/
  prepared : Nat → Except Exception (CppType × String)
  /-- The call `SQLGetData(_rStmt, column, cType, &value, 0, &_lengths[pos])`
  for a value buffer of type `T`. -/
  SQLGetData : Nat → Int → CppType → GetDataResult
  /-- The result of `Utility::isError(rc)`. -/
  isError : Int → Bool
  /-- The result of `sizeof(T)`. -/
  sizeOf : CppType → Nat
  /-- Whether `poco_assert_dbg` is compiled in (a debug build). -/
  debug : Bool

/-- The method `Extractor::extractBoundImpl<T>(pos, val)`: the flag returned and
`val` afterwards. -/
def TypedSource.extractBoundImpl (src : TypedSource) (T : CppType) (pos : Nat)
    (val : String) : Except Exception (Bool × String) :=
  src.isNull pos >>= fun null =>
    if null then pure (false, val)
    else
      src.prepared pos >>= fun any =>
        if T = any.1 then pure (true, any.2)
        else throw Exception.AssertionViolationException

/-- The method `Extractor::resizeLengths(pos)`, on the member `_lengths`. -/
def resizeLengths (pos : Nat) (_lengths : List Int) : List Int :=
  if pos ≥ _lengths.length then
    _lengths ++ List.replicate (pos + 1 - _lengths.length) 0
  else _lengths

/-- The method `Extractor::extractManualImpl<T>(pos, val, cType)`: the flag
returned and `val` afterwards, and the member `_lengths` afterwards.  The
column number is `(SQLUSMALLINT) pos + 1`; the comparison of the assertion is
made in `std::size_t`. -/
def TypedSource.extractManualImpl (src : TypedSource) (T : CppType) (pos : Nat)
    (val : String) (cType : Int) (_lengths : List Int) :
    Except Exception ((Bool × String) × List Int) :=
  let res := src.SQLGetData (pos % 65536 + 1) cType T
  let lengths := (resizeLengths pos _lengths).set pos res.indicator
  if src.isError res.rc then throw Exception.StatementException
  else if isNullLengthIndicator (lengths.getD pos 0) then pure ((false, val), lengths)
  else if src.debug ∧ ¬ (lengths.getD pos 0 % 18446744073709551616).toNat ≤ src.sizeOf T then
    throw Exception.AssertionViolationException
  else pure ((true, res.value), lengths)

end Poco.Data.ODBC

namespace Poco.Data

/-! ## Statements -/

/-- Modelled from the spec: the enumeration `StatementImpl::State`, whose
declaration is not part of the sources.  The three named enumerators are the
ones `Statement.h` names; `ST_OTHER code` stands for every further state, such
as the one of a statement that is executing. -/
inductive State where
  | ST_INITIALIZED
  | ST_PAUSED
  | ST_DONE
  | ST_OTHER (code : Nat)
  deriving DecidableEq, Repr

/-- The enumeration `Statement::Storage`. -/
inductive Storage where
  | STORAGE_DEQUE
  | STORAGE_VECTOR
  | STORAGE_LIST
  | STORAGE_UNKNOWN
  deriving DecidableEq, Repr

/-- Modelled from the spec: the class `Limit`, which is not part of the
sources: "Limit(n, hardStop: bool)", together with the mark of a lower bound of
a range. -/
structure Limit where
  value : Nat
  hardLimit : Bool
  isLowerLimit : Bool
  deriving DecidableEq, Repr

/-- Modelled from the spec: the class `Range`, which is not part of the
sources: "Range(lower, upper)", with its accessors `lower()` and `upper()`. -/
structure Range where
  lower : Limit
  upper : Limit
  deriving DecidableEq, Repr

/-- Modelled from the spec: the class `StatementImpl`, which is not part of the
sources: the state of the lifecycle, the number of extractions registered, the
storage kind and the paging settings. -/
structure StatementImpl where
  /-- The result of `getState()`. -/
  _state : State
  /-- The result of `extractionCount()`. -/
  _extractionCount : Nat
  /-- The result of `getStorage()`. -/
  _storage : Storage
  /-- The lower bound of the rows to extract. -/
  _lowerLimit : Nat
  /-- The limit of the rows to extract, when one is set. -/
  _extrLimit : Option Limit
  deriving DecidableEq, Repr

/-- Modelled from the spec: `StatementImpl::setStorage`, which is not part of
the sources: "Storage-kind selection may only change while
`extractionCount() == 0 && (state == Initialized || state == Done)`; otherwise
fails with StateError". -/
def StatementImpl.setStorage (impl : StatementImpl) (kind : Storage) :
    Except Exception StatementImpl :=
  if impl._extractionCount = 0 ∧
      (impl._state = State.ST_INITIALIZED ∨ impl._state = State.ST_DONE) then
    pure { impl with _storage := kind }
  else throw Exception.StateError

/-- A `Statement`: the implementation it forwards to, the asynchronous flag and
the result of the last asynchronous execution, when there is one. -/
structure Statement where
  _pImpl : StatementImpl
  _async : Bool
  _pResult : Option (Except Exception Nat)

/-- The method `Statement::extractionCount`. -/
def Statement.extractionCount (s : Statement) : Nat := s._pImpl._extractionCount

/-- The method `Statement::storage`. -/
def Statement.storage (s : Statement) : Storage := s._pImpl._storage

/-- The method `Statement::initialized`. -/
def Statement.initialized (s : Statement) : Bool :=
  s._pImpl._state == State.ST_INITIALIZED

/-- The method `Statement::paused`. -/
def Statement.paused (s : Statement) : Bool :=
  s._pImpl._state == State.ST_PAUSED

/-- The method `Statement::done`. -/
def Statement.done (s : Statement) : Bool :=
  s._pImpl._state == State.ST_DONE

/-- The method `Statement::canModifyStorage`. -/
def Statement.canModifyStorage (s : Statement) : Bool :=
  (0 == s.extractionCount) && (s.initialized || s.done)

/-- The method `Statement::setStorage`: the statement afterwards. -/
def Statement.setStorage (s : Statement) (kind : Storage) :
    Except Exception Statement :=
  s._pImpl.setStorage kind >>= fun impl => pure { s with _pImpl := impl }

/-- The method `Statement::isAsync`. -/
def Statement.isAsync (s : Statement) : Bool := s._async

/-- The operator `Statement::operator , (const Limit&)`, over the
`StatementImpl::setExtractionLimit` it forwards to, which is not part of the
sources: the statement afterwards. -/
def Statement.commaLimit
    (setExtractionLimit : StatementImpl → Limit → Except Exception StatementImpl)
    (s : Statement) (extrLimit : Limit) : Except Exception Statement :=
  setExtractionLimit s._pImpl extrLimit >>= fun impl =>
    pure { s with _pImpl := impl }

/-- The operator `Statement::operator , (const Range&)`, over the
`StatementImpl::setExtractionLimit` it forwards to, which is not part of the
sources: the statement afterwards. -/
def Statement.commaRange
    (setExtractionLimit : StatementImpl → Limit → Except Exception StatementImpl)
    (s : Statement) (extrRange : Range) : Except Exception Statement :=
  setExtractionLimit s._pImpl extrRange.lower >>= fun impl1 =>
    setExtractionLimit impl1 extrRange.upper >>= fun impl2 =>
      pure { s with _pImpl := impl2 }

/-- Modelled from the spec: `Statement::setAsync`, which is not part of the
sources: it sets the asynchronous flag. -/
def Statement.setAsync (s : Statement) (async : Bool) : Statement :=
  { s with _async := async }

/-- Modelled from the spec: `Statement::executeAsync`, which is not part of the
sources, over the execution `run` of the backend: it "schedules one `execute()`
invocation on a worker", a failure inside the worker "is captured and re-raised
to the caller on `wait()`", and the call goes "without flipping the sticky
flag". -/
def Statement.executeAsync
    (run : StatementImpl → Except Exception (StatementImpl × Nat))
    (s : Statement) : Statement :=
  match run s._pImpl with
  | .ok res => { s with _pImpl := res.1, _pResult := some (.ok res.2) }
  | .error e => { s with _pResult := some (.error e) }

/-- Modelled from the spec: `Statement::execute`, which is not part of the
sources, over the execution `run` of the backend: on a statement marked
asynchronous it "also routes through the async path", and then returns zero;
otherwise it runs on the thread of the caller and returns the rows produced. -/
def Statement.execute
    (run : StatementImpl → Except Exception (StatementImpl × Nat))
    (s : Statement) : Except Exception (Nat × Statement) :=
  if s._async then pure (0, s.executeAsync run)
  else run s._pImpl >>= fun res => pure (res.2, { s with _pImpl := res.1 })

/-- The two ways to execute a statement. -/
inductive ExecCall where
  | execute
  | executeAsync
  deriving DecidableEq, Repr

/-- The statement after a sequence of `execute()` and `executeAsync()` calls; a
call of `execute()` that throws leaves the statement as it is. -/
def Statement.afterCalls
    (run : StatementImpl → Except Exception (StatementImpl × Nat))
    (s : Statement) : List ExecCall → Statement
  | [] => s
  | ExecCall.execute :: rest =>
    match s.execute run with
    | .ok res => Statement.afterCalls run res.2 rest
    | .error _ => Statement.afterCalls run s rest
  | ExecCall.executeAsync :: rest =>
    Statement.afterCalls run (s.executeAsync run) rest

end Poco.Data

namespace Poco.Data.SQLite

open Poco.Data

/-! ## SQLite utilities -/

/-- The search `std::string::find(sub)`: the first position at which `sub`
occurs in `s`, `none` for `npos`. -/
def find (s sub : List Char) : Option Nat :=
  match s with
  | [] => if sub.isPrefixOf [] then some 0 else none
  | c :: rest =>
    if sub.isPrefixOf (c :: rest) then some 0
    else (find rest sub).map (fun i => i + 1)

/-- Modelled from the spec: `Poco::toUpperInPlace` of `Poco/String.h`, which is
not part of the sources: the ASCII upper-casing of every character. -/
def toUpperInPlace (s : List Char) : List Char := s.map Char.toUpper

/-- The method `Utility::getColumnType`, on the result of
`sqlite3_column_decltype(pStmt, pos)`, `none` for a null pointer. -/
def getColumnType (pc : Option String) : Except Exception ColumnDataType :=
  let sqliteType := toUpperInPlace (match pc with
    | some decl => decl.toList
    | none => "".toList)
  if find sqliteType "INT".toList ≠ none then pure .FDT_INT64
  else if sqliteType.isEmpty = true ∨
      find sqliteType "CHAR".toList ≠ none ∨
      find sqliteType "CLOB".toList ≠ none ∨
      find sqliteType "TEXT".toList ≠ none then pure .FDT_STRING
  else if find sqliteType "REAL".toList ≠ none ∨
      find sqliteType "FLOA".toList ≠ none ∨
      find sqliteType "DOUB".toList ≠ none then pure .FDT_DOUBLE
  else if find sqliteType "BLOB".toList ≠ none then pure .FDT_BLOB
  else if find sqliteType "DATE".toList ≠ none then pure .FDT_TIMESTAMP
  else throw Exception.NotFoundException

/-- Whether the keyword `kw` occurs in `s`. -/
abbrev containsKeyword (s : List Char) (kw : String) : Prop := kw.toList <:+: s

/-- The reference definition of claim C19, in the words of the specification,
on the declared type `s`, `none` when no declared type exists; the result
`none` stands for NotFoundException. -/
def referenceColumnType (s : Option String) : Option ColumnDataType :=
  let u := (s.getD "").toList.map Char.toUpper
  if containsKeyword u "INT" then some .FDT_INT64
  else if u = [] ∨ containsKeyword u "CHAR" ∨ containsKeyword u "CLOB" ∨
      containsKeyword u "TEXT" then some .FDT_STRING
  else if containsKeyword u "REAL" ∨ containsKeyword u "FLOA" ∨
      containsKeyword u "DOUB" then some .FDT_DOUBLE
  else if containsKeyword u "BLOB" then some .FDT_BLOB
  else if containsKeyword u "DATE" then some .FDT_TIMESTAMP
  else none

/-- Modelled from the spec: the result codes of `sqlite3.h`, which is not part
of the sources, with the values of the SQLite C interface. -/
def SQLITE_OK : Int := 0

/-- The result code `SQLITE_ERROR` of `sqlite3.h`. -/
def SQLITE_ERROR : Int := 1

/-- The result code `SQLITE_INTERNAL` of `sqlite3.h`. -/
def SQLITE_INTERNAL : Int := 2

/-- The result code `SQLITE_PERM` of `sqlite3.h`. -/
def SQLITE_PERM : Int := 3

/-- The result code `SQLITE_ABORT` of `sqlite3.h`. -/
def SQLITE_ABORT : Int := 4

/-- The result code `SQLITE_BUSY` of `sqlite3.h`. -/
def SQLITE_BUSY : Int := 5

/-- The result code `SQLITE_LOCKED` of `sqlite3.h`. -/
def SQLITE_LOCKED : Int := 6

/-- The result code `SQLITE_NOMEM` of `sqlite3.h`. -/
def SQLITE_NOMEM : Int := 7

/-- The result code `SQLITE_READONLY` of `sqlite3.h`. -/
def SQLITE_READONLY : Int := 8

/-- The result code `SQLITE_INTERRUPT` of `sqlite3.h`. -/
def SQLITE_INTERRUPT : Int := 9

/-- The result code `SQLITE_IOERR` of `sqlite3.h`. -/
def SQLITE_IOERR : Int := 10

/-- The result code `SQLITE_CORRUPT` of `sqlite3.h`. -/
def SQLITE_CORRUPT : Int := 11

/-- The result code `SQLITE_NOTFOUND` of `sqlite3.h`. -/
def SQLITE_NOTFOUND : Int := 12

/-- The result code `SQLITE_FULL` of `sqlite3.h`. -/
def SQLITE_FULL : Int := 13

/-- The result code `SQLITE_CANTOPEN` of `sqlite3.h`. -/
def SQLITE_CANTOPEN : Int := 14

/-- The result code `SQLITE_PROTOCOL` of `sqlite3.h`. -/
def SQLITE_PROTOCOL : Int := 15

/-- The result code `SQLITE_EMPTY` of `sqlite3.h`. -/
def SQLITE_EMPTY : Int := 16

/-- The result code `SQLITE_SCHEMA` of `sqlite3.h`. -/
def SQLITE_SCHEMA : Int := 17

/-- The result code `SQLITE_TOOBIG` of `sqlite3.h`. -/
def SQLITE_TOOBIG : Int := 18

/-- The result code `SQLITE_CONSTRAINT` of `sqlite3.h`. -/
def SQLITE_CONSTRAINT : Int := 19

/-- The result code `SQLITE_MISMATCH` of `sqlite3.h`. -/
def SQLITE_MISMATCH : Int := 20

/-- The result code `SQLITE_MISUSE` of `sqlite3.h`. -/
def SQLITE_MISUSE : Int := 21

/-- The result code `SQLITE_NOLFS` of `sqlite3.h`. -/
def SQLITE_NOLFS : Int := 22

/-- The result code `SQLITE_AUTH` of `sqlite3.h`. -/
def SQLITE_AUTH : Int := 23

/-- The result code `SQLITE_FORMAT` of `sqlite3.h`. -/
def SQLITE_FORMAT : Int := 24

/-- The result code `SQLITE_NOTADB` of `sqlite3.h`. -/
def SQLITE_NOTADB : Int := 26

/-- The result code `SQLITE_RANGE` of `sqlite3.h`. -/
def SQLITE_RANGE : Int := 25

/-- The result code `SQLITE_ROW` of `sqlite3.h`. -/
def SQLITE_ROW : Int := 100

/-- The result code `SQLITE_DONE` of `sqlite3.h`. -/
def SQLITE_DONE : Int := 101

/-- The classes of exception that `Utility::throwException` throws. -/
inductive SQLiteExceptionClass where
  | InvalidSQLStatementException
  | InternalDBErrorException
  | DBAccessDeniedException
  | ExecutionAbortedException
  | DBLockedException
  | TableLockedException
  | NoMemoryException
  | ReadOnlyException
  | InterruptException
  | IOErrorException
  | CorruptImageException
  | TableNotFoundException
  | DatabaseFullException
  | CantOpenDBFileException
  | LockProtocolException
  | SchemaDiffersException
  | RowTooBigException
  | ConstraintViolationException
  | DataTypeMismatchException
  | InvalidLibraryUseException
  | OSFeaturesMissingException
  | AuthorizationDeniedException
  | SQLiteException
  deriving DecidableEq, Repr

/-- An exception thrown by `Utility::throwException`: its class, its message
and its argument. -/
structure SQLiteError where
  cls : SQLiteExceptionClass
  message : String
  arg : String
  deriving DecidableEq, Repr

/-- The method `Utility::throwException(int rc, const std::string& addErrMsg)`;
`Poco::NumberFormatter::format(rc)` is the decimal rendering of `rc`. -/
def throwException (rc : Int) (addErrMsg : String) : Except SQLiteError Unit :=
  if rc = SQLITE_OK then pure ()
  else if rc = SQLITE_ERROR then
    throw ⟨.InvalidSQLStatementException, "SQL error or missing database", addErrMsg⟩
  else if rc = SQLITE_INTERNAL then
    throw ⟨.InternalDBErrorException, "An internal logic error in SQLite", addErrMsg⟩
  else if rc = SQLITE_PERM then
    throw ⟨.DBAccessDeniedException, "Access permission denied", addErrMsg⟩
  else if rc = SQLITE_ABORT then
    throw ⟨.ExecutionAbortedException, "Callback routine requested an abort", addErrMsg⟩
  else if rc = SQLITE_BUSY then
    throw ⟨.DBLockedException, "The database file is locked", addErrMsg⟩
  else if rc = SQLITE_LOCKED then
    throw ⟨.TableLockedException, "A table in the database is locked", addErrMsg⟩
  else if rc = SQLITE_NOMEM then
    throw ⟨.NoMemoryException, "A malloc() failed", addErrMsg⟩
  else if rc = SQLITE_READONLY then
    throw ⟨.ReadOnlyException, "Attempt to write a readonly database", addErrMsg⟩
  else if rc = SQLITE_INTERRUPT then
    throw ⟨.InterruptException, "Operation terminated by sqlite_interrupt()", addErrMsg⟩
  else if rc = SQLITE_IOERR then
    throw ⟨.IOErrorException, "Some kind of disk I/O error occurred", addErrMsg⟩
  else if rc = SQLITE_CORRUPT then
    throw ⟨.CorruptImageException, "The database disk image is malformed", addErrMsg⟩
  else if rc = SQLITE_NOTFOUND then
    throw ⟨.TableNotFoundException, "Table or record not found", addErrMsg⟩
  else if rc = SQLITE_FULL then
    throw ⟨.DatabaseFullException, "Insertion failed because database is full", addErrMsg⟩
  else if rc = SQLITE_CANTOPEN then
    throw ⟨.CantOpenDBFileException, "Unable to open the database file", addErrMsg⟩
  else if rc = SQLITE_PROTOCOL then
    throw ⟨.LockProtocolException, "Database lock protocol error", addErrMsg⟩
  else if rc = SQLITE_EMPTY then
    throw ⟨.InternalDBErrorException, "(Internal Only) Database table is empty", addErrMsg⟩
  else if rc = SQLITE_SCHEMA then
    throw ⟨.SchemaDiffersException, "The database schema changed", addErrMsg⟩
  else if rc = SQLITE_TOOBIG then
    throw ⟨.RowTooBigException, "Too much data for one row of a table", addErrMsg⟩
  else if rc = SQLITE_CONSTRAINT then
    throw ⟨.ConstraintViolationException, "Abort due to constraint violation", addErrMsg⟩
  else if rc = SQLITE_MISMATCH then
    throw ⟨.DataTypeMismatchException, "Data type mismatch", addErrMsg⟩
  else if rc = SQLITE_MISUSE then
    throw ⟨.InvalidLibraryUseException, "Library used incorrectly", addErrMsg⟩
  else if rc = SQLITE_NOLFS then
    throw ⟨.OSFeaturesMissingException, "Uses OS features not supported on host", addErrMsg⟩
  else if rc = SQLITE_AUTH then
    throw ⟨.AuthorizationDeniedException, "Authorization denied", addErrMsg⟩
  else if rc = SQLITE_FORMAT then
    throw ⟨.CorruptImageException, "Auxiliary database format error", addErrMsg⟩
  else if rc = SQLITE_NOTADB then
    throw ⟨.CorruptImageException, "File opened that is not a database file", addErrMsg⟩
  else if rc = SQLITE_RANGE then
    throw ⟨.InvalidSQLStatementException, "Bind Parameter out of range (Access of invalid position 0? bind starts with 1!)", addErrMsg⟩
  else if rc = SQLITE_ROW then pure ()
  else if rc = SQLITE_DONE then pure ()
  else throw ⟨.SQLiteException, "Unkown error code: " ++ toString rc, addErrMsg⟩

/-- The result codes that have a case of their own in `Utility::throwException`. -/
def listedCodes : List Int :=
  [SQLITE_OK, SQLITE_ERROR, SQLITE_INTERNAL, SQLITE_PERM,
    SQLITE_ABORT, SQLITE_BUSY, SQLITE_LOCKED, SQLITE_NOMEM,
    SQLITE_READONLY, SQLITE_INTERRUPT, SQLITE_IOERR, SQLITE_CORRUPT,
    SQLITE_NOTFOUND, SQLITE_FULL, SQLITE_CANTOPEN, SQLITE_PROTOCOL,
    SQLITE_EMPTY, SQLITE_SCHEMA, SQLITE_TOOBIG, SQLITE_CONSTRAINT,
    SQLITE_MISMATCH, SQLITE_MISUSE, SQLITE_NOLFS, SQLITE_AUTH,
    SQLITE_FORMAT, SQLITE_NOTADB, SQLITE_RANGE, SQLITE_ROW,
    SQLITE_DONE]

end Poco.Data.SQLite

namespace Poco.Data.ODBC

open Poco.Data

/-! ## Sample extractors and statements -/

/-- A fetched row of two columns: column 0 is prepared as an `Int64` and is
NULL, column 1 is prepared as an `Int32` and holds 42.  The driver answers with
the length indicator `SQL_NULL_DATA` for the first and with the length 4 for
the second. -/
def nullSource : TypedSource where
  isNull := fun pos =>
    match pos with
    | 0 => pure true
    | 1 => pure false
    | _ => throw Exception.RangeException
  prepared := fun pos =>
    match pos with
    | 0 => pure (.Int64, "0")
    | 1 => pure (.Int32, "42")
    | _ => throw Exception.RangeException
  SQLGetData := fun column _ _ =>
    match column with
    | 1 => ⟨0, "0", SQL_NULL_DATA⟩
    | 2 => ⟨0, "42", 4⟩
    | _ => ⟨-1, "0", 0⟩
  isError := fun rc => decide (rc ≠ 0 ∧ rc ≠ 1)
  sizeOf := fun T =>
    match T with
    | .bool => 1
    | .Int8 => 1
    | .UInt8 => 1
    | .Int16 => 2
    | .UInt16 => 2
    | .Int32 => 4
    | .UInt32 => 4
    | .float => 4
    | _ => 8
  debug := true

/-- An extractor over `nullSource` in bound mode: the column types are those
of the prepared buffers, and the typed `extract` is `extractBoundImpl`. -/
def nullExtractor : Extractor where
  columnType := fun pos =>
    match pos with
    | 0 => pure .FDT_INT64
    | 1 => pure .FDT_INT32
    | _ => throw Exception.StatementException
  extract := fun T pos val => nullSource.extractBoundImpl T pos val
  indeterminate := fun _ => "?"
  now := "2008-03-01T00:00:00Z"

end Poco.Data.ODBC

namespace Poco.Data

/-- The implementation of a statement that was not executed yet and has no
extraction. -/
def freshImpl : StatementImpl :=
  { _state := State.ST_INITIALIZED, _extractionCount := 0,
    _storage := Storage.STORAGE_DEQUE, _lowerLimit := 0, _extrLimit := none }

/-- A synchronous statement that was not executed yet. -/
def freshStatement : Statement :=
  { _pImpl := freshImpl, _async := false, _pResult := none }

/-- A synchronous statement with one extraction that a limit has paused. -/
def pausedStatement : Statement :=
  { _pImpl := { freshImpl with _state := State.ST_PAUSED, _extractionCount := 1 },
    _async := false, _pResult := none }

/-- Modelled from the spec: a `StatementImpl::setExtractionLimit`, which is not
part of the sources: a lower limit is the bound to skip to, any other limit is
the bound to stop at. -/
def sampleSetExtractionLimit (impl : StatementImpl) (l : Limit) :
    Except Exception StatementImpl :=
  if l.isLowerLimit then pure { impl with _lowerLimit := l.value }
  else pure { impl with _extrLimit := some l }

/-- An execution of the backend that produces five rows and completes. -/
def sampleRun (impl : StatementImpl) : Except Exception (StatementImpl × Nat) :=
  pure ({ impl with _state := State.ST_DONE }, 5)

end Poco.Data

namespace Poco.Crypto

/-! ## RSA stream transforms -/

/-- The padding modes of OpenSSL that `RSACipherImpl.cpp` names. -/
inductive Padding where
  | RSA_NO_PADDING
  | RSA_PKCS1_PADDING
  deriving DecidableEq, Repr

/-- The OpenSSL key `RSA`, as `RSACipherImpl.cpp` sees it: the functions of
the library it calls, which is not part of the sources, are the fields.  A
block operation gets the `flen` bytes at `from` and the padding mode, and
gives the value it returns and the bytes it writes to `to`. -/
structure RSA where
  /-- The result of `RSA_size(rsa)`. -/
  size : Nat
  /-- The call `RSA_public_encrypt(flen, from, to, rsa, padding)`. -/
  public_encrypt : List Nat → Padding → Int × List Nat
  /-- The call `RSA_private_decrypt(flen, from, to, rsa, padding)`. -/
  private_decrypt : List Nat → Padding → Int × List Nat

/-- The exceptions thrown in `RSACipherImpl.cpp`: the `Poco::IOException` of
`throwError`, and the failure of an assertion, with the condition asserted. -/
inductive CryptoException where
  | IOException
  | AssertionViolationException (cond : String)
  deriving DecidableEq, Repr

/-- The enumerator `OVERFLOW` of `RSAEncryptImpl` and of `RSADecryptImpl`. -/
def OVERFLOW : Int := 11

/-- The class `RSAEncryptImpl`: its members. -/
structure RSAEncryptImpl where
  _pos : Int
  _pRSA : RSA
  _pBuf : List Nat

/-- The class `RSADecryptImpl`: its members. -/
structure RSADecryptImpl where
  _pos : Int
  _pRSA : RSA
  _pBuf : List Nat

/-- The method `RSAEncryptImpl::blockSize`. -/
def RSAEncryptImpl.blockSize (impl : RSAEncryptImpl) : Nat := impl._pRSA.size

/-- The method `RSADecryptImpl::blockSize`. -/
def RSADecryptImpl.blockSize (impl : RSADecryptImpl) : Nat := impl._pRSA.size

/-- The constructor `RSAEncryptImpl::RSAEncryptImpl(const RSA*)`; the bytes of
the new buffer, which the code leaves uninitialised, are zero here. -/
def RSAEncryptImpl.new (pRSA : RSA) : RSAEncryptImpl :=
  { _pos := 0, _pRSA := pRSA, _pBuf := List.replicate pRSA.size 0 }

/-- The constructor `RSADecryptImpl::RSADecryptImpl(const RSA*)`; the bytes of
the new buffer, which the code leaves uninitialised, are zero here. -/
def RSADecryptImpl.new (pRSA : RSA) : RSADecryptImpl :=
  { _pos := 0, _pRSA := pRSA, _pBuf := List.replicate pRSA.size 0 }

/-- The call `std::memcpy(buf + pos, src, n)` for `0 <= pos` and `0 <= n`: the
bytes of `buf` afterwards.  A copy that ends beyond the end of `buf` shows as
a longer list. -/
def memcpy (buf : List Nat) (pos : Int) (src : List Nat) (n : Int) : List Nat :=
  buf.take pos.toNat ++ src.take n.toNat ++ buf.drop (pos.toNat + n.toNat)

/-- The variables of the loop of `transform`: the members `_pos` and `_pBuf`,
the parameters `input`, `inputLength` and `outputLength`, the bytes written
through `output`, the local `rc`, and, for the statements about them, the
arguments of the block operations called so far, which the code does not
keep. -/
structure Loop where
  _pos : Int
  _pBuf : List Nat
  input : List Nat
  inputLength : Int
  output : List Nat
  outputLength : Int
  rc : Int
  calls : List (List Nat × Padding)

/-- The number of bytes that one pass through the loop copies: `missing`
after `if (missing > inputLength) missing = inputLength`. -/
def Loop.missing (rsaSize : Int) (s : Loop) : Int :=
  if rsaSize - s._pos > s.inputLength then s.inputLength else rsaSize - s._pos

/-- The variables after the branch `missing == 0` of the loop, when the block
operation succeeds: `rc += tmp; output += tmp; outputLength -= tmp; _pos = 0`. -/
def Loop.afterBlock (op : List Nat → Padding → Int × List Nat) (rsaSize : Int)
    (s : Loop) : Loop :=
  { s with
    rc := s.rc + (op (s._pBuf.take rsaSize.toNat) .RSA_NO_PADDING).1
    output := s.output ++ (op (s._pBuf.take rsaSize.toNat) .RSA_NO_PADDING).2
    outputLength :=
      s.outputLength - (op (s._pBuf.take rsaSize.toNat) .RSA_NO_PADDING).1
    _pos := 0
    calls := s.calls ++ [(s._pBuf.take rsaSize.toNat, .RSA_NO_PADDING)] }

/-- The variables after the other branch of the loop:
`memcpy(_pBuf + _pos, input, missing); input += missing; _pos += missing;
inputLength -= missing`. -/
def Loop.afterCopy (rsaSize : Int) (s : Loop) : Loop :=
  { s with
    _pBuf := memcpy s._pBuf s._pos s.input (s.missing rsaSize)
    input := s.input.drop (s.missing rsaSize).toNat
    _pos := s._pos + s.missing rsaSize
    inputLength := s.inputLength - s.missing rsaSize }

/-- One pass through the body of the loop of `transform`.  `assertOutput`
tells whether the body has the `poco_assert (outputLength >= rsaSize)` of the
encryptor, `debug` whether `poco_assert_dbg` is compiled in, `op` is the block
operation.  An exception comes with the variables at the time it is thrown.
The local `rc`, an `int`, is taken without overflow. -/
def Loop.body (assertOutput debug : Bool)
    (op : List Nat → Padding → Int × List Nat) (rsaSize : Int) (s : Loop) :
    Except (CryptoException × Loop) Loop :=
  if debug = true ∧ ¬ rsaSize ≥ s._pos then
    throw (.AssertionViolationException "rsaSize >= _pos", s)
  else if rsaSize - s._pos = 0 then
    if assertOutput = true ∧ ¬ s.outputLength ≥ rsaSize then
      throw (.AssertionViolationException "outputLength >= rsaSize", s)
    else if (op (s._pBuf.take rsaSize.toNat) .RSA_NO_PADDING).1 = -1 then
      throw (.IOException,
        { s with calls := s.calls ++ [(s._pBuf.take rsaSize.toNat, .RSA_NO_PADDING)] })
    else pure (s.afterBlock op rsaSize)
  else pure (s.afterCopy rsaSize)

/-- How a run of the loop of `transform` ends: the loop is left, or an
exception is thrown. -/
inductive LoopEnd where
  | returned (s : Loop)
  | thrown (e : CryptoException) (s : Loop)

/-- The loop `while (inputLength > 0) ...` of `transform`, run for at most
`fuel` passes through its body: `none` when the loop is still running after
them. -/
def Loop.run (assertOutput debug : Bool)
    (op : List Nat → Padding → Int × List Nat) (rsaSize : Int) :
    Nat → Loop → Option LoopEnd
  | 0, s => if s.inputLength > 0 then none else some (.returned s)
  | fuel + 1, s =>
    if s.inputLength > 0 then
      match Loop.body assertOutput debug op rsaSize s with
      | .ok s1 => Loop.run assertOutput debug op rsaSize fuel s1
      | .error (e, s1) => some (.thrown e s1)
    else some (.returned s)

/-- What a call of `transform` or `finalize` leaves behind: the members `_pos`
and `_pBuf`, the value returned or the exception thrown, the bytes written
to `output`, and the arguments of the block operations called. -/
structure CallResult where
  _pos : Int
  _pBuf : List Nat
  result : Except CryptoException Int
  output : List Nat
  calls : List (List Nat × Padding)

/-- The body of `transform`, common to `RSAEncryptImpl` and `RSADecryptImpl`
up to the assertion in the loop and the block operation: the two assertions at
entry, the loop, and `return rc`. -/
def transformWith (assertOutput debug : Bool)
    (op : List Nat → Padding → Int × List Nat) (rsaSize : Int) (fuel : Nat)
    (_pos : Int) (_pBuf : List Nat) (input : List Nat) (inputLength : Int)
    (outputLength : Int) : Option CallResult :=
  if debug = true ∧ ¬ _pos ≤ rsaSize then
    some ⟨_pos, _pBuf, .error (.AssertionViolationException "_pos <= rsaSize"), [], []⟩
  else if ¬ outputLength ≥ rsaSize then
    some ⟨_pos, _pBuf,
      .error (.AssertionViolationException "outputLength >= rsaSize"), [], []⟩
  else
    match Loop.run assertOutput debug op rsaSize fuel
      ⟨_pos, _pBuf, input, inputLength, [], outputLength, 0, []⟩ with
    | none => none
    | some (.returned s) => some ⟨s._pos, s._pBuf, .ok s.rc, s.output, s.calls⟩
    | some (.thrown e s) => some ⟨s._pos, s._pBuf, .error e, s.output, s.calls⟩

/-- The method `RSAEncryptImpl::transform`, run for at most `fuel` passes
through its loop. -/
def RSAEncryptImpl.transform (impl : RSAEncryptImpl) (debug : Bool) (fuel : Nat)
    (input : List Nat) (inputLength : Int) (outputLength : Int) :
    Option CallResult :=
  transformWith true debug impl._pRSA.public_encrypt impl.blockSize fuel
    impl._pos impl._pBuf input inputLength outputLength

/-- The method `RSADecryptImpl::transform`, run for at most `fuel` passes
through its loop. -/
def RSADecryptImpl.transform (impl : RSADecryptImpl) (debug : Bool) (fuel : Nat)
    (input : List Nat) (inputLength : Int) (outputLength : Int) :
    Option CallResult :=
  transformWith false debug impl._pRSA.private_decrypt impl.blockSize fuel
    impl._pos impl._pBuf input inputLength outputLength

/-- The method `RSAEncryptImpl::finalize`; the comparison of `length` with
`blockSize()` is made in `std::size_t`. -/
def RSAEncryptImpl.finalize (impl : RSAEncryptImpl) (length : Int) : CallResult :=
  if ¬ length % 18446744073709551616 ≥ (impl.blockSize : Int) then
    ⟨impl._pos, impl._pBuf,
      .error (.AssertionViolationException "length >= blockSize()"), [], []⟩
  else if impl._pos > 0 then
    if (impl._pRSA.public_encrypt (impl._pBuf.take impl._pos.toNat)
        .RSA_PKCS1_PADDING).1 = -1 then
      ⟨impl._pos, impl._pBuf, .error .IOException, [],
        [(impl._pBuf.take impl._pos.toNat, .RSA_PKCS1_PADDING)]⟩
    else
      ⟨impl._pos, impl._pBuf,
        .ok (impl._pRSA.public_encrypt (impl._pBuf.take impl._pos.toNat)
          .RSA_PKCS1_PADDING).1,
        (impl._pRSA.public_encrypt (impl._pBuf.take impl._pos.toNat)
          .RSA_PKCS1_PADDING).2,
        [(impl._pBuf.take impl._pos.toNat, .RSA_PKCS1_PADDING)]⟩
  else ⟨impl._pos, impl._pBuf, .ok 0, [], []⟩

/-- The encryptor after a call: the members that the call leaves behind. -/
def RSAEncryptImpl.after (impl : RSAEncryptImpl) (r : CallResult) : RSAEncryptImpl :=
  { impl with _pos := r._pos, _pBuf := r._pBuf }

/-- The decryptor after a call: the members that the call leaves behind. -/
def RSADecryptImpl.after (impl : RSADecryptImpl) (r : CallResult) : RSADecryptImpl :=
  { impl with _pos := r._pos, _pBuf := r._pBuf }

/-- A sequence of calls of `RSAEncryptImpl::transform`, each given by its input
bytes, whose number is the input length, and by its output length, and run for
at most `fuel` passes through its loop: the encryptor after the last call,
`none` when a call is still running after its passes.  A call that throws
leaves the encryptor with the members at the time of the exception. -/
def RSAEncryptImpl.transforms (debug : Bool) (fuel : Nat) (impl : RSAEncryptImpl) :
    List (List Nat × Int) → Option RSAEncryptImpl
  | [] => some impl
  | (input, outputLength) :: rest =>
    match impl.transform debug fuel input input.length outputLength with
    | none => none
    | some r => RSAEncryptImpl.transforms debug fuel (impl.after r) rest

/-- A sequence of calls of `RSADecryptImpl::transform`, as for the
encryptor. -/
def RSADecryptImpl.transforms (debug : Bool) (fuel : Nat) (impl : RSADecryptImpl) :
    List (List Nat × Int) → Option RSADecryptImpl
  | [] => some impl
  | (input, outputLength) :: rest =>
    match impl.transform debug fuel input input.length outputLength with
    | none => none
    | some r => RSADecryptImpl.transforms debug fuel (impl.after r) rest

/-- The variables of the loop when `transform` enters it: nothing written
yet, `rc = 0`, no block operation called. -/
def Loop.entry (_pos : Int) (_pBuf : List Nat) (input : List Nat) (inputLength : Int)
    (outputLength : Int) : Loop :=
  ⟨_pos, _pBuf, input, inputLength, [], outputLength, 0, []⟩

/-- The variables at the head of the loop of `transform` after `k` passes
through its body: `none` when the loop is left, or an exception thrown, before
that. -/
def Loop.passes (assertOutput debug : Bool)
    (op : List Nat → Padding → Int × List Nat) (rsaSize : Int) :
    Nat → Loop → Option Loop
  | 0, s => some s
  | k + 1, s =>
    if s.inputLength > 0 then
      match Loop.body assertOutput debug op rsaSize s with
      | .ok s1 => Loop.passes assertOutput debug op rsaSize k s1
      | .error _ => none
    else none

/-- The invariant of `_pos` with respect to the block size `B`. -/
def PosInv (B : Nat) (_pos : Int) : Prop := 0 ≤ _pos ∧ _pos ≤ B

/-- The invariant of the members `_pos` and `_pBuf` with respect to the block
size `B`: `_pos` is between 0 and `B`, and the buffer has `B` bytes. -/
def ImplInv (B : Nat) (_pos : Int) (_pBuf : List Nat) : Prop :=
  PosInv B _pos ∧ _pBuf.length = B

/-- The invariant of the loop of `transform` with respect to the block size
`B`, for an input that holds `inputLength` bytes. -/
def Loop.Inv (B : Nat) (s : Loop) : Prop :=
  ImplInv B s._pos s._pBuf ∧ s.inputLength = s.input.length

/-- The bound on the passes through the loop that are left: two for every
input byte, and one more when the buffer is full. -/
def Loop.measure (B : Nat) (s : Loop) : Nat :=
  2 * s.inputLength.toNat + (if s._pos = B then 1 else 0)

/-- The account of a run of the loop of `transform` over the data `D`, the
bytes that were buffered at entry followed by the input: the blocks given to
the block operation, the bytes now buffered and the input not yet consumed
make up `D`, in this order; every block given to the block operation had `B`
bytes and no padding; `rc` is the sum of the values that the block operations
returned; and the output is what they wrote. -/
def Loop.Acc (op : List Nat → Padding → Int × List Nat) (B : Nat) (D : List Nat)
    (s : Loop) : Prop :=
  (s.calls.map Prod.fst).flatten ++ s._pBuf.take s._pos.toNat ++ s.input = D ∧
  (∀ c ∈ s.calls, c.1.length = B ∧ c.2 = Padding.RSA_NO_PADDING) ∧
  s.rc = (s.calls.map (fun c => (op c.1 c.2).1)).sum ∧
  s.output = (s.calls.map (fun c => (op c.1 c.2).2)).flatten

/-- A key of four bytes for the examples: a block operation without padding
fails on a block whose first byte is 255, a value too large for the modulus,
and otherwise gives the four bytes reversed; an operation with PKCS#1 padding
fails, since four bytes leave no room for eleven bytes of padding. -/
def sampleKey : RSA where
  size := 4
  public_encrypt := fun bytes padding =>
    match padding with
    | .RSA_NO_PADDING => if bytes.head? = some 255 then (-1, []) else (4, bytes.reverse)
    | .RSA_PKCS1_PADDING => (-1, [])
  private_decrypt := fun bytes padding =>
    match padding with
    | .RSA_NO_PADDING => if bytes.head? = some 255 then (-1, []) else (4, bytes.reverse)
    | .RSA_PKCS1_PADDING => (-1, [])

/-- A key of sixteen bytes for the examples: a block operation without padding
gives the sixteen bytes reversed; an operation with PKCS#1 padding fails on
more than `16 - 11` bytes and otherwise gives a block of sixteen bytes. -/
def paddedKey : RSA where
  size := 16
  public_encrypt := fun bytes padding =>
    match padding with
    | .RSA_NO_PADDING => (16, bytes.reverse)
    | .RSA_PKCS1_PADDING =>
      if bytes.length + 11 ≤ 16 then (16, List.replicate (16 - bytes.length) 0 ++ bytes)
      else (-1, [])
  private_decrypt := fun bytes padding =>
    match padding with
    | .RSA_NO_PADDING => (16, bytes.reverse)
    | .RSA_PKCS1_PADDING => (-1, [])

end Poco.Crypto

namespace Poco.Data

/-! ## Arithmetic lemmas -/

theorem subSize_one_of_pos (n : Nat) (h1 : 1 ≤ n) (h2 : n < SIZE_MOD) :
    subSize n 1 = n - 1 := by
  unfold subSize SIZE_MOD at *
  have e1 : 1 % 2 ^ 64 = 1 := by norm_num
  have e2 : n % 2 ^ 64 = n := Nat.mod_eq_of_lt h2
  rw [e1, e2, if_pos h1]

theorem incSize_of_lt (a : Nat) (h : a + 1 < SIZE_MOD) : incSize a = a + 1 := by
  unfold incSize
  exact Nat.mod_eq_of_lt h

theorem decSize_of_pos (a : Nat) (h1 : 1 ≤ a) (h2 : a < SIZE_MOD) :
    decSize a = a - 1 :=
  subSize_one_of_pos a h1 h2

/-! ## Cursor movement: lemmas -/

theorem moveNext_data (rs : RecordSet) : rs.moveNext.2.data = rs.data := by
  unfold RecordSet.moveNext
  split <;> rfl

theorem moveFirst_data (rs : RecordSet) : rs.moveFirst.2.data = rs.data := by
  unfold RecordSet.moveFirst
  split <;> rfl

theorem moveNext_of_lt (rs : RecordSet) (h2 : rs.data.rowCount < SIZE_MOD)
    (h : rs._currentRow + 1 < rs.data.rowCount) :
    rs.moveNext.1 = true ∧ rs.moveNext.2._currentRow = rs._currentRow + 1 := by
  have hs : subSize rs.data.rowCount 1 = rs.data.rowCount - 1 :=
    subSize_one_of_pos _ (by omega) h2
  have hi : incSize rs._currentRow = rs._currentRow + 1 :=
    incSize_of_lt _ (by omega)
  unfold RecordSet.moveNext
  rw [hs, hi]
  have hn : ¬ rs._currentRow ≥ rs.data.rowCount - 1 := by omega
  simp [hn]

theorem moveNext_of_last (rs : RecordSet) (h1 : 1 ≤ rs.data.rowCount)
    (h2 : rs.data.rowCount < SIZE_MOD)
    (h : rs._currentRow + 1 ≥ rs.data.rowCount) :
    rs.moveNext.1 = false ∧ rs.moveNext.2._currentRow = rs._currentRow := by
  have hs : subSize rs.data.rowCount 1 = rs.data.rowCount - 1 :=
    subSize_one_of_pos _ h1 h2
  unfold RecordSet.moveNext
  rw [hs]
  have hn : rs._currentRow ≥ rs.data.rowCount - 1 := by omega
  simp [hn]

/-- The record set after `moveFirst()` and `k` calls of `moveNext()`. -/
theorem iterate_moveNext_data (rs : RecordSet) (k : Nat) :
    ((fun s : RecordSet => s.moveNext.2)^[k] rs).data = rs.data := by
  induction k with
  | zero => rfl
  | succ k ih =>
    rw [Function.iterate_succ_apply']
    rw [moveNext_data, ih]

theorem iterate_moveNext_cursor (rs : RecordSet)
    (h2 : rs.data.rowCount < SIZE_MOD) (k : Nat)
    (hk : rs._currentRow + k < rs.data.rowCount) :
    ((fun s : RecordSet => s.moveNext.2)^[k] rs)._currentRow
      = rs._currentRow + k := by
  induction k with
  | zero => rfl
  | succ k ih =>
    rw [Function.iterate_succ_apply']
    have hprev := ih (by omega)
    have hd := iterate_moveNext_data rs k
    have hstep := moveNext_of_lt ((fun s : RecordSet => s.moveNext.2)^[k] rs)
      (by rw [hd]; exact h2) (by rw [hd, hprev]; omega)
    rw [hstep.2, hprev]
    omega

theorem moveFirst_cursor (rs : RecordSet) :
    rs.moveFirst.2._currentRow = if rs.data.rowCount > 0 then 0 else rs._currentRow := by
  unfold RecordSet.moveFirst
  split <;> rfl

theorem movePrevious_data (rs : RecordSet) : rs.movePrevious.2.data = rs.data := by
  unfold RecordSet.movePrevious
  split <;> rfl

theorem movePrevious_cursor (rs : RecordSet) :
    rs.movePrevious.2._currentRow
      = if 0 = rs._currentRow then rs._currentRow else decSize rs._currentRow := by
  unfold RecordSet.movePrevious
  split <;> rfl

theorem moveLast_data (rs : RecordSet) : rs.moveLast.2.data = rs.data := by
  unfold RecordSet.moveLast
  split <;> rfl

theorem moveLast_cursor (rs : RecordSet) :
    rs.moveLast.2._currentRow
      = if rs.data.rowCount > 0 then subSize rs.data.rowCount 1 else rs._currentRow := by
  unfold RecordSet.moveLast
  split <;> rfl

/-! ## Cursor movement: the claims -/

/-- C4: on a record set of `n ≥ 1` rows, `moveFirst()` returns true and puts
the cursor on row 0; after `k < n` further calls of `moveNext()` the cursor is
on row `k`; the next call of `moveNext()` returns true and puts the cursor on
`k + 1` while a row follows (`k + 1 < n`), and returns false with the cursor
still on `n - 1` when it is the `n`-th call (`k + 1 = n`). -/
theorem moveFirst_moveNext_visits_rows_in_order (rs : RecordSet)
    (h1 : 1 ≤ rs.data.rowCount) (h2 : rs.data.rowCount < SIZE_MOD) :
    rs.moveFirst.1 = true ∧ rs.moveFirst.2._currentRow = 0 ∧
    ∀ k, k < rs.data.rowCount →
      ((fun s : RecordSet => s.moveNext.2)^[k] rs.moveFirst.2)._currentRow = k ∧
      (k + 1 < rs.data.rowCount →
        ((fun s : RecordSet => s.moveNext.2)^[k] rs.moveFirst.2).moveNext.1 = true ∧
        ((fun s : RecordSet => s.moveNext.2)^[k] rs.moveFirst.2).moveNext.2._currentRow
          = k + 1) ∧
      (k + 1 = rs.data.rowCount →
        ((fun s : RecordSet => s.moveNext.2)^[k] rs.moveFirst.2).moveNext.1 = false ∧
        ((fun s : RecordSet => s.moveNext.2)^[k] rs.moveFirst.2).moveNext.2._currentRow
          = rs.data.rowCount - 1) := by
  have hpos : rs.data.rowCount > 0 := h1
  have hf1 : rs.moveFirst.1 = true := by
    unfold RecordSet.moveFirst
    simp [hpos]
  have hf2 : rs.moveFirst.2._currentRow = 0 := by
    unfold RecordSet.moveFirst
    simp [hpos]
  have hfd : rs.moveFirst.2.data = rs.data := moveFirst_data rs
  refine ⟨hf1, hf2, ?_⟩
  intro k hk
  have hd : ((fun s : RecordSet => s.moveNext.2)^[k] rs.moveFirst.2).data = rs.data := by
    rw [iterate_moveNext_data, hfd]
  have hc : ((fun s : RecordSet => s.moveNext.2)^[k] rs.moveFirst.2)._currentRow = k := by
    rw [iterate_moveNext_cursor rs.moveFirst.2 (by rw [hfd]; exact h2) k
      (by rw [hfd, hf2]; omega), hf2]
    omega
  refine ⟨hc, ?_, ?_⟩
  · intro hlt
    have hstep := moveNext_of_lt ((fun s : RecordSet => s.moveNext.2)^[k] rs.moveFirst.2)
      (by rw [hd]; exact h2) (by rw [hd, hc]; exact hlt)
    rw [hc] at hstep
    exact hstep
  · intro heq
    have hstep := moveNext_of_last ((fun s : RecordSet => s.moveNext.2)^[k] rs.moveFirst.2)
      (by rw [hd]; exact h1) (by rw [hd]; exact h2) (by rw [hd, hc]; omega)
    rw [hc] at hstep
    refine ⟨hstep.1, ?_⟩
    rw [hstep.2]
    omega

/-- C4, at the two persons of `personData`: `moveFirst()`, then a `moveNext()`
that returns true, then a `moveNext()` that returns false. -/
theorem moveFirst_moveNext_visits_rows_in_order_witness :
    (1 ≤ (RecordSet.new personData).data.rowCount ∧
      (RecordSet.new personData).data.rowCount < SIZE_MOD) ∧
    (RecordSet.new personData).moveFirst.1 = true ∧
    (RecordSet.new personData).moveFirst.2._currentRow = 0 :=
  ⟨⟨by decide, by decide⟩,
    (moveFirst_moveNext_visits_rows_in_order (RecordSet.new personData)
      (by decide) (by decide)).1,
    (moveFirst_moveNext_visits_rows_in_order (RecordSet.new personData)
      (by decide) (by decide)).2.1⟩

/-- C5, at the failing input: on a record set without rows, with the cursor on
0, `rowCount() - 1` wraps around to `2 ^ 64 - 1`, the test
`_currentRow >= rowCount() - 1` is false, and `moveNext()` returns true with
the cursor moved to 1, although no row follows the cursor. -/
theorem moveNext_empty_recordset_advances :
    (RecordSet.new emptyData).data.rowCount = 0 ∧
    (RecordSet.new emptyData)._currentRow = 0 ∧
    subSize (RecordSet.new emptyData).data.rowCount 1 = 2 ^ 64 - 1 ∧
    (RecordSet.new emptyData).moveNext.1 = true ∧
    (RecordSet.new emptyData).moveNext.2._currentRow = 1 := by
  refine ⟨rfl, rfl, by decide, by decide, by decide⟩

/-- C6: on a record set of at least one row, the cursor is below `rowCount()`
after construction, and each of `moveFirst`, `moveNext`, `movePrevious` and
`moveLast` takes a record set with the cursor below `rowCount()` to one with
the cursor below `rowCount()`, over the same statement, whatever it returns. -/
theorem cursor_in_range_invariant (d : FetchedData)
    (h1 : 1 ≤ d.rowCount) (h2 : d.rowCount < SIZE_MOD) :
    ((RecordSet.new d).data = d ∧ (RecordSet.new d)._currentRow < d.rowCount) ∧
    ∀ rs : RecordSet, rs.data = d → rs._currentRow < d.rowCount →
      (rs.moveFirst.2.data = d ∧ rs.moveFirst.2._currentRow < d.rowCount) ∧
      (rs.moveNext.2.data = d ∧ rs.moveNext.2._currentRow < d.rowCount) ∧
      (rs.movePrevious.2.data = d ∧ rs.movePrevious.2._currentRow < d.rowCount) ∧
      (rs.moveLast.2.data = d ∧ rs.moveLast.2._currentRow < d.rowCount) := by
  refine ⟨⟨rfl, h1⟩, ?_⟩
  intro rs hd hc
  subst hd
  have hs : subSize rs.data.rowCount 1 = rs.data.rowCount - 1 :=
    subSize_one_of_pos _ h1 h2
  refine ⟨⟨moveFirst_data rs, ?_⟩, ⟨moveNext_data rs, ?_⟩,
    ⟨movePrevious_data rs, ?_⟩, ⟨moveLast_data rs, ?_⟩⟩
  · rw [moveFirst_cursor]
    split <;> omega
  · by_cases hlast : rs._currentRow + 1 < rs.data.rowCount
    · rw [(moveNext_of_lt rs h2 hlast).2]
      exact hlast
    · rw [(moveNext_of_last rs h1 h2 (by omega)).2]
      exact hc
  · rw [movePrevious_cursor]
    split
    · exact hc
    · rename_i hne
      rw [decSize_of_pos _ (by omega) (by omega)]
      omega
  · rw [moveLast_cursor, hs]
    split <;> omega

/-- C6, at the two persons of `personData`: the cursor of the new record set is
below the row count. -/
theorem cursor_in_range_invariant_witness :
    (1 ≤ personData.rowCount ∧ personData.rowCount < SIZE_MOD) ∧
    (RecordSet.new personData)._currentRow < personData.rowCount :=
  ⟨⟨by decide, by decide⟩,
    (cursor_in_range_invariant personData (by decide) (by decide)).1.2⟩

end Poco.Data

namespace Poco.Data

/-! ## The row cache: lemmas -/

theorem RowMap.find_eq_none_iff (m : RowMap) (k : Nat) :
    m.find k = none ↔ k ∉ m.keys := by
  induction m with
  | nil => simp [RowMap.find, RowMap.keys]
  | cons e rest ih =>
    obtain ⟨k', r'⟩ := e
    unfold RowMap.find
    by_cases hk : k' = k
    · simp [hk, RowMap.keys]
    · have hk2 : ¬ k = k' := fun h => hk h.symm
      simp only [hk, if_false, ih]
      simp [RowMap.keys, hk2]

theorem RowMap.find_insert_self (m : RowMap) (k : Nat) (r : Row)
    (h : m.find k = none) : (m.insert k r).find k = some r := by
  induction m with
  | nil => simp [RowMap.insert, RowMap.find]
  | cons e rest ih =>
    obtain ⟨k', r'⟩ := e
    unfold RowMap.find at h
    by_cases hk : k' = k
    · simp [hk] at h
    · simp only [hk, if_false] at h
      have hk2 : ¬ k = k' := fun h => hk h.symm
      unfold RowMap.insert
      by_cases hlt : k < k'
      · simp [hlt, RowMap.find]
      · simp [hlt, hk2, RowMap.find, hk, ih h]

theorem RowMap.mem_keys_insert (m : RowMap) (k : Nat) (r : Row) (j : Nat) :
    j ∈ (m.insert k r).keys ↔ j = k ∨ j ∈ m.keys := by
  induction m with
  | nil => simp [RowMap.insert, RowMap.keys]
  | cons e rest ih =>
    obtain ⟨k', r'⟩ := e
    unfold RowMap.insert
    by_cases hlt : k < k'
    · simp [hlt, RowMap.keys]
    · by_cases hk : k = k'
      · subst hk
        simp [RowMap.keys]
      · simp only [hlt, hk, if_false]
        have ih2 : j ∈ List.map Prod.fst (RowMap.insert rest k r)
            ↔ j = k ∨ j ∈ List.map Prod.fst rest := ih
        simp only [RowMap.keys, List.map_cons, List.mem_cons, ih2]
        tauto

theorem RowMap.nodup_keys_insert (m : RowMap) (k : Nat) (r : Row)
    (hk : k ∉ m.keys) (hm : m.keys.Nodup) : (m.insert k r).keys.Nodup := by
  induction m with
  | nil => simp [RowMap.insert, RowMap.keys]
  | cons e rest ih =>
    obtain ⟨k', r'⟩ := e
    have hk1 : ¬ k = k' := by
      intro h
      apply hk
      simp [RowMap.keys, h]
    have hk2 : k ∉ RowMap.keys rest := by
      intro h
      apply hk
      simp only [RowMap.keys, List.map_cons, List.mem_cons]
      exact Or.inr h
    have hm1 : k' ∉ RowMap.keys rest := by
      have := hm
      simp only [RowMap.keys, List.map_cons, List.nodup_cons] at this
      exact this.1
    have hm2 : (RowMap.keys rest).Nodup := by
      have := hm
      simp only [RowMap.keys, List.map_cons, List.nodup_cons] at this
      exact this.2
    unfold RowMap.insert
    by_cases hlt : k < k'
    · simp only [hlt, if_true]
      show (k :: RowMap.keys ((k', r') :: rest)).Nodup
      exact List.nodup_cons.mpr ⟨hk, hm⟩
    · simp only [hlt, hk1, if_false]
      show (k' :: RowMap.keys (RowMap.insert rest k r)).Nodup
      refine List.nodup_cons.mpr ⟨?_, ih hk2 hm2⟩
      rw [RowMap.mem_keys_insert]
      intro h
      rcases h with h | h
      · exact hk1 h.symm
      · exact hm1 h

end Poco.Data

namespace Poco.Data

/-! ## Rows: lemmas -/

theorem row_of_cached (rs : RecordSet) (pos : Nat) (r : Row)
    (hg : ¬ pos > subSize rs.data.rowCount 1)
    (hf : rs._rowMap.find pos = some r) : rs.row pos = .ok (r, rs) := by
  unfold RecordSet.row
  rw [if_neg hg, hf]
  rfl

theorem row_eq_ok (rs : RecordSet) (pos : Nat) (r : Row) (rs1 : RecordSet)
    (h : rs.row pos = .ok (r, rs1)) :
    ¬ pos > subSize rs.data.rowCount 1 ∧
    ((rs._rowMap.find pos = some r ∧ rs1 = rs) ∨
     (rs._rowMap.find pos = none ∧
       rs1 = { rs with _rowMap := rs._rowMap.insert pos r })) := by
  unfold RecordSet.row at h
  by_cases hg : pos > subSize rs.data.rowCount 1
  · rw [if_pos hg] at h
    cases h
  · rw [if_neg hg] at h
    refine ⟨hg, ?_⟩
    cases hf : rs._rowMap.find pos with
    | some pRow =>
      rw [hf] at h
      left
      have h2 : (pRow, rs) = (r, rs1) := Except.ok.inj h
      have h3 := Prod.mk.inj h2
      rw [← h3.1, ← h3.2]
      exact ⟨rfl, rfl⟩
    | none =>
      rw [hf] at h
      right
      cases hn : rs.newRow pos with
      | error e =>
        rw [hn] at h
        cases h
      | ok pRow =>
        rw [hn] at h
        have h2 : (pRow, ({ rs with _rowMap := rs._rowMap.insert pos pRow } : RecordSet))
            = (r, rs1) := Except.ok.inj h
        have h3 := Prod.mk.inj h2
        rw [← h3.1, ← h3.2]
        exact ⟨rfl, rfl⟩

theorem rows_keys (idxs : List Nat) :
    ∀ (rs rs2 : RecordSet), rs.rows idxs = .ok rs2 → rs._rowMap.keys.Nodup →
      rs2._rowMap.keys.Nodup ∧
      ∀ k, k ∈ rs2._rowMap.keys ↔ k ∈ rs._rowMap.keys ∨ k ∈ idxs := by
  induction idxs with
  | nil =>
    intro rs rs2 h hn
    have h2 : rs = rs2 := Except.ok.inj h
    subst h2
    exact ⟨hn, fun k => by simp⟩
  | cons p ps ih =>
    intro rs rs2 h hn
    unfold RecordSet.rows at h
    cases hrow : rs.row p with
    | error e =>
      rw [hrow] at h
      cases h
    | ok res =>
      rw [hrow] at h
      obtain ⟨r, rs1⟩ := res
      have hrest : rs1.rows ps = .ok rs2 := h
      obtain ⟨_, hcase⟩ := row_eq_ok rs p r rs1 hrow
      rcases hcase with ⟨hf, hrs⟩ | ⟨hf, hrs⟩
      · subst hrs
        have hp : p ∈ rs1._rowMap.keys := by
          by_contra hnot
          have := (RowMap.find_eq_none_iff rs1._rowMap p).mpr hnot
          rw [hf] at this
          cases this
        obtain ⟨hn2, hmem⟩ := ih rs1 rs2 hrest hn
        refine ⟨hn2, fun k => ?_⟩
        rw [hmem k, List.mem_cons]
        constructor
        · rintro (h1 | h1)
          · exact Or.inl h1
          · exact Or.inr (Or.inr h1)
        · rintro (h1 | h1 | h1)
          · exact Or.inl h1
          · exact Or.inl (h1 ▸ hp)
          · exact Or.inr h1
      · subst hrs
        have hp : p ∉ rs._rowMap.keys := (RowMap.find_eq_none_iff rs._rowMap p).mp hf
        have hn1 : (rs._rowMap.insert p r).keys.Nodup :=
          RowMap.nodup_keys_insert rs._rowMap p r hp hn
        obtain ⟨hn2, hmem⟩ := ih _ rs2 hrest hn1
        refine ⟨hn2, fun k => ?_⟩
        rw [hmem k, List.mem_cons]
        have hins := RowMap.mem_keys_insert rs._rowMap p r k
        constructor
        · rintro (h1 | h1)
          · rcases hins.mp h1 with h2 | h2
            · exact Or.inr (Or.inl h2)
            · exact Or.inl h2
          · exact Or.inr (Or.inr h1)
        · rintro (h1 | h1 | h1)
          · exact Or.inl (hins.mpr (Or.inr h1))
          · exact Or.inl (hins.mpr (Or.inl h1))
          · exact Or.inr h1

/-! ## Rows: the claims -/

/-- C1, at the failing input: on a record set without rows, `rowCount() - 1`
wraps around to `2 ^ 64 - 1`, the test `pos > rowCount() - 1` of `row(0)` is
false, no RangeException is thrown, and `row(0)` goes on to make a row, which
it returns and keeps in `_rowMap` under the index 0, although `0 >= rowCount()`. -/
theorem row_empty_recordset_not_rejected :
    (RecordSet.new emptyData).data.rowCount = 0 ∧
    subSize (RecordSet.new emptyData).data.rowCount 1 = 2 ^ 64 - 1 ∧
    ((RecordSet.new emptyData).row 0).toOption.map
      (fun res => (res.1, res.2._rowMap)) = some (Row.new, [(0, Row.new)]) := by
  refine ⟨rfl, by decide, by decide⟩

/-- C2, at the failing input: on the record set of `SELECT id, name FROM Person`
the first call `row(0)` returns a row whose values are the cells of row 0 in
column order, but whose names are `id`, `id`: the name appended for every
column is `metaColumn(pos).name()`, the name of the column whose number is the
row index, not the name of column `i`. -/
theorem row_names_are_of_column_pos :
    personData.columnName 0 = .ok "id" ∧
    personData.columnName 1 = .ok "name" ∧
    ((RecordSet.new personData).row 0).toOption.map (fun res => res.1)
      = some ⟨["id", "id"],
          [DynamicAny.holding .Int32 "1", DynamicAny.holding .string "alice"]⟩ ∧
    ((RecordSet.new personData).row 1).toOption.map (fun res => res.1)
      = some ⟨["name", "name"],
          [DynamicAny.holding .Int32 "2", DynamicAny.holding .string ""]⟩ := by
  refine ⟨rfl, rfl, by decide, by decide⟩

/-- C3: when a call `row(pos)` returns a row `r`, a second call `row(pos)`
returns the same `r` and leaves the record set as it is, so that no row is
made; `r` is the entry of `_rowMap` at `pos`; and the second call returns `r`
whatever the columns of the statement hold, so that it reads no column value.
After any sequence of calls of `row` on a new record set that all return,
`_rowMap` has no key twice and its keys are exactly the indices requested. -/
theorem row_memoized :
    (∀ (rs : RecordSet) (pos : Nat) (r : Row) (rs1 : RecordSet),
      rs.row pos = .ok (r, rs1) →
        rs1.row pos = .ok (r, rs1) ∧
        rs1._rowMap.find pos = some r ∧
        ∀ d : FetchedData, d.rowCount = rs.data.rowCount →
          ({ rs1 with data := d } : RecordSet).row pos
            = .ok (r, { rs1 with data := d })) ∧
    (∀ (d : FetchedData) (idxs : List Nat) (rs2 : RecordSet),
      (RecordSet.new d).rows idxs = .ok rs2 →
        rs2._rowMap.keys.Nodup ∧ ∀ k, k ∈ rs2._rowMap.keys ↔ k ∈ idxs) := by
  constructor
  · intro rs pos r rs1 h
    obtain ⟨hg, hcase⟩ := row_eq_ok rs pos r rs1 h
    rcases hcase with ⟨hf, hrs⟩ | ⟨hf, hrs⟩
    · subst hrs
      refine ⟨h, hf, fun d hd => ?_⟩
      exact row_of_cached { rs1 with data := d } pos r
        (by show ¬ pos > subSize d.rowCount 1; rw [hd]; exact hg) hf
    · subst hrs
      have hf2 := RowMap.find_insert_self rs._rowMap pos r hf
      refine ⟨row_of_cached _ pos r hg hf2, hf2, fun d hd => ?_⟩
      exact row_of_cached _ pos r
        (by show ¬ pos > subSize d.rowCount 1; rw [hd]; exact hg) hf2
  · intro d idxs rs2 h
    obtain ⟨hn, hmem⟩ := rows_keys idxs (RecordSet.new d) rs2 h (by
      show (RowMap.keys []).Nodup
      exact List.nodup_nil)
    refine ⟨hn, fun k => ?_⟩
    rw [hmem k]
    constructor
    · rintro (h1 | h1)
      · cases h1
      · exact h1
    · exact fun h1 => Or.inr h1

/-- C3, at the two persons of `personData`: the first call `row(0)` returns a
row, and so does the second, the same one; and after the calls `row(1)`,
`row(0)`, `row(1)`, which all return, `_rowMap` has no key twice. -/
theorem row_memoized_witness :
    ((RecordSet.new personData).row 0
        = .ok (⟨["id", "id"],
            [DynamicAny.holding .Int32 "1", DynamicAny.holding .string "alice"]⟩,
          ⟨personData, 0, [(0, ⟨["id", "id"],
            [DynamicAny.holding .Int32 "1", DynamicAny.holding .string "alice"]⟩)]⟩) ∧
      (⟨personData, 0, [(0, ⟨["id", "id"],
            [DynamicAny.holding .Int32 "1", DynamicAny.holding .string "alice"]⟩)]⟩ :
          RecordSet).row 0
        = .ok (⟨["id", "id"],
            [DynamicAny.holding .Int32 "1", DynamicAny.holding .string "alice"]⟩,
          ⟨personData, 0, [(0, ⟨["id", "id"],
            [DynamicAny.holding .Int32 "1", DynamicAny.holding .string "alice"]⟩)]⟩)) ∧
    ((RecordSet.new personData).rows [1, 0, 1]
        = .ok ⟨personData, 0,
            [(0, ⟨["name", "name"],
                [DynamicAny.holding .Int32 "1", DynamicAny.holding .string "alice"]⟩),
              (1, ⟨["name", "name"],
                [DynamicAny.holding .Int32 "2", DynamicAny.holding .string ""]⟩)]⟩ ∧
      (RowMap.keys
        [(0, (⟨["name", "name"],
            [DynamicAny.holding .Int32 "1", DynamicAny.holding .string "alice"]⟩ : Row)),
          (1, ⟨["name", "name"],
            [DynamicAny.holding .Int32 "2", DynamicAny.holding .string ""]⟩)]).Nodup) :=
  ⟨⟨rfl, (row_memoized.1 (RecordSet.new personData) 0 _ _ rfl).1⟩,
    ⟨rfl, (row_memoized.2 personData [1, 0, 1] _ rfl).1⟩⟩

end Poco.Data

namespace Poco.Data

/-! ## Single cells: lemmas -/

theorem valueAsByName_of_position (rs : RecordSet) (T : CppType) (name : String)
    (col row : Nat) (hpos : rs.data.position name = .ok col) :
    rs.valueAsByName T name row = rs.valueAs T col row := by
  unfold RecordSet.valueAsByName
  rw [hpos]
  rfl

theorem columnTypeByName_of_position (rs : RecordSet) (name : String) (col : Nat)
    (hpos : rs.data.position name = .ok col) :
    rs.columnTypeByName name = rs.data.columnType col := by
  unfold RecordSet.columnTypeByName
  rw [hpos]
  rfl

theorem isNullByName_of_position (rs : RecordSet) (name : String) (col : Nat)
    (hpos : rs.data.position name = .ok col) :
    rs.isNullByName name = rs.data.isNull col rs._currentRow := by
  unfold RecordSet.isNullByName
  rw [hpos]
  rfl

theorem value_eq_dispatch (rs : RecordSet) (col row : Nat) (t : ColumnDataType)
    (htype : rs.data.columnType col = .ok t) :
    rs.value col row =
      match supportedType t with
      | some T => rs.valueAs T col row
      | none => .error Exception.UnknownTypeException := by
  unfold RecordSet.value
  rw [htype]
  cases t <;> rfl

theorem valueByName_eq_dispatch (rs : RecordSet) (name : String) (row : Nat)
    (t : ColumnDataType) (htype : rs.columnTypeByName name = .ok t) :
    rs.valueByName name row =
      match supportedType t with
      | some T => rs.valueAsByName T name row
      | none => .error Exception.UnknownTypeException := by
  unfold RecordSet.valueByName
  rw [htype]
  cases t <;> rfl

theorem valueByName_of_position (rs : RecordSet) (name : String) (col row : Nat)
    (hpos : rs.data.position name = .ok col) :
    rs.valueByName name row = rs.value col row := by
  have hct := columnTypeByName_of_position rs name col hpos
  cases htype : rs.data.columnType col with
  | error e =>
    unfold RecordSet.valueByName RecordSet.value
    rw [hct, htype]
    rfl
  | ok t =>
    rw [valueByName_eq_dispatch rs name row t (by rw [hct, htype]),
      value_eq_dispatch rs col row t htype]
    cases supportedType t with
    | none => rfl
    | some T => exact valueAsByName_of_position rs T name col row hpos

theorem valueAs_ne_unknown (rs : RecordSet) (T : CppType) (col row : Nat)
    (hacc : rs.data.cell T col row ≠ .error Exception.UnknownTypeException) :
    rs.valueAs T col row ≠ .error Exception.UnknownTypeException := by
  unfold RecordSet.valueAs
  cases hc : rs.data.cell T col row with
  | error e =>
    intro h
    apply hacc
    rw [hc]
    have h2 : (Except.error e : Except Exception DynamicAny)
        = .error Exception.UnknownTypeException := h
    rw [Except.error.inj h2]
  | ok s =>
    intro h
    cases h

theorem valueAs_ok (rs : RecordSet) (T : CppType) (col row : Nat) (s : String)
    (hc : rs.data.cell T col row = .ok s) :
    rs.valueAs T col row = .ok (DynamicAny.holding T s) := by
  unfold RecordSet.valueAs
  rw [hc]
  rfl

theorem supportedType_eq_none_iff (t : ColumnDataType) :
    supportedType t = none ↔ ∃ code, t = ColumnDataType.FDT_OTHER code := by
  cases t <;> simp [supportedType]

/-! ## Single cells: the claims -/

/-- C7, as stated, fails: in the record set of `SELECT id, name FROM Person`
with the cursor on row 0, the cell of column `id` is not null and holds the
`Int32` 1; `nvl(0, d)` with the default `d` the `Int32` 1 returns `d`, so that
"returns `d`" does not imply "the cell is null". -/
theorem nvl_returns_default_without_null :
    ¬ ((RecordSet.new personData).nvl 0 (DynamicAny.holding .Int32 "1")
          = .ok (DynamicAny.holding .Int32 "1")
        ↔ (RecordSet.new personData).data.isNull 0
            (RecordSet.new personData)._currentRow = .ok true) := by
  intro h
  have h1 : (RecordSet.new personData).data.isNull 0
      (RecordSet.new personData)._currentRow = .ok true := h.mp rfl
  have h2 : (false : Bool) = true := Except.ok.inj h1
  cases h2

/-- C7, amended: for a column given by index or by name whose null indicator in
the current row is known, `nvl(column, d)` returns `d` when the cell is null
and otherwise is `value(column, currentRow)`; hence it returns `d` if and only
if the cell is null or `value(column, currentRow)` returns `d` itself. -/
theorem nvl_default_or_value (rs : RecordSet) (index : Nat) (name : String)
    (deflt : DynamicAny) (null nullByName : Bool)
    (hnull : rs.data.isNull index rs._currentRow = .ok null)
    (hnullByName : rs.isNullByName name = .ok nullByName) :
    (rs.nvl index deflt
      = if null then .ok deflt else rs.value index rs._currentRow) ∧
    (rs.nvlByName name deflt
      = if nullByName then .ok deflt else rs.valueByName name rs._currentRow) ∧
    (rs.nvl index deflt = .ok deflt
      ↔ null = true ∨ rs.value index rs._currentRow = .ok deflt) ∧
    (rs.nvlByName name deflt = .ok deflt
      ↔ nullByName = true ∨ rs.valueByName name rs._currentRow = .ok deflt) := by
  have e1 : rs.nvl index deflt
      = if null then .ok deflt else rs.value index rs._currentRow := by
    unfold RecordSet.nvl
    rw [hnull]
    cases null <;> rfl
  have e2 : rs.nvlByName name deflt
      = if nullByName then .ok deflt else rs.valueByName name rs._currentRow := by
    unfold RecordSet.nvlByName
    rw [hnullByName]
    cases nullByName <;> rfl
  refine ⟨e1, e2, ?_, ?_⟩
  · rw [e1]
    cases null <;> simp
  · rw [e2]
    cases nullByName <;> simp

/-- C7, amended, at the two persons of `personData` with the cursor on row 0:
the cell of the column `name` is not null, and `nvl` with the default `nobody`
is the value of the cell, by index and by name. -/
theorem nvl_default_or_value_witness :
    ((RecordSet.new personData).data.isNull 1 (RecordSet.new personData)._currentRow
        = .ok false ∧
      (RecordSet.new personData).isNullByName "name" = .ok false) ∧
    (RecordSet.new personData).nvl 1 (DynamicAny.holding .string "nobody")
      = (if false = true then .ok (DynamicAny.holding .string "nobody")
          else (RecordSet.new personData).value 1 (RecordSet.new personData)._currentRow) :=
  ⟨⟨rfl, rfl⟩,
    (nvl_default_or_value (RecordSet.new personData) 1 "name"
      (DynamicAny.holding .string "nobody") false false rfl rfl).1⟩

/-- C8, as stated, fails: in `mixedData` the column `shape` exists, the cursor
is on the only row, the cell is not null, and the backend reports a column type
that is none of the sixteen supported ones; `nvl(1, d)` and `nvl("shape", d)`
raise UnknownTypeException. -/
theorem nvl_raises_on_unsupported_type :
    1 < mixedData.columnCount ∧
    (RecordSet.new mixedData)._currentRow < mixedData.rowCount ∧
    mixedData.isNull 1 (RecordSet.new mixedData)._currentRow = .ok false ∧
    (RecordSet.new mixedData).nvl 1 (DynamicAny.holding .Int32 "0")
      = .error Exception.UnknownTypeException ∧
    (RecordSet.new mixedData).nvlByName "shape" (DynamicAny.holding .Int32 "0")
      = .error Exception.UnknownTypeException := by
  refine ⟨by decide, by decide, rfl, rfl, rfl⟩

/-- C8, amended: for a column, given by index or by name, that exists (its null
indicator in the current row and its type are known, and the typed accessor of
the matching type returns), `nvl(column, d)` returns a value, `d` or the
cell's value, whenever the cell is null or the column type is one of the
sixteen supported ones; for a cell that is not null in a column of any other
type it raises UnknownTypeException. -/
theorem nvl_returns_on_supported_type (rs : RecordSet) (index : Nat)
    (name : String) (deflt : DynamicAny) (null : Bool) (t : ColumnDataType)
    (hpos : rs.data.position name = .ok index)
    (hnull : rs.data.isNull index rs._currentRow = .ok null)
    (htype : rs.data.columnType index = .ok t)
    (hcell : ∀ T, supportedType t = some T →
      ∃ s, rs.data.cell T index rs._currentRow = .ok s) :
    (null = true ∨ (supportedType t).isSome = true →
      ∃ v, rs.nvl index deflt = .ok v ∧ rs.nvlByName name deflt = .ok v) ∧
    (null = false → supportedType t = none →
      rs.nvl index deflt = .error Exception.UnknownTypeException ∧
      rs.nvlByName name deflt = .error Exception.UnknownTypeException) := by
  have hbn : rs.nvlByName name deflt = rs.nvl index deflt := by
    unfold RecordSet.nvlByName RecordSet.nvl
    rw [isNullByName_of_position rs name index hpos,
      valueByName_of_position rs name index rs._currentRow hpos]
  have hval := value_eq_dispatch rs index rs._currentRow t htype
  have e1 : rs.nvl index deflt
      = if null then .ok deflt else rs.value index rs._currentRow := by
    unfold RecordSet.nvl
    rw [hnull]
    cases null <;> rfl
  rw [hbn]
  constructor
  · intro h
    cases null with
    | true => exact ⟨deflt, by rw [e1]; rfl, by rw [e1]; rfl⟩
    | false =>
      rcases h with h | h
      · cases h
      · cases hs : supportedType t with
        | none =>
          rw [hs] at h
          cases h
        | some T =>
          obtain ⟨s, hc⟩ := hcell T hs
          rw [hs] at hval
          have hv : rs.value index rs._currentRow = .ok (DynamicAny.holding T s) := by
            rw [hval]
            exact valueAs_ok rs T index rs._currentRow s hc
          exact ⟨DynamicAny.holding T s, by rw [e1, hv]; rfl, by rw [e1, hv]; rfl⟩
  · intro hn hs
    subst hn
    rw [hs] at hval
    rw [e1, hval]
    exact ⟨rfl, rfl⟩

/-- C8, amended, at the two persons of `personData` with the cursor on row 0:
the column `name` is a string column, and `nvl` returns a value by index and by
name. -/
theorem nvl_returns_on_supported_type_witness :
    (personData.position "name" = .ok 1 ∧
      personData.isNull 1 (RecordSet.new personData)._currentRow = .ok false ∧
      personData.columnType 1 = .ok .FDT_STRING) ∧
    ∃ v, (RecordSet.new personData).nvl 1 (DynamicAny.holding .string "nobody") = .ok v ∧
      (RecordSet.new personData).nvlByName "name" (DynamicAny.holding .string "nobody")
        = .ok v :=
  ⟨⟨rfl, rfl, rfl⟩,
    (nvl_returns_on_supported_type (RecordSet.new personData) 1 "name"
      (DynamicAny.holding .string "nobody") false .FDT_STRING rfl rfl rfl
      (fun T hT => by
        have hT2 : CppType.string = T := Option.some.inj hT
        subst hT2
        exact ⟨"alice", rfl⟩)).1 (Or.inr rfl)⟩

/-- C9: for a column that exists, of reported type `t`, called `name`, and a
row at which no typed accessor raises UnknownTypeException, `value(col, row)`
and `value(name, row)` raise UnknownTypeException exactly when `t` is none of
the sixteen supported types, that is when `t` is a further value of the
enumeration; and when `t` is one of the sixteen, with `T` the matching C++
type, `value(col, row)` is the typed accessor `value<T>(col, row)` and
`value(name, row)` is `value<T>(name, row)`, at the same `T`. -/
theorem value_dispatches_on_column_type (rs : RecordSet) (col row : Nat)
    (name : String) (t : ColumnDataType)
    (htype : rs.data.columnType col = .ok t)
    (hpos : rs.data.position name = .ok col)
    (hacc : ∀ T, rs.data.cell T col row ≠ .error Exception.UnknownTypeException) :
    (rs.value col row = .error Exception.UnknownTypeException
      ↔ supportedType t = none) ∧
    (rs.valueByName name row = .error Exception.UnknownTypeException
      ↔ supportedType t = none) ∧
    (supportedType t = none ↔ ∃ code, t = ColumnDataType.FDT_OTHER code) ∧
    (∀ T, supportedType t = some T →
      rs.value col row = rs.valueAs T col row ∧
      rs.valueByName name row = rs.valueAsByName T name row) := by
  have hval := value_eq_dispatch rs col row t htype
  have hbn := valueByName_of_position rs name col row hpos
  have hiff : rs.value col row = .error Exception.UnknownTypeException
      ↔ supportedType t = none := by
    rw [hval]
    cases hs : supportedType t with
    | none => simp
    | some T =>
      simp only [reduceCtorEq, iff_false]
      exact valueAs_ne_unknown rs T col row (hacc T)
  refine ⟨hiff, ?_, supportedType_eq_none_iff t, ?_⟩
  · rw [hbn]
    exact hiff
  · intro T hT
    rw [hbn, valueAsByName_of_position rs T name col row hpos, hval, hT]
    exact ⟨rfl, rfl⟩

/-- C9, at the column `name` of `personData`, a string column, and row 0:
`value(1, 0)` is the typed accessor at `std::string`. -/
theorem value_dispatches_on_column_type_witness :
    (personData.columnType 1 = .ok .FDT_STRING ∧ personData.position "name" = .ok 1) ∧
    (RecordSet.new personData).value 1 0
      = (RecordSet.new personData).valueAs .string 1 0 ∧
    (RecordSet.new personData).valueByName "name" 0
      = (RecordSet.new personData).valueAsByName .string "name" 0 :=
  ⟨⟨rfl, rfl⟩,
    (value_dispatches_on_column_type (RecordSet.new personData) 1 0 "name"
      .FDT_STRING rfl rfl (fun T => by
        cases T <;> (intro h; cases h))).2.2.2
      .string rfl⟩

end Poco.Data

namespace Poco.Data.ODBC

open Poco.Data

/-- C10, at the failing input: for a column reported as `FDT_DATE`, and for one
reported as `FDT_TIME`, `RecordSet::value` dispatches to the typed accessor
(at `Date`, at `Time`) and returns the cell, while `Extractor::extractImpl` has
no case for the type, reaches `default:` and throws DataFormatException,
although the typed `extract(pos, Date&)` and `extract(pos, Time&)` of the same
extractor deliver the values. -/
theorem extractImpl_rejects_date_and_time :
    (mixedData.columnType 0 = .ok .FDT_DATE ∧
      (RecordSet.new mixedData).value 0 0
        = .ok (DynamicAny.holding .Date "2008-02-29") ∧
      dateExtractor.columnType 0 = .ok .FDT_DATE ∧
      dateExtractor.extract .Date 0 "" = .ok (true, "2008-02-29") ∧
      dateExtractor.extractImpl 0 DynamicAny.empty
        = .error Exception.DataFormatException) ∧
    (mixedData.columnType 2 = .ok .FDT_TIME ∧
      (RecordSet.new mixedData).value 2 0
        = .ok (DynamicAny.holding .Time "23:59:59") ∧
      dateExtractor.columnType 1 = .ok .FDT_TIME ∧
      dateExtractor.extract .Time 1 "" = .ok (true, "23:59:59") ∧
      dateExtractor.extractImpl 1 DynamicAny.empty
        = .error Exception.DataFormatException) := by
  refine ⟨⟨rfl, rfl, rfl, rfl, rfl⟩, ⟨rfl, rfl, rfl, rfl, rfl⟩⟩

end Poco.Data.ODBC

namespace Poco.Data.ODBC

open Poco.Data

/-! ## Typed extraction: lemmas -/

theorem toInt_of_small (v : Int) (h0 : -2147483648 ≤ v) (h1 : v < 2147483648) :
    toInt v = v := by
  unfold toInt
  omega

theorem isNullLengthIndicator_iff (v : Int) :
    isNullLengthIndicator v = true ↔ v % 4294967296 = 4294967295 := by
  unfold isNullLengthIndicator SQL_NULL_DATA toInt
  rw [decide_eq_true_iff]
  omega

theorem resizeLengths_length (pos : Nat) (lengths : List Int) :
    pos < (resizeLengths pos lengths).length := by
  unfold resizeLengths
  split
  · rw [List.length_append, List.length_replicate]
    omega
  · omega

theorem getD_set_resizeLengths (pos : Nat) (lengths : List Int) (x : Int) :
    ((resizeLengths pos lengths).set pos x).getD pos 0 = x := by
  have h := resizeLengths_length pos lengths
  simp [List.getD_eq_getElem?_getD, h]

theorem extractManualImpl_of_null (src : TypedSource) (T : CppType) (pos : Nat)
    (val : String) (cType : Int) (lengths : List Int)
    (hrc : src.isError (src.SQLGetData (pos % 65536 + 1) cType T).rc = false)
    (hnull : isNullLengthIndicator
      (src.SQLGetData (pos % 65536 + 1) cType T).indicator = true) :
    src.extractManualImpl T pos val cType lengths
      = .ok ((false, val), (resizeLengths pos lengths).set pos
          (src.SQLGetData (pos % 65536 + 1) cType T).indicator) := by
  unfold TypedSource.extractManualImpl
  simp only [getD_set_resizeLengths, hrc, hnull, Bool.false_eq_true, if_false, if_true]
  rfl

theorem extractManualImpl_of_value (src : TypedSource) (T : CppType) (pos : Nat)
    (val : String) (cType : Int) (lengths : List Int)
    (hrc : src.isError (src.SQLGetData (pos % 65536 + 1) cType T).rc = false)
    (hnull : isNullLengthIndicator
      (src.SQLGetData (pos % 65536 + 1) cType T).indicator = false)
    (hlen : ((src.SQLGetData (pos % 65536 + 1) cType T).indicator
      % 18446744073709551616).toNat ≤ src.sizeOf T) :
    src.extractManualImpl T pos val cType lengths
      = .ok ((true, (src.SQLGetData (pos % 65536 + 1) cType T).value),
          (resizeLengths pos lengths).set pos
            (src.SQLGetData (pos % 65536 + 1) cType T).indicator) := by
  unfold TypedSource.extractManualImpl
  simp only [getD_set_resizeLengths, hrc, hnull, Bool.false_eq_true, if_false]
  rw [if_neg (fun h => h.2 hlen)]
  rfl

/-! ## Typed extraction: the claims -/

/-- C11: in bound extraction, when `isNull(pos)` is true `extractBoundImpl`
returns false and leaves `val` as it was, and when it is false and the prepared
buffer holds a `T` it returns true with `val` the value of the buffer.  In
manual extraction, when `SQLGetData` succeeds: if the driver reports NULL, by the
length indicator `SQL_NULL_DATA`, `extractManualImpl` returns false and leaves
`val` as it was; if it reports a length between 0 and `sizeof(T)`, it returns
true with `val` the value that the driver delivered. -/
theorem typed_extraction_null_leaves_val (src : TypedSource) (T : CppType)
    (pos : Nat) (val : String) (cType : Int) (lengths : List Int)
    (hsize : src.sizeOf T < 4294967295) :
    (src.isNull pos = .ok true →
      src.extractBoundImpl T pos val = .ok (false, val)) ∧
    (∀ c, src.isNull pos = .ok false → src.prepared pos = .ok (T, c) →
      src.extractBoundImpl T pos val = .ok (true, c)) ∧
    (src.isError (src.SQLGetData (pos % 65536 + 1) cType T).rc = false →
      (src.SQLGetData (pos % 65536 + 1) cType T).indicator = SQL_NULL_DATA →
      src.extractManualImpl T pos val cType lengths
        = .ok ((false, val), (resizeLengths pos lengths).set pos SQL_NULL_DATA)) ∧
    (src.isError (src.SQLGetData (pos % 65536 + 1) cType T).rc = false →
      0 ≤ (src.SQLGetData (pos % 65536 + 1) cType T).indicator →
      (src.SQLGetData (pos % 65536 + 1) cType T).indicator ≤ src.sizeOf T →
      src.extractManualImpl T pos val cType lengths
        = .ok ((true, (src.SQLGetData (pos % 65536 + 1) cType T).value),
            (resizeLengths pos lengths).set pos
              (src.SQLGetData (pos % 65536 + 1) cType T).indicator)) := by
  refine ⟨?_, ?_, ?_, ?_⟩
  · intro hn
    unfold TypedSource.extractBoundImpl
    rw [hn]
    rfl
  · intro c hn hp
    unfold TypedSource.extractBoundImpl
    rw [hn, hp]
    show (if T = T then (pure (true, c) : Except Exception (Bool × String))
      else throw Exception.AssertionViolationException) = .ok (true, c)
    rw [if_pos rfl]
    rfl
  · intro hrc hind
    have h := extractManualImpl_of_null src T pos val cType lengths hrc
      (by rw [hind]; decide)
    rw [hind] at h
    exact h
  · intro hrc h0 h1
    refine extractManualImpl_of_value src T pos val cType lengths hrc ?_ ?_
    · cases hb : isNullLengthIndicator
          (src.SQLGetData (pos % 65536 + 1) cType T).indicator with
      | false => rfl
      | true =>
        have := (isNullLengthIndicator_iff _).mp hb
        omega
    · omega

/-- C11, at `nullSource`: column 0 is NULL and column 1 holds the `Int32` 42;
bound and manual extraction return false with `val` unchanged for the first,
and true with `val` 42 for the second. -/
theorem typed_extraction_null_leaves_val_witness :
    (nullSource.sizeOf .Int32 < 4294967295 ∧ nullSource.sizeOf .Int64 < 4294967295) ∧
    nullSource.extractBoundImpl .Int64 0 "7" = .ok (false, "7") ∧
    nullSource.extractBoundImpl .Int32 1 "7" = .ok (true, "42") ∧
    nullSource.extractManualImpl .Int64 0 "7" (-25) []
      = .ok ((false, "7"), (resizeLengths 0 []).set 0 SQL_NULL_DATA) ∧
    nullSource.extractManualImpl .Int32 1 "7" (-16) []
      = .ok ((true, "42"), (resizeLengths 1 []).set 1 4) :=
  ⟨⟨by decide, by decide⟩,
    (typed_extraction_null_leaves_val nullSource .Int64 0 "7" (-25) []
      (by decide)).1 rfl,
    (typed_extraction_null_leaves_val nullSource .Int32 1 "7" (-16) []
      (by decide)).2.1 "42" rfl rfl,
    (typed_extraction_null_leaves_val nullSource .Int64 0 "7" (-25) []
      (by decide)).2.2.1 rfl rfl,
    (typed_extraction_null_leaves_val nullSource .Int32 1 "7" (-16) []
      (by decide)).2.2.2 rfl (by decide) (by decide)⟩

/-- C12, at the failing input: column 0 of `nullSource` is reported as an
`Int64` and is NULL; the typed `extract` returns false and leaves its `val`
as it was, but `extractImpl` on a `val` that holds 7 ignores the flag, assigns
the local `i = 0` to `val` and returns true. -/
theorem extractImpl_null_overwrites_val :
    nullExtractor.columnType 0 = .ok .FDT_INT64 ∧
    nullSource.isNull 0 = .ok true ∧
    nullExtractor.extract .Int64 0 "0" = .ok (false, "0") ∧
    nullExtractor.extractImpl 0 (DynamicAny.holding .Int64 "7")
      = .ok (true, DynamicAny.holding .Int64 "0") := by
  refine ⟨rfl, rfl, rfl, rfl⟩

/-- C13, as stated, fails: column 0 of `nullSource` is prepared as an `Int64`
and is NULL; `extractBoundImpl<Int32>` returns normally, with false and `val`
unchanged, although the requested type differs from the prepared one. -/
theorem extractBoundImpl_null_skips_type_check :
    nullSource.prepared 0 = .ok (.Int64, "0") ∧
    nullSource.isNull 0 = .ok true ∧
    nullSource.extractBoundImpl .Int32 0 "7" = .ok (false, "7") := by
  refine ⟨rfl, rfl, rfl⟩

/-- C13, amended: when the requested type `T` differs from the type of the
prepared buffer at `pos`, `extractBoundImpl<T>` fails, by the assertion, for
every cell that is not NULL, before anything is copied; for a NULL cell it
returns false and leaves `val` as it was; whenever it returns at all it returns
false with `val` unchanged, so that nothing is ever copied on a mismatch. -/
theorem extractBoundImpl_type_mismatch (src : TypedSource) (T U : CppType)
    (pos : Nat) (val c : String)
    (hprep : src.prepared pos = .ok (U, c)) (hne : T ≠ U) :
    (src.isNull pos = .ok false →
      src.extractBoundImpl T pos val
        = .error Exception.AssertionViolationException) ∧
    (src.isNull pos = .ok true →
      src.extractBoundImpl T pos val = .ok (false, val)) ∧
    (∀ res, src.extractBoundImpl T pos val = .ok res → res = (false, val)) := by
  have hfalse : src.isNull pos = .ok false →
      src.extractBoundImpl T pos val
        = .error Exception.AssertionViolationException := by
    intro hn
    unfold TypedSource.extractBoundImpl
    rw [hn, hprep]
    show (if T = U then (pure (true, c) : Except Exception (Bool × String))
      else throw Exception.AssertionViolationException) = _
    rw [if_neg hne]
    rfl
  have htrue : src.isNull pos = .ok true →
      src.extractBoundImpl T pos val = .ok (false, val) := by
    intro hn
    unfold TypedSource.extractBoundImpl
    rw [hn]
    rfl
  refine ⟨hfalse, htrue, ?_⟩
  intro res hres
  cases hn : src.isNull pos with
  | error e =>
    unfold TypedSource.extractBoundImpl at hres
    rw [hn] at hres
    cases hres
  | ok null =>
    cases null with
    | true =>
      rw [htrue hn] at hres
      exact (Except.ok.inj hres).symm
    | false =>
      rw [hfalse hn] at hres
      cases hres

/-- C13, amended, at `nullSource`: column 1 is prepared as an `Int32` and is
not NULL; `extractBoundImpl<Int64>` fails by the assertion. -/
theorem extractBoundImpl_type_mismatch_witness :
    (nullSource.prepared 1 = .ok (.Int32, "42") ∧ CppType.Int64 ≠ CppType.Int32 ∧
      nullSource.isNull 1 = .ok false) ∧
    nullSource.extractBoundImpl .Int64 1 "7"
      = .error Exception.AssertionViolationException :=
  ⟨⟨rfl, by decide, rfl⟩,
    (extractBoundImpl_type_mismatch nullSource .Int64 .Int32 1 "7" "42" rfl
      (by decide)).1 rfl⟩

/-- C14, as stated, fails: the length 4294967295, a value of a 64-bit `SQLLEN`
outside the range of a 32-bit `int` and different from `SQL_NULL_DATA`, is
converted by `(int) val` to -1 and is reported as NULL. -/
theorem isNullLengthIndicator_true_on_length :
    (4294967295 : Int) ≠ SQL_NULL_DATA ∧
    (-9223372036854775808 ≤ (4294967295 : Int) ∧
      (4294967295 : Int) < 9223372036854775808) ∧
    toInt 4294967295 = -1 ∧
    isNullLengthIndicator 4294967295 = true := by
  refine ⟨by decide, ⟨by decide, by decide⟩, by decide, by decide⟩

/-- C14, amended: `isNullLengthIndicator(v)` is true if and only if `(int) v`
is `SQL_NULL_DATA`, that is if and only if `v` is congruent to -1 modulo
`2 ^ 32`; for every `v` in the range of a 32-bit `int` it is true if and only
if `v` is `SQL_NULL_DATA`, so that no length below `2 ^ 31` is reported as
NULL. -/
theorem isNullLengthIndicator_iff_low_bits (v : Int) :
    (isNullLengthIndicator v = true ↔ toInt v = SQL_NULL_DATA) ∧
    (isNullLengthIndicator v = true ↔ v % 4294967296 = 4294967295) ∧
    (-2147483648 ≤ v → v < 2147483648 →
      (isNullLengthIndicator v = true ↔ v = SQL_NULL_DATA)) := by
  refine ⟨?_, isNullLengthIndicator_iff v, ?_⟩
  · unfold isNullLengthIndicator
    rw [decide_eq_true_iff]
    exact eq_comm
  · intro h0 h1
    rw [isNullLengthIndicator_iff]
    unfold SQL_NULL_DATA
    omega

/-- C14, amended, at the length 4: it is in the range of an `int`, is not
`SQL_NULL_DATA`, and is not reported as NULL. -/
theorem isNullLengthIndicator_iff_low_bits_witness :
    ((-2147483648 : Int) ≤ 4 ∧ (4 : Int) < 2147483648) ∧
    (isNullLengthIndicator 4 = true ↔ (4 : Int) = SQL_NULL_DATA) :=
  ⟨⟨by decide, by decide⟩,
    (isNullLengthIndicator_iff_low_bits 4).2.2 (by decide) (by decide)⟩

end Poco.Data.ODBC

namespace Poco.Data

/-! ## Statements: the claims -/

/-- C15: `canModifyStorage()` returns true if and only if `extractionCount()`
is 0 and the state is `ST_INITIALIZED` or `ST_DONE`; it is false in the state
`ST_PAUSED` and false whenever an extraction is registered. -/
theorem canModifyStorage_iff (s : Statement) :
    (s.canModifyStorage = true ↔
      s.extractionCount = 0 ∧
        (s._pImpl._state = State.ST_INITIALIZED ∨ s._pImpl._state = State.ST_DONE)) ∧
    (s.canModifyStorage = true ↔
      s.extractionCount = 0 ∧ (s.initialized = true ∨ s.done = true)) ∧
    (s.paused = true → s.canModifyStorage = false) ∧
    (1 ≤ s.extractionCount → s.canModifyStorage = false) := by
  have h1 : s.canModifyStorage = true ↔
      s.extractionCount = 0 ∧ (s.initialized = true ∨ s.done = true) := by
    unfold Statement.canModifyStorage
    rw [Bool.and_eq_true, Bool.or_eq_true, beq_iff_eq]
    constructor
    · rintro ⟨h, h2⟩
      exact ⟨h.symm, h2⟩
    · rintro ⟨h, h2⟩
      exact ⟨h.symm, h2⟩
  have hi : s.initialized = true ↔ s._pImpl._state = State.ST_INITIALIZED := by
    unfold Statement.initialized
    exact beq_iff_eq
  have hd : s.done = true ↔ s._pImpl._state = State.ST_DONE := by
    unfold Statement.done
    exact beq_iff_eq
  have hp : s.paused = true ↔ s._pImpl._state = State.ST_PAUSED := by
    unfold Statement.paused
    exact beq_iff_eq
  refine ⟨?_, h1, ?_, ?_⟩
  · rw [h1, hi, hd]
  · intro hpaused
    rw [hp] at hpaused
    cases hc : s.canModifyStorage with
    | false => rfl
    | true =>
      have := (h1.mp hc).2
      rw [hi, hd, hpaused] at this
      rcases this with h | h <;> cases h
  · intro hcount
    cases hc : s.canModifyStorage with
    | false => rfl
    | true =>
      have := (h1.mp hc).1
      omega

/-- C15, at a paused statement with one extraction: its storage cannot be
modified. -/
theorem canModifyStorage_iff_witness :
    (pausedStatement.paused = true ∧ 1 ≤ pausedStatement.extractionCount) ∧
    pausedStatement.canModifyStorage = false ∧
    freshStatement.canModifyStorage = true :=
  ⟨⟨by decide, by decide⟩,
    (canModifyStorage_iff pausedStatement).2.2.1 (by decide),
    (canModifyStorage_iff freshStatement).1.mpr ⟨rfl, Or.inl rfl⟩⟩

/-- C16: when `canModifyStorage()` is true, `setStorage(kind)` returns and the
statement afterwards has the storage kind `kind` and is otherwise as before;
when `canModifyStorage()` is false, `setStorage(kind)` fails with a state error,
so that the statement, and with it the kind that `storage()` reports, is as it
was. -/
theorem setStorage_only_when_modifiable (s : Statement) (kind : Storage) :
    (s.canModifyStorage = true →
      s.setStorage kind
        = .ok { s with _pImpl := { s._pImpl with _storage := kind } } ∧
      ∀ s1, s.setStorage kind = .ok s1 →
        s1.storage = kind ∧ s1._async = s._async ∧
        s1._pImpl._state = s._pImpl._state ∧
        s1.extractionCount = s.extractionCount) ∧
    (s.canModifyStorage = false →
      s.setStorage kind = .error Exception.StateError) := by
  have hiff : s.canModifyStorage = true ↔
      s._pImpl._extractionCount = 0 ∧
        (s._pImpl._state = State.ST_INITIALIZED ∨ s._pImpl._state = State.ST_DONE) := by
    unfold Statement.canModifyStorage Statement.extractionCount
      Statement.initialized Statement.done
    rw [Bool.and_eq_true, Bool.or_eq_true, beq_iff_eq, beq_iff_eq, beq_iff_eq]
    constructor
    · rintro ⟨h, h2⟩
      exact ⟨h.symm, h2⟩
    · rintro ⟨h, h2⟩
      exact ⟨h.symm, h2⟩
  constructor
  · intro hc
    have hok : s.setStorage kind
        = .ok { s with _pImpl := { s._pImpl with _storage := kind } } := by
      unfold Statement.setStorage StatementImpl.setStorage
      rw [if_pos (hiff.mp hc)]
      rfl
    refine ⟨hok, ?_⟩
    intro s1 h1
    rw [hok] at h1
    have h2 := Except.ok.inj h1
    subst h2
    exact ⟨rfl, rfl, rfl, rfl⟩
  · intro hc
    have hn : ¬ (s._pImpl._extractionCount = 0 ∧
        (s._pImpl._state = State.ST_INITIALIZED ∨ s._pImpl._state = State.ST_DONE)) := by
      intro h
      rw [hiff.mpr h] at hc
      cases hc
    unfold Statement.setStorage StatementImpl.setStorage
    rw [if_neg hn]
    rfl

/-- C16, at a new statement and at a paused one: the first takes the storage
kind `STORAGE_LIST`, the second fails with a state error. -/
theorem setStorage_only_when_modifiable_witness :
    (freshStatement.canModifyStorage = true ∧
      pausedStatement.canModifyStorage = false) ∧
    freshStatement.setStorage Storage.STORAGE_LIST
      = .ok { freshStatement with
          _pImpl := { freshStatement._pImpl with _storage := Storage.STORAGE_LIST } } ∧
    pausedStatement.setStorage Storage.STORAGE_LIST = .error Exception.StateError :=
  ⟨⟨by decide, by decide⟩,
    ((setStorage_only_when_modifiable freshStatement Storage.STORAGE_LIST).1
      (by decide)).1,
    (setStorage_only_when_modifiable pausedStatement Storage.STORAGE_LIST).2
      (by decide)⟩

/-- C17: for every `StatementImpl::setExtractionLimit`, every statement and
every range `r`, applying `r` to the statement is applying the limit
`r.lower()` and then the limit `r.upper()`; when it returns, the asynchronous
flag and the pending result of the statement are as before. -/
theorem commaRange_eq_two_limits
    (setExtractionLimit : StatementImpl → Limit → Except Exception StatementImpl)
    (s : Statement) (r : Range) :
    s.commaRange setExtractionLimit r
      = (s.commaLimit setExtractionLimit r.lower >>= fun s1 =>
          s1.commaLimit setExtractionLimit r.upper) ∧
    ∀ s2, s.commaRange setExtractionLimit r = .ok s2 →
      s2._async = s._async ∧ s2._pResult = s._pResult := by
  have key : s.commaRange setExtractionLimit r
      = (s.commaLimit setExtractionLimit r.lower >>= fun s1 =>
          s1.commaLimit setExtractionLimit r.upper) := by
    unfold Statement.commaRange Statement.commaLimit
    generalize setExtractionLimit s._pImpl r.lower = first
    cases first <;> rfl
  refine ⟨key, ?_⟩
  intro s2 h
  unfold Statement.commaRange at h
  cases h1 : setExtractionLimit s._pImpl r.lower with
  | error e =>
    rw [h1] at h
    cases h
  | ok impl1 =>
    rw [h1] at h
    cases h2 : setExtractionLimit impl1 r.upper with
    | error e =>
      have h3 : (setExtractionLimit impl1 r.upper >>= fun impl2 =>
          (pure { s with _pImpl := impl2 } : Except Exception Statement))
          = .ok s2 := h
      rw [h2] at h3
      cases h3
    | ok impl2 =>
      have h3 : (setExtractionLimit impl1 r.upper >>= fun impl2 =>
          (pure { s with _pImpl := impl2 } : Except Exception Statement))
          = .ok s2 := h
      rw [h2] at h3
      have h4 := Except.ok.inj h3
      subst h4
      exact ⟨rfl, rfl⟩

/-- C17, at a new statement and the range from 2 to 5: the statement skips to
row 2 and stops at row 5, and is synchronous as before. -/
theorem commaRange_eq_two_limits_witness :
    freshStatement.commaRange sampleSetExtractionLimit
        ⟨⟨2, false, true⟩, ⟨5, false, false⟩⟩
      = .ok { freshStatement with
          _pImpl := { freshImpl with
            _lowerLimit := 2, _extrLimit := some ⟨5, false, false⟩ } } ∧
    ({ freshStatement with
        _pImpl := { freshImpl with
          _lowerLimit := 2, _extrLimit := some ⟨5, false, false⟩ } } : Statement)._async
      = freshStatement._async :=
  ⟨rfl,
    ((commaRange_eq_two_limits sampleSetExtractionLimit freshStatement
      ⟨⟨2, false, true⟩, ⟨5, false, false⟩⟩).2 _ rfl).1⟩

end Poco.Data

namespace Poco.Data

theorem executeAsync_async
    (run : StatementImpl → Except Exception (StatementImpl × Nat)) (s : Statement) :
    (s.executeAsync run)._async = s._async := by
  unfold Statement.executeAsync
  cases run s._pImpl <;> rfl

theorem executeAsync_pending
    (run : StatementImpl → Except Exception (StatementImpl × Nat)) (s : Statement) :
    (s.executeAsync run)._pResult.isSome = true := by
  unfold Statement.executeAsync
  cases run s._pImpl <;> rfl

theorem execute_async
    (run : StatementImpl → Except Exception (StatementImpl × Nat)) (s : Statement)
    (res : Nat × Statement) (h : s.execute run = .ok res) :
    res.2._async = s._async := by
  unfold Statement.execute at h
  cases ha : s._async with
  | true =>
    rw [ha, if_pos rfl] at h
    have h2 := Except.ok.inj h
    rw [← h2]
    show (s.executeAsync run)._async = true
    rw [executeAsync_async, ha]
  | false =>
    rw [ha] at h
    simp only [Bool.false_eq_true, if_false] at h
    cases hr : run s._pImpl with
    | error e =>
      rw [hr] at h
      cases h
    | ok out =>
      rw [hr] at h
      have h2 := Except.ok.inj h
      rw [← h2]

theorem afterCalls_async
    (run : StatementImpl → Except Exception (StatementImpl × Nat))
    (calls : List ExecCall) :
    ∀ s : Statement, (s.afterCalls run calls)._async = s._async := by
  induction calls with
  | nil =>
    intro s
    rfl
  | cons call rest ih =>
    intro s
    cases call with
    | execute =>
      unfold Statement.afterCalls
      cases he : s.execute run with
      | error e => exact ih s
      | ok res =>
        show (Statement.afterCalls run res.2 rest)._async = s._async
        rw [ih res.2]
        exact execute_async run s res he
    | executeAsync =>
      unfold Statement.afterCalls
      rw [ih (s.executeAsync run)]
      exact executeAsync_async run s

/-- C18: for every execution of the backend and every statement,
`executeAsync()` leaves `isAsync()` as it was and leaves a result pending, so
that on a synchronous statement it executes once asynchronously and the
statement is synchronous afterwards; `execute()`, when it returns, leaves
`isAsync()` as it was; any sequence of `execute()` and `executeAsync()` calls
leaves `isAsync()` as it was; and after `setAsync(true)`, `isAsync()` is true
and stays true across any such sequence. -/
theorem isAsync_changed_only_by_setAsync
    (run : StatementImpl → Except Exception (StatementImpl × Nat)) (s : Statement) :
    ((s.executeAsync run).isAsync = s.isAsync ∧
      (s.executeAsync run)._pResult.isSome = true) ∧
    (∀ res, s.execute run = .ok res → res.2.isAsync = s.isAsync) ∧
    (∀ calls, (s.afterCalls run calls).isAsync = s.isAsync) ∧
    (∀ b, (s.setAsync b).isAsync = b) ∧
    (∀ calls, ((s.setAsync true).afterCalls run calls).isAsync = true) := by
  refine ⟨⟨executeAsync_async run s, executeAsync_pending run s⟩,
    fun res h => execute_async run s res h,
    fun calls => afterCalls_async run calls s,
    fun b => rfl, fun calls => ?_⟩
  show ((s.setAsync true).afterCalls run calls)._async = true
  rw [afterCalls_async run calls (s.setAsync true)]
  rfl

/-- C18, at a new, synchronous statement: `execute()` returns the five rows of
the backend and the statement is synchronous afterwards. -/
theorem isAsync_changed_only_by_setAsync_witness :
    freshStatement.execute sampleRun
      = .ok (5, { freshStatement with
          _pImpl := { freshImpl with _state := State.ST_DONE } }) ∧
    ({ freshStatement with
        _pImpl := { freshImpl with _state := State.ST_DONE } } : Statement).isAsync
      = freshStatement.isAsync ∧
    (freshStatement.executeAsync sampleRun).isAsync = false :=
  ⟨rfl,
    (isAsync_changed_only_by_setAsync sampleRun freshStatement).2.1 (5, _) rfl,
    (isAsync_changed_only_by_setAsync sampleRun freshStatement).1.1⟩

end Poco.Data

namespace Poco.Data.SQLite

open Poco.Data

/-! ## SQLite utilities: lemmas and claims -/

theorem find_ne_none_iff (s sub : List Char) :
    find s sub ≠ none ↔ sub <:+: s := by
  induction s with
  | nil =>
    unfold find
    by_cases h : sub.isPrefixOf [] = true
    · rw [if_pos h]
      have hp : sub <+: [] := List.isPrefixOf_iff_prefix.mp h
      exact ⟨fun _ => hp.isInfix, fun _ => by simp⟩
    · rw [if_neg h]
      constructor
      · intro hc
        exact absurd rfl hc
      · intro hin
        exfalso
        apply h
        have hnil : sub = [] := List.eq_nil_of_infix_nil hin
        rw [hnil]
        rfl
  | cons c rest ih =>
    unfold find
    rw [List.infix_cons_iff]
    by_cases h : sub.isPrefixOf (c :: rest) = true
    · rw [if_pos h]
      exact ⟨fun _ => Or.inl (List.isPrefixOf_iff_prefix.mp h), fun _ => by simp⟩
    · rw [if_neg h]
      have hnp : ¬ sub <+: c :: rest := fun hp => h (List.isPrefixOf_iff_prefix.mpr hp)
      constructor
      · intro hc
        right
        apply ih.mp
        intro hnone
        apply hc
        rw [hnone]
        rfl
      · intro hor
        rcases hor with hp | hin
        · exact absurd hp hnp
        · intro hnone
          have := ih.mpr hin
          cases hf : find rest sub with
          | none => exact this hf
          | some i =>
            rw [hf] at hnone
            cases hnone

theorem getColumnType_eq (pc : Option String) :
    getColumnType pc =
      match referenceColumnType pc with
      | some t => .ok t
      | none => .error Exception.NotFoundException := by
  have hu : toUpperInPlace (match pc with
      | some decl => decl.toList
      | none => "".toList) = (pc.getD "").toList.map Char.toUpper := by
    cases pc <;> rfl
  unfold getColumnType referenceColumnType
  simp only [hu, find_ne_none_iff, List.isEmpty_iff]
  generalize (pc.getD "").toList.map Char.toUpper = u
  by_cases h1 : "INT".toList <:+: u
  · simp only [h1, if_true]
    rfl
  · simp only [h1, if_false]
    by_cases h2 : u = [] ∨ "CHAR".toList <:+: u ∨ "CLOB".toList <:+: u ∨
        "TEXT".toList <:+: u
    · simp only [h2, if_true]
      rfl
    · simp only [h2, if_false]
      by_cases h3 : "REAL".toList <:+: u ∨ "FLOA".toList <:+: u ∨
          "DOUB".toList <:+: u
      · simp only [h3, if_true]
        rfl
      · simp only [h3, if_false]
        by_cases h4 : "BLOB".toList <:+: u
        · simp only [h4, if_true]
          rfl
        · simp only [h4, if_false]
          by_cases h5 : "DATE".toList <:+: u
          · simp only [h5, if_true]
            rfl
          · simp only [h5, if_false]
            rfl

theorem referenceColumnType_eq_none_iff (pc : Option String) :
    referenceColumnType pc = none ↔
      (pc.getD "").toList ≠ [] ∧
      ∀ kw ∈ ["INT", "CHAR", "CLOB", "TEXT", "REAL", "FLOA", "DOUB", "BLOB", "DATE"],
        ¬ containsKeyword ((pc.getD "").toList.map Char.toUpper) kw := by
  unfold referenceColumnType
  have he : (pc.getD "").toList.map Char.toUpper = [] ↔ (pc.getD "").toList = [] :=
    List.map_eq_nil_iff
  simp only [List.mem_cons, List.mem_singleton, forall_eq_or_imp, forall_eq,
    List.not_mem_nil, false_implies, implies_true, and_true]
  rw [ne_eq, ← he]
  generalize (pc.getD "").toList.map Char.toUpper = u
  by_cases h1 : containsKeyword u "INT"
  · rw [if_pos h1]
    constructor
    · intro h
      cases h
    · rintro ⟨-, hi, -⟩
      exact absurd h1 hi
  · rw [if_neg h1]
    by_cases h2 : u = [] ∨ containsKeyword u "CHAR" ∨ containsKeyword u "CLOB" ∨
        containsKeyword u "TEXT"
    · rw [if_pos h2]
      constructor
      · intro h
        cases h
      · rintro ⟨hne, -, hc, hl, ht, -⟩
        rcases h2 with h | h | h | h
        · exact absurd h hne
        · exact absurd h hc
        · exact absurd h hl
        · exact absurd h ht
    · rw [if_neg h2]
      have h2n := not_or.mp h2
      have h2m := not_or.mp h2n.2
      have h2k := not_or.mp h2m.2
      by_cases h3 : containsKeyword u "REAL" ∨ containsKeyword u "FLOA" ∨
          containsKeyword u "DOUB"
      · rw [if_pos h3]
        constructor
        · intro h
          cases h
        · rintro ⟨-, -, -, -, -, hr, hf, hd, -⟩
          rcases h3 with h | h | h
          · exact absurd h hr
          · exact absurd h hf
          · exact absurd h hd
      · rw [if_neg h3]
        have h3n := not_or.mp h3
        have h3m := not_or.mp h3n.2
        by_cases h4 : containsKeyword u "BLOB"
        · rw [if_pos h4]
          constructor
          · intro h
            cases h
          · rintro ⟨-, -, -, -, -, -, -, -, hb, -⟩
            exact absurd h4 hb
        · rw [if_neg h4]
          by_cases h5 : containsKeyword u "DATE"
          · rw [if_pos h5]
            constructor
            · intro h
              cases h
            · rintro ⟨-, -, -, -, -, -, -, -, -, hd⟩
              exact absurd h5 hd
          · rw [if_neg h5]
            exact ⟨fun _ => ⟨h2n.1, h1, h2m.1, h2k.1, h2k.2, h3n.1, h3m.1, h3m.2, h4, h5⟩,
              fun _ => rfl⟩

/-- C19: for every declared type, `Utility::getColumnType` is the reference
definition: it returns the column type that the reference definition gives,
and throws NotFoundException exactly when the reference definition gives none,
that is exactly when the declared type is not empty and its upper-cased form
contains none of the nine keywords. -/
theorem getColumnType_eq_reference (pc : Option String) :
    (getColumnType pc =
      match referenceColumnType pc with
      | some t => .ok t
      | none => .error Exception.NotFoundException) ∧
    (getColumnType pc = .error Exception.NotFoundException ↔
      (pc.getD "").toList ≠ [] ∧
      ∀ kw ∈ ["INT", "CHAR", "CLOB", "TEXT", "REAL", "FLOA", "DOUB", "BLOB", "DATE"],
        ¬ containsKeyword ((pc.getD "").toList.map Char.toUpper) kw) := by
  refine ⟨getColumnType_eq pc, ?_⟩
  rw [← referenceColumnType_eq_none_iff, getColumnType_eq]
  cases referenceColumnType pc with
  | none => simp
  | some t => simp

/-- C19, at three declared types: `VarChar(30)` is a string column, `Point`
contains `INT` and is an integer column, and `numeric` contains no keyword, so
that NotFoundException is thrown. -/
theorem getColumnType_eq_reference_witness :
    getColumnType (some "VarChar(30)") = .ok .FDT_STRING ∧
    getColumnType (some "Point") = .ok .FDT_INT64 ∧
    getColumnType (some "numeric") = .error Exception.NotFoundException ∧
    (getColumnType (some "numeric") = .error Exception.NotFoundException ↔
      ((some "numeric" : Option String).getD "").toList ≠ [] ∧
      ∀ kw ∈ ["INT", "CHAR", "CLOB", "TEXT", "REAL", "FLOA", "DOUB", "BLOB", "DATE"],
        ¬ containsKeyword
          (((some "numeric" : Option String).getD "").toList.map Char.toUpper) kw) :=
  ⟨rfl, rfl, rfl, (getColumnType_eq_reference (some "numeric")).2⟩

theorem throwException_of_unlisted (rc : Int) (addErrMsg : String)
    (h : rc ∉ listedCodes) :
    throwException rc addErrMsg
      = .error ⟨.SQLiteException, "Unkown error code: " ++ toString rc, addErrMsg⟩ := by
  simp only [listedCodes, List.mem_cons, List.mem_singleton, List.not_mem_nil,
    not_or, or_false] at h
  unfold throwException
  simp only [h, if_false]
  rfl

theorem throwException_ok_iff (rc : Int) (addErrMsg : String) :
    throwException rc addErrMsg = .ok () ↔
      rc = SQLITE_OK ∨ rc = SQLITE_ROW ∨ rc = SQLITE_DONE := by
  constructor
  · intro h
    by_contra hn
    rw [not_or, not_or] at hn
    by_cases hl : rc ∈ listedCodes
    · simp only [listedCodes, List.mem_cons, List.mem_singleton, List.not_mem_nil,
        or_false] at hl
      rcases hl with hl | hl | hl | hl | hl | hl | hl | hl | hl | hl | hl | hl | hl |
        hl | hl | hl | hl | hl | hl | hl | hl | hl | hl | hl | hl | hl | hl | hl | hl
      all_goals first
        | exact hn.1 hl
        | exact hn.2.1 hl
        | exact hn.2.2 hl
        | (subst hl; cases h)
    · rw [throwException_of_unlisted rc addErrMsg hl] at h
      cases h
  · rintro (h | h | h) <;> subst h <;> rfl

/-- C20: `Utility::throwException(rc, msg)` returns normally if and only if
`rc` is `SQLITE_OK`, `SQLITE_ROW` or `SQLITE_DONE`, and raises an exception if
and only if `rc` is none of the three; for every `rc` without a case of its
own it raises the generic SQLiteException with the message
"Unkown error code: " followed by the decimal rendering of `rc`, and with `msg`
as its argument. -/
theorem throwException_raises_iff (rc : Int) (addErrMsg : String) :
    (throwException rc addErrMsg = .ok () ↔
      rc = SQLITE_OK ∨ rc = SQLITE_ROW ∨ rc = SQLITE_DONE) ∧
    ((∃ e, throwException rc addErrMsg = .error e) ↔
      ¬ (rc = SQLITE_OK ∨ rc = SQLITE_ROW ∨ rc = SQLITE_DONE)) ∧
    (rc ∉ listedCodes →
      throwException rc addErrMsg
        = .error ⟨.SQLiteException, "Unkown error code: " ++ toString rc,
            addErrMsg⟩) := by
  refine ⟨throwException_ok_iff rc addErrMsg, ?_,
    throwException_of_unlisted rc addErrMsg⟩
  rw [← throwException_ok_iff rc addErrMsg]
  cases throwException rc addErrMsg with
  | error e => exact ⟨fun _ h => (by cases h), fun _ => ⟨e, rfl⟩⟩
  | ok u =>
    constructor
    · rintro ⟨e, h⟩
      cases h
    · intro h
      exact absurd rfl h

/-- C20, at the result code 27, which has no case of its own, and at
`SQLITE_IOERR`: the first raises the generic exception with the message
"Unkown error code: 27", the second raises the exception of its case. -/
theorem throwException_raises_iff_witness :
    (27 : Int) ∉ listedCodes ∧
    throwException 27 "step"
      = .error ⟨.SQLiteException, "Unkown error code: " ++ toString (27 : Int), "step"⟩ ∧
    "Unkown error code: " ++ toString (27 : Int) = "Unkown error code: 27" ∧
    throwException SQLITE_IOERR "step"
      = .error ⟨.IOErrorException, "Some kind of disk I/O error occurred", "step"⟩ ∧
    throwException SQLITE_ROW "step" = .ok () :=
  ⟨by decide, (throwException_raises_iff 27 "step").2.2 (by decide), by decide, rfl,
    (throwException_raises_iff SQLITE_ROW "step").1.mpr (Or.inr (Or.inl rfl))⟩

end Poco.Data.SQLite

namespace Poco.Data

/-! ## Cursor movement: inverse moves -/

theorem subSize_lt (a b : Nat) : subSize a b < SIZE_MOD := by
  unfold subSize SIZE_MOD
  split <;> omega

theorem moveNext_fst (rs : RecordSet) :
    rs.moveNext.1 = true ↔ rs._currentRow < subSize rs.data.rowCount 1 := by
  by_cases h : rs._currentRow ≥ subSize rs.data.rowCount 1
  · simp only [RecordSet.moveNext, h, if_true]
    constructor
    · intro hf
      cases hf
    · intro hlt
      omega
  · simp only [RecordSet.moveNext, h, if_false]
    constructor
    · intro _
      omega
    · intro _
      trivial

theorem moveNext_cursor (rs : RecordSet) :
    rs.moveNext.2._currentRow =
      if rs._currentRow ≥ subSize rs.data.rowCount 1 then rs._currentRow
      else incSize rs._currentRow := by
  by_cases h : rs._currentRow ≥ subSize rs.data.rowCount 1 <;>
    simp only [RecordSet.moveNext, h, if_true, if_false]

theorem movePrevious_fst (rs : RecordSet) :
    rs.movePrevious.1 = false ↔ rs._currentRow = 0 := by
  by_cases h : 0 = rs._currentRow
  · simp only [RecordSet.movePrevious, h, if_true]
  · simp only [RecordSet.movePrevious, h, if_false]
    constructor
    · intro hf
      cases hf
    · intro h0
      exact absurd h0.symm h

/-- C25: if `moveNext()` returns true, a `movePrevious()` that follows returns
true and puts the cursor back; on a record set whose cursor is on one of its
rows, or that has no rows, if `movePrevious()` returns true, a `moveNext()`
that follows returns true and puts the cursor back; and `movePrevious()`
returns false exactly when the cursor is 0, and then leaves it on 0. -/
theorem moveNext_movePrevious_inverse (rs : RecordSet)
    (hcount : rs.data.rowCount < SIZE_MOD) (hcur : rs._currentRow < SIZE_MOD)
    (hin : rs.data.rowCount = 0 ∨ rs._currentRow < rs.data.rowCount) :
    (rs.moveNext.1 = true →
      rs.moveNext.2.movePrevious.1 = true ∧
      rs.moveNext.2.movePrevious.2._currentRow = rs._currentRow) ∧
    (rs.movePrevious.1 = true →
      rs.movePrevious.2.moveNext.1 = true ∧
      rs.movePrevious.2.moveNext.2._currentRow = rs._currentRow) ∧
    (rs.movePrevious.1 = false ↔ rs._currentRow = 0) ∧
    (rs._currentRow = 0 → rs.movePrevious.2._currentRow = rs._currentRow) := by
  refine ⟨?_, ?_, movePrevious_fst rs, ?_⟩
  · intro hn
    have hlt := (moveNext_fst rs).mp hn
    have hsub := subSize_lt rs.data.rowCount 1
    have hinc : incSize rs._currentRow = rs._currentRow + 1 :=
      incSize_of_lt _ (by omega)
    have hc : rs.moveNext.2._currentRow = rs._currentRow + 1 := by
      rw [moveNext_cursor, if_neg (by omega), hinc]
    have hne : ¬ rs.moveNext.2._currentRow = 0 := by
      rw [hc]
      omega
    constructor
    · cases hp : rs.moveNext.2.movePrevious.1 with
      | true => rfl
      | false => exact absurd ((movePrevious_fst _).mp hp) hne
    · rw [movePrevious_cursor, if_neg (fun h => hne h.symm), hc,
        decSize_of_pos _ (by omega) (by omega)]
      omega
  · intro hp
    have hne : ¬ rs._currentRow = 0 := by
      intro h0
      rw [(movePrevious_fst rs).mpr h0] at hp
      cases hp
    have hc : rs.movePrevious.2._currentRow = rs._currentRow - 1 := by
      rw [movePrevious_cursor, if_neg (fun h => hne h.symm),
        decSize_of_pos _ (by omega) hcur]
    have hd : rs.movePrevious.2.data = rs.data := movePrevious_data rs
    have hlt : rs.movePrevious.2._currentRow
        < subSize rs.movePrevious.2.data.rowCount 1 := by
      rw [hc, hd]
      rcases hin with h0 | hr
      · rw [h0]
        have : subSize 0 1 = SIZE_MOD - 1 := by decide
        rw [this]
        omega
      · rw [subSize_one_of_pos _ (by omega) hcount]
        omega
    constructor
    · exact (moveNext_fst _).mpr hlt
    · rw [moveNext_cursor, if_neg (by omega), hc, incSize_of_lt _ (by omega)]
      omega
  · intro h0
    rw [movePrevious_cursor, if_pos h0.symm]

/-- C25, at the two persons of `personData`: from the first row `moveNext()`
returns true and `movePrevious()` puts the cursor back on row 0. -/
theorem moveNext_movePrevious_inverse_witness :
    ((RecordSet.new personData).data.rowCount < SIZE_MOD ∧
      (RecordSet.new personData)._currentRow < SIZE_MOD ∧
      (RecordSet.new personData)._currentRow < (RecordSet.new personData).data.rowCount ∧
      (RecordSet.new personData).moveNext.1 = true) ∧
    (RecordSet.new personData).moveNext.2.movePrevious.1 = true ∧
    (RecordSet.new personData).moveNext.2.movePrevious.2._currentRow
      = (RecordSet.new personData)._currentRow :=
  ⟨⟨by decide, by decide, by decide, by decide⟩,
    (moveNext_movePrevious_inverse (RecordSet.new personData) (by decide) (by decide)
      (Or.inr (by decide))).1 (by decide)⟩

end Poco.Data

namespace Poco.Crypto

/-! ## RSA stream transforms: the loop -/

theorem body_of_copy (assertOutput debug : Bool)
    (op : List Nat → Padding → Int × List Nat) (B : Nat) (s : Loop)
    (h : s._pos < B) :
    Loop.body assertOutput debug op B s = .ok (s.afterCopy B) := by
  unfold Loop.body
  rw [if_neg (fun hc => hc.2 (by omega)), if_neg (by omega)]
  rfl

theorem body_of_full (assertOutput debug : Bool)
    (op : List Nat → Padding → Int × List Nat) (B : Nat) (s : Loop)
    (h : s._pos = B) :
    Loop.body assertOutput debug op B s =
      if assertOutput = true ∧ ¬ s.outputLength ≥ B then
        .error (.AssertionViolationException "outputLength >= rsaSize", s)
      else if (op (s._pBuf.take (B : Int).toNat) .RSA_NO_PADDING).1 = -1 then
        .error (.IOException,
          { s with
            calls := s.calls ++ [(s._pBuf.take (B : Int).toNat, .RSA_NO_PADDING)] })
      else .ok (s.afterBlock op B) := by
  unfold Loop.body
  rw [if_neg (fun hc => hc.2 (by omega)), if_pos (by omega)]
  rfl

theorem run_returned (assertOutput debug : Bool)
    (op : List Nat → Padding → Int × List Nat) (rsaSize : Int) (P : Loop → Prop)
    (hstep : ∀ s s1, P s → s.inputLength > 0 →
      Loop.body assertOutput debug op rsaSize s = .ok s1 → P s1) :
    ∀ (fuel : Nat) (s r : Loop), P s →
      Loop.run assertOutput debug op rsaSize fuel s = some (.returned r) →
      P r ∧ ¬ r.inputLength > 0 := by
  intro fuel
  induction fuel with
  | zero =>
    intro s r hP h
    unfold Loop.run at h
    by_cases hl : s.inputLength > 0
    · rw [if_pos hl] at h
      cases h
    · rw [if_neg hl] at h
      have h2 : s = r := LoopEnd.returned.inj (Option.some.inj h)
      subst h2
      exact ⟨hP, hl⟩
  | succ fuel ih =>
    intro s r hP h
    unfold Loop.run at h
    by_cases hl : s.inputLength > 0
    · rw [if_pos hl] at h
      cases hb : Loop.body assertOutput debug op rsaSize s with
      | ok s1 =>
        rw [hb] at h
        exact ih s1 r (hstep s s1 hP hl hb) h
      | error es =>
        rw [hb] at h
        obtain ⟨e, s1⟩ := es
        cases h
    · rw [if_neg hl] at h
      have h2 : s = r := LoopEnd.returned.inj (Option.some.inj h)
      subst h2
      exact ⟨hP, hl⟩

theorem run_thrown (assertOutput debug : Bool)
    (op : List Nat → Padding → Int × List Nat) (rsaSize : Int) (P : Loop → Prop)
    (Q : CryptoException → Loop → Prop)
    (hstep : ∀ s s1, P s → s.inputLength > 0 →
      Loop.body assertOutput debug op rsaSize s = .ok s1 → P s1)
    (hthrow : ∀ s e s1, P s → s.inputLength > 0 →
      Loop.body assertOutput debug op rsaSize s = .error (e, s1) → Q e s1) :
    ∀ (fuel : Nat) (s : Loop) (e : CryptoException) (r : Loop), P s →
      Loop.run assertOutput debug op rsaSize fuel s = some (.thrown e r) →
      Q e r := by
  intro fuel
  induction fuel with
  | zero =>
    intro s e r hP h
    unfold Loop.run at h
    by_cases hl : s.inputLength > 0
    · rw [if_pos hl] at h
      cases h
    · rw [if_neg hl] at h
      cases h
  | succ fuel ih =>
    intro s e r hP h
    unfold Loop.run at h
    by_cases hl : s.inputLength > 0
    · rw [if_pos hl] at h
      cases hb : Loop.body assertOutput debug op rsaSize s with
      | ok s1 =>
        rw [hb] at h
        exact ih s1 e r (hstep s s1 hP hl hb) h
      | error es =>
        rw [hb] at h
        obtain ⟨e1, s1⟩ := es
        have h2 := Option.some.inj h
        have h3 : e1 = e ∧ s1 = r := by
          injection h2 with h4 h5
          exact ⟨h4, h5⟩
        rw [← h3.1, ← h3.2]
        exact hthrow s e1 s1 hP hl hb
    · rw [if_neg hl] at h
      cases h

theorem missing_bounds (B : Nat) (s : Loop) (h : s._pos < B)
    (hl : s.inputLength > 0) :
    1 ≤ s.missing B ∧ s.missing B ≤ B - s._pos ∧ s.missing B ≤ s.inputLength := by
  unfold Loop.missing
  split <;> omega

theorem body_ok_cases (assertOutput debug : Bool)
    (op : List Nat → Padding → Int × List Nat) (B : Nat) (s s1 : Loop)
    (hle : s._pos ≤ B)
    (hb : Loop.body assertOutput debug op B s = .ok s1) :
    (s._pos < B ∧ s1 = s.afterCopy B) ∨
    (s._pos = B ∧ s1 = s.afterBlock op B ∧
      (op (s._pBuf.take (B : Int).toNat) .RSA_NO_PADDING).1 ≠ -1 ∧
      ¬ (assertOutput = true ∧ ¬ s.outputLength ≥ B)) := by
  by_cases h : s._pos < B
  · left
    rw [body_of_copy assertOutput debug op B s h] at hb
    exact ⟨h, (Except.ok.inj hb).symm⟩
  · right
    have heq : s._pos = B := by omega
    rw [body_of_full assertOutput debug op B s heq] at hb
    by_cases ha : assertOutput = true ∧ ¬ s.outputLength ≥ B
    · rw [if_pos ha] at hb
      cases hb
    · rw [if_neg ha] at hb
      by_cases ht : (op (s._pBuf.take (B : Int).toNat) .RSA_NO_PADDING).1 = -1
      · rw [if_pos ht] at hb
        cases hb
      · rw [if_neg ht] at hb
        exact ⟨heq, (Except.ok.inj hb).symm, ht, ha⟩

theorem body_error_cases (assertOutput debug : Bool)
    (op : List Nat → Padding → Int × List Nat) (B : Nat) (s s1 : Loop)
    (e : CryptoException) (hle : s._pos ≤ B)
    (hb : Loop.body assertOutput debug op B s = .error (e, s1)) :
    s._pos = B ∧ s1._pos = s._pos ∧ s1._pBuf = s._pBuf ∧
    ((e = .AssertionViolationException "outputLength >= rsaSize" ∧ s1 = s) ∨
      (e = .IOException ∧
        s1.calls = s.calls ++ [(s._pBuf.take (B : Int).toNat, .RSA_NO_PADDING)])) := by
  by_cases h : s._pos < B
  · rw [body_of_copy assertOutput debug op B s h] at hb
    cases hb
  · have heq : s._pos = B := by omega
    rw [body_of_full assertOutput debug op B s heq] at hb
    by_cases ha : assertOutput = true ∧ ¬ s.outputLength ≥ B
    · rw [if_pos ha] at hb
      have h2 := Except.error.inj hb
      injection h2 with h3 h4
      subst h3 h4
      exact ⟨heq, rfl, rfl, Or.inl ⟨rfl, rfl⟩⟩
    · rw [if_neg ha] at hb
      by_cases ht : (op (s._pBuf.take (B : Int).toNat) .RSA_NO_PADDING).1 = -1
      · rw [if_pos ht] at hb
        have h2 := Except.error.inj hb
        injection h2 with h3 h4
        subst h3 h4
        exact ⟨heq, rfl, rfl, Or.inr ⟨rfl, rfl⟩⟩
      · rw [if_neg ht] at hb
        cases hb

theorem body_posInv (assertOutput debug : Bool)
    (op : List Nat → Padding → Int × List Nat) (B : Nat) (hB : 0 < B)
    (s s1 : Loop) (hP : PosInv B s._pos) (hl : s.inputLength > 0)
    (hb : Loop.body assertOutput debug op B s = .ok s1) :
    PosInv B s1._pos ∧ Loop.measure B s1 < Loop.measure B s := by
  rcases body_ok_cases assertOutput debug op B s s1 hP.2 hb with
    ⟨hlt, hs⟩ | ⟨heq, hs, -, -⟩
  · subst hs
    obtain ⟨m1, m2, m3⟩ := missing_bounds B s hlt hl
    have hp : (s.afterCopy B)._pos = s._pos + s.missing B := rfl
    have hi : (s.afterCopy B).inputLength = s.inputLength - s.missing B := rfl
    unfold PosInv Loop.measure
    rw [hp, hi]
    have h0 := hP.1
    refine ⟨⟨by omega, by omega⟩, ?_⟩
    rw [if_neg (by omega : ¬ s._pos = B)]
    split <;> omega
  · subst hs
    have hp : (s.afterBlock op B)._pos = 0 := rfl
    have hi : (s.afterBlock op B).inputLength = s.inputLength := rfl
    unfold PosInv Loop.measure
    rw [hp, hi, if_pos heq, if_neg (by omega : ¬ (0 : Int) = B)]
    refine ⟨⟨by omega, by omega⟩, by omega⟩

theorem run_terminates (assertOutput debug : Bool)
    (op : List Nat → Padding → Int × List Nat) (B : Nat) (hB : 0 < B) :
    ∀ (fuel : Nat) (s : Loop), PosInv B s._pos → Loop.measure B s ≤ fuel →
      ∃ e, Loop.run assertOutput debug op B fuel s = some e := by
  intro fuel
  induction fuel with
  | zero =>
    intro s hP hm
    unfold Loop.run
    by_cases hl : s.inputLength > 0
    · unfold Loop.measure at hm
      omega
    · rw [if_neg hl]
      exact ⟨_, rfl⟩
  | succ fuel ih =>
    intro s hP hm
    unfold Loop.run
    by_cases hl : s.inputLength > 0
    · rw [if_pos hl]
      cases hb : Loop.body assertOutput debug op B s with
      | ok s1 =>
        obtain ⟨hP1, hm1⟩ := body_posInv assertOutput debug op B hB s s1 hP hl hb
        exact ih s1 hP1 (by omega)
      | error es =>
        obtain ⟨e, s1⟩ := es
        exact ⟨_, rfl⟩
    · rw [if_neg hl]
      exact ⟨_, rfl⟩

theorem measure_le (B : Nat) (s : Loop) :
    Loop.measure B s ≤ 2 * s.inputLength.toNat + 1 := by
  unfold Loop.measure
  split <;> omega

end Poco.Crypto

namespace Poco.Crypto

theorem memcpy_length (buf src : List Nat) (pos m : Int) (h0 : 0 ≤ pos)
    (hm : 0 ≤ m) (hle : pos + m ≤ buf.length) (hsrc : m ≤ src.length) :
    (memcpy buf pos src m).length = buf.length := by
  unfold memcpy
  simp only [List.length_append, List.length_take, List.length_drop]
  omega

theorem memcpy_take (buf src : List Nat) (pos m : Int) (h0 : 0 ≤ pos)
    (hm : 0 ≤ m) (hle : pos + m ≤ buf.length) (hsrc : m ≤ src.length) :
    (memcpy buf pos src m).take (pos + m).toNat
      = buf.take pos.toNat ++ src.take m.toNat := by
  unfold memcpy
  apply List.take_left'
  simp only [List.length_append, List.length_take]
  omega

theorem body_inv (assertOutput debug : Bool)
    (op : List Nat → Padding → Int × List Nat) (B : Nat)
    (s s1 : Loop) (hI : s.Inv B) (hl : s.inputLength > 0)
    (hb : Loop.body assertOutput debug op B s = .ok s1) : s1.Inv B := by
  obtain ⟨⟨⟨h0, hle⟩, hbuf⟩, hfed⟩ := hI
  rcases body_ok_cases assertOutput debug op B s s1 hle hb with
    ⟨hlt, hs⟩ | ⟨heq, hs, -, -⟩
  · subst hs
    obtain ⟨m1, m2, m3⟩ := missing_bounds B s hlt hl
    have hp : (s.afterCopy B)._pos = s._pos + s.missing B := rfl
    have hi : (s.afterCopy B).inputLength = s.inputLength - s.missing B := rfl
    have hbf : (s.afterCopy B)._pBuf = memcpy s._pBuf s._pos s.input (s.missing B) := rfl
    have hin : (s.afterCopy B).input = s.input.drop (s.missing B).toNat := rfl
    unfold Loop.Inv ImplInv PosInv
    rw [hp, hi, hbf, hin, memcpy_length _ _ _ _ h0 (by omega) (by omega) (by omega),
      List.length_drop]
    refine ⟨⟨⟨by omega, by omega⟩, hbuf⟩, by omega⟩
  · subst hs
    exact ⟨⟨⟨by show (0 : Int) ≤ 0; omega, by show (0 : Int) ≤ B; omega⟩, hbuf⟩, hfed⟩

theorem flatten_length_of_blocks (B : Nat) (calls : List (List Nat × Padding))
    (h : ∀ c ∈ calls, c.1.length = B ∧ c.2 = Padding.RSA_NO_PADDING) :
    (calls.map Prod.fst).flatten.length = B * calls.length := by
  induction calls with
  | nil => rfl
  | cons c rest ih =>
    have hc := (h c (List.mem_cons_self c rest)).1
    have hr := ih (fun d hd => h d (List.mem_cons_of_mem c hd))
    simp only [List.map_cons, List.flatten_cons, List.length_append, List.length_cons,
      hc, hr]
    rw [Nat.mul_succ]
    omega

theorem body_acc (assertOutput debug : Bool)
    (op : List Nat → Padding → Int × List Nat) (B : Nat) (D : List Nat)
    (s s1 : Loop) (hI : s.Inv B) (hA : s.Acc op B D) (hl : s.inputLength > 0)
    (hb : Loop.body assertOutput debug op B s = .ok s1) :
    s1.Acc op B D ∧ (s1.inputLength > 0 ∨ 1 ≤ s1._pos) := by
  obtain ⟨⟨⟨h0, hle⟩, hbuf⟩, hfed⟩ := hI
  obtain ⟨hD, hC, hrc, hout⟩ := hA
  rcases body_ok_cases assertOutput debug op B s s1 hle hb with
    ⟨hlt, hs⟩ | ⟨heq, hs, -, -⟩
  · subst hs
    obtain ⟨m1, m2, m3⟩ := missing_bounds B s hlt hl
    have hp : (s.afterCopy B)._pos = s._pos + s.missing B := rfl
    have hbf : (s.afterCopy B)._pBuf = memcpy s._pBuf s._pos s.input (s.missing B) := rfl
    have hin : (s.afterCopy B).input = s.input.drop (s.missing B).toNat := rfl
    have hcl : (s.afterCopy B).calls = s.calls := rfl
    have hr : (s.afterCopy B).rc = s.rc := rfl
    have ho : (s.afterCopy B).output = s.output := rfl
    refine ⟨⟨?_, ?_, ?_, ?_⟩, Or.inr (by rw [hp]; omega)⟩
    · rw [hp, hbf, hin, hcl,
        memcpy_take _ _ _ _ h0 (by omega) (by omega) (by omega), ← hD]
      simp only [List.append_assoc, List.take_append_drop]
    · rw [hcl]
      exact hC
    · rw [hr, hcl]
      exact hrc
    · rw [ho, hcl]
      exact hout
  · subst hs
    have hp : (s.afterBlock op B)._pos = 0 := rfl
    have hbf : (s.afterBlock op B)._pBuf = s._pBuf := rfl
    have hin : (s.afterBlock op B).input = s.input := rfl
    have hi : (s.afterBlock op B).inputLength = s.inputLength := rfl
    have hcl : (s.afterBlock op B).calls
        = s.calls ++ [(s._pBuf.take (B : Int).toNat, .RSA_NO_PADDING)] := rfl
    have hr : (s.afterBlock op B).rc
        = s.rc + (op (s._pBuf.take (B : Int).toNat) .RSA_NO_PADDING).1 := rfl
    have ho : (s.afterBlock op B).output
        = s.output ++ (op (s._pBuf.take (B : Int).toNat) .RSA_NO_PADDING).2 := rfl
    have hpn : s._pos.toNat = (B : Int).toNat := by rw [heq]
    refine ⟨⟨?_, ?_, ?_, ?_⟩, Or.inl (by rw [hi]; exact hl)⟩
    · rw [hp, hbf, hin, hcl, ← hD, hpn]
      simp only [List.map_append, List.map_cons, List.map_nil, List.flatten_append,
        List.flatten_cons, List.flatten_nil, List.append_nil, Int.toNat_zero,
        List.take_zero, List.append_assoc, List.nil_append]
    · rw [hcl]
      intro c hc
      rcases List.mem_append.mp hc with h1 | h1
      · exact hC c h1
      · have h2 : c = (s._pBuf.take (B : Int).toNat, Padding.RSA_NO_PADDING) :=
          List.mem_singleton.mp h1
        subst h2
        refine ⟨?_, rfl⟩
        show (s._pBuf.take (B : Int).toNat).length = B
        rw [List.length_take, hbuf]
        omega
    · rw [hr, hcl, hrc]
      simp only [List.map_append, List.map_cons, List.map_nil, List.sum_append,
        List.sum_cons, List.sum_nil, add_zero]
    · rw [ho, hcl, hout]
      simp only [List.map_append, List.map_cons, List.map_nil, List.flatten_append,
        List.flatten_cons, List.flatten_nil, List.append_nil]

end Poco.Crypto

namespace Poco.Crypto

/-! ## RSA stream transforms: a call of `transform` -/

theorem run_of_done (assertOutput debug : Bool)
    (op : List Nat → Padding → Int × List Nat) (rsaSize : Int) (fuel : Nat)
    (s : Loop) (h : ¬ s.inputLength > 0) :
    Loop.run assertOutput debug op rsaSize fuel s = some (.returned s) := by
  cases fuel with
  | zero =>
    unfold Loop.run
    rw [if_neg h]
  | succ fuel =>
    unfold Loop.run
    rw [if_neg h]

theorem transformWith_cases (assertOutput debug : Bool)
    (op : List Nat → Padding → Int × List Nat) (rsaSize : Int) (fuel : Nat)
    (pos : Int) (buf input : List Nat) (inputLength outputLength : Int)
    (r : CallResult)
    (h : transformWith assertOutput debug op rsaSize fuel pos buf input inputLength
      outputLength = some r) :
    (¬ pos ≤ rsaSize ∧
      r = ⟨pos, buf, .error (.AssertionViolationException "_pos <= rsaSize"), [], []⟩) ∨
    (r = ⟨pos, buf, .error (.AssertionViolationException "outputLength >= rsaSize"),
      [], []⟩) ∨
    (outputLength ≥ rsaSize ∧ ∃ s,
      Loop.run assertOutput debug op rsaSize fuel
        (Loop.entry pos buf input inputLength outputLength) = some (.returned s) ∧
      r = ⟨s._pos, s._pBuf, .ok s.rc, s.output, s.calls⟩) ∨
    (∃ e s,
      Loop.run assertOutput debug op rsaSize fuel
        (Loop.entry pos buf input inputLength outputLength) = some (.thrown e s) ∧
      r = ⟨s._pos, s._pBuf, .error e, s.output, s.calls⟩) := by
  unfold transformWith at h
  by_cases h1 : debug = true ∧ ¬ pos ≤ rsaSize
  · rw [if_pos h1] at h
    exact Or.inl ⟨h1.2, (Option.some.inj h).symm⟩
  · rw [if_neg h1] at h
    by_cases h2 : ¬ outputLength ≥ rsaSize
    · rw [if_pos h2] at h
      exact Or.inr (Or.inl (Option.some.inj h).symm)
    · rw [if_neg h2] at h
      have h3 : outputLength ≥ rsaSize := not_not.mp h2
      cases hrun : Loop.run assertOutput debug op rsaSize fuel
          (Loop.entry pos buf input inputLength outputLength) with
      | none =>
        unfold Loop.entry at hrun
        rw [hrun] at h
        cases h
      | some e =>
        cases e with
        | returned s =>
          unfold Loop.entry at hrun
          rw [hrun] at h
          exact Or.inr (Or.inr (Or.inl ⟨h3, s, rfl, (Option.some.inj h).symm⟩))
        | thrown e s =>
          unfold Loop.entry at hrun
          rw [hrun] at h
          exact Or.inr (Or.inr (Or.inr ⟨e, s, rfl, (Option.some.inj h).symm⟩))

theorem transformWith_terminates (assertOutput debug : Bool)
    (op : List Nat → Padding → Int × List Nat) (B : Nat) (hB : 0 < B) (fuel : Nat)
    (pos : Int) (buf input : List Nat) (inputLength outputLength : Int)
    (hP : PosInv B pos) (hfuel : 2 * inputLength.toNat + 1 ≤ fuel) :
    ∃ r, transformWith assertOutput debug op B fuel pos buf input inputLength
      outputLength = some r := by
  unfold transformWith
  by_cases h1 : debug = true ∧ ¬ pos ≤ (B : Int)
  · rw [if_pos h1]
    exact ⟨_, rfl⟩
  · rw [if_neg h1]
    by_cases h2 : ¬ outputLength ≥ (B : Int)
    · rw [if_pos h2]
      exact ⟨_, rfl⟩
    · rw [if_neg h2]
      obtain ⟨e, he⟩ := run_terminates assertOutput debug op B hB fuel
        ⟨pos, buf, input, inputLength, [], outputLength, 0, []⟩ hP
        (Nat.le_trans (measure_le B _) hfuel)
      rw [he]
      cases e with
      | returned s => exact ⟨_, rfl⟩
      | thrown e s => exact ⟨_, rfl⟩

theorem passes_inv (assertOutput debug : Bool)
    (op : List Nat → Padding → Int × List Nat) (B : Nat) :
    ∀ (k : Nat) (s t : Loop), s.Inv B →
      Loop.passes assertOutput debug op B k s = some t → t.Inv B := by
  intro k
  induction k with
  | zero =>
    intro s t hI h
    unfold Loop.passes at h
    rw [← Option.some.inj h]
    exact hI
  | succ k ih =>
    intro s t hI h
    unfold Loop.passes at h
    by_cases hl : s.inputLength > 0
    · rw [if_pos hl] at h
      cases hb : Loop.body assertOutput debug op B s with
      | ok s1 =>
        rw [hb] at h
        exact ih s1 t (body_inv assertOutput debug op B s s1 hI hl hb) h
      | error es =>
        rw [hb] at h
        cases h
    · rw [if_neg hl] at h
      cases h

theorem transformWith_inv (assertOutput debug : Bool)
    (op : List Nat → Padding → Int × List Nat) (B : Nat) (fuel : Nat)
    (pos : Int) (buf input : List Nat) (outputLength : Int) (r : CallResult)
    (hI : ImplInv B pos buf)
    (h : transformWith assertOutput debug op B fuel pos buf input input.length
      outputLength = some r) :
    ImplInv B r._pos r._pBuf ∧
    r.result ≠ .error (.AssertionViolationException "_pos <= rsaSize") ∧
    r.result ≠ .error (.AssertionViolationException "rsaSize >= _pos") := by
  have hentry : (Loop.entry pos buf input input.length outputLength).Inv B := ⟨hI, rfl⟩
  rcases transformWith_cases assertOutput debug op B fuel pos buf input input.length
    outputLength r h with ⟨h1, -⟩ | hr | ⟨-, s, hrun, hr⟩ | ⟨e, s, hrun, hr⟩
  · exact absurd hI.1.2 h1
  · subst hr
    refine ⟨hI, ?_, ?_⟩
    · intro hc
      exact absurd (Except.error.inj hc) (by decide)
    · intro hc
      exact absurd (Except.error.inj hc) (by decide)
  · subst hr
    have hP := (run_returned assertOutput debug op B (fun s => s.Inv B)
      (fun s s1 hs hl hb => body_inv assertOutput debug op B s s1 hs hl hb)
      fuel _ s hentry hrun).1
    refine ⟨hP.1, ?_, ?_⟩
    · intro hc
      cases hc
    · intro hc
      cases hc
  · subst hr
    have hQ := run_thrown assertOutput debug op B (fun s => s.Inv B)
      (fun e s1 => ImplInv B s1._pos s1._pBuf ∧
        (e = .AssertionViolationException "outputLength >= rsaSize" ∨ e = .IOException))
      (fun s s1 hs hl hb => body_inv assertOutput debug op B s s1 hs hl hb)
      (fun s e s1 hs hl hb => by
        obtain ⟨-, hp, hbf, he⟩ := body_error_cases assertOutput debug op B s s1 e
          hs.1.1.2 hb
        refine ⟨?_, ?_⟩
        · rw [hp, hbf]
          exact hs.1
        · rcases he with ⟨he, -⟩ | ⟨he, -⟩
          · exact Or.inl he
          · exact Or.inr he)
      fuel _ e s hentry hrun
    refine ⟨hQ.1, ?_, ?_⟩
    · intro hc
      have h2 := Except.error.inj hc
      rcases hQ.2 with he | he
      · rw [he] at h2
        exact absurd h2 (by decide)
      · rw [he] at h2
        cases h2
    · intro hc
      have h2 := Except.error.inj hc
      rcases hQ.2 with he | he
      · rw [he] at h2
        exact absurd h2 (by decide)
      · rw [he] at h2
        cases h2

theorem copy_in_bounds (B : Nat) (s : Loop) (hI : s.Inv B) :
    0 ≤ s._pos ∧ s._pos ≤ B ∧ s._pBuf.length = B ∧
    (s.inputLength > 0 → s._pos < B →
      0 < s.missing B ∧ s._pos + s.missing B ≤ B ∧
      (s.missing B).toNat ≤ s.input.length) := by
  obtain ⟨⟨⟨h0, hle⟩, hbuf⟩, hfed⟩ := hI
  refine ⟨h0, hle, hbuf, ?_⟩
  intro hl hlt
  obtain ⟨m1, m2, m3⟩ := missing_bounds B s hlt hl
  refine ⟨by omega, by omega, by omega⟩

end Poco.Crypto

namespace Poco.Crypto

/-! ## RSA stream transforms: `_pos` stays within the block -/

theorem encrypt_transforms_inv (debug : Bool) (fuel : Nat) :
    ∀ (calls : List (List Nat × Int)) (impl impl1 : RSAEncryptImpl),
      ImplInv impl.blockSize impl._pos impl._pBuf →
      RSAEncryptImpl.transforms debug fuel impl calls = some impl1 →
      impl1._pRSA = impl._pRSA ∧ ImplInv impl.blockSize impl1._pos impl1._pBuf := by
  intro calls
  induction calls with
  | nil =>
    intro impl impl1 hI h
    unfold RSAEncryptImpl.transforms at h
    rw [← Option.some.inj h]
    exact ⟨rfl, hI⟩
  | cons c rest ih =>
    intro impl impl1 hI h
    obtain ⟨input, outputLength⟩ := c
    unfold RSAEncryptImpl.transforms at h
    cases ht : impl.transform debug fuel input input.length outputLength with
    | none =>
      rw [ht] at h
      cases h
    | some r =>
      rw [ht] at h
      have hr := (transformWith_inv true debug impl._pRSA.public_encrypt impl.blockSize
        fuel impl._pos impl._pBuf input outputLength r hI ht).1
      exact ih (impl.after r) impl1 hr h

theorem decrypt_transforms_inv (debug : Bool) (fuel : Nat) :
    ∀ (calls : List (List Nat × Int)) (impl impl1 : RSADecryptImpl),
      ImplInv impl.blockSize impl._pos impl._pBuf →
      RSADecryptImpl.transforms debug fuel impl calls = some impl1 →
      impl1._pRSA = impl._pRSA ∧ ImplInv impl.blockSize impl1._pos impl1._pBuf := by
  intro calls
  induction calls with
  | nil =>
    intro impl impl1 hI h
    unfold RSADecryptImpl.transforms at h
    rw [← Option.some.inj h]
    exact ⟨rfl, hI⟩
  | cons c rest ih =>
    intro impl impl1 hI h
    obtain ⟨input, outputLength⟩ := c
    unfold RSADecryptImpl.transforms at h
    cases ht : impl.transform debug fuel input input.length outputLength with
    | none =>
      rw [ht] at h
      cases h
    | some r =>
      rw [ht] at h
      have hr := (transformWith_inv false debug impl._pRSA.private_decrypt impl.blockSize
        fuel impl._pos impl._pBuf input outputLength r hI ht).1
      exact ih (impl.after r) impl1 hr h

theorem encrypt_transforms_terminates (debug : Bool) (fuel : Nat) :
    ∀ (calls : List (List Nat × Int)) (impl : RSAEncryptImpl),
      0 < impl.blockSize → ImplInv impl.blockSize impl._pos impl._pBuf →
      (∀ c ∈ calls, 2 * c.1.length + 1 ≤ fuel) →
      ∃ impl1, RSAEncryptImpl.transforms debug fuel impl calls = some impl1 := by
  intro calls
  induction calls with
  | nil =>
    intro impl hB hI hf
    exact ⟨impl, rfl⟩
  | cons c rest ih =>
    intro impl hB hI hf
    obtain ⟨input, outputLength⟩ := c
    have hfc : 2 * input.length + 1 ≤ fuel := hf (input, outputLength) (List.mem_cons_self _ _)
    obtain ⟨r, hr⟩ := transformWith_terminates true debug impl._pRSA.public_encrypt
      impl.blockSize hB fuel impl._pos impl._pBuf input input.length outputLength hI.1
      (by simpa using hfc)
    have ht : impl.transform debug fuel input input.length outputLength = some r := hr
    have hI1 := (transformWith_inv true debug impl._pRSA.public_encrypt impl.blockSize
      fuel impl._pos impl._pBuf input outputLength r hI ht).1
    obtain ⟨impl1, h1⟩ := ih (impl.after r) hB hI1
      (fun d hd => hf d (List.mem_cons_of_mem _ hd))
    refine ⟨impl1, ?_⟩
    unfold RSAEncryptImpl.transforms
    rw [ht]
    exact h1

theorem decrypt_transforms_terminates (debug : Bool) (fuel : Nat) :
    ∀ (calls : List (List Nat × Int)) (impl : RSADecryptImpl),
      0 < impl.blockSize → ImplInv impl.blockSize impl._pos impl._pBuf →
      (∀ c ∈ calls, 2 * c.1.length + 1 ≤ fuel) →
      ∃ impl1, RSADecryptImpl.transforms debug fuel impl calls = some impl1 := by
  intro calls
  induction calls with
  | nil =>
    intro impl hB hI hf
    exact ⟨impl, rfl⟩
  | cons c rest ih =>
    intro impl hB hI hf
    obtain ⟨input, outputLength⟩ := c
    have hfc : 2 * input.length + 1 ≤ fuel := hf (input, outputLength) (List.mem_cons_self _ _)
    obtain ⟨r, hr⟩ := transformWith_terminates false debug impl._pRSA.private_decrypt
      impl.blockSize hB fuel impl._pos impl._pBuf input input.length outputLength hI.1
      (by simpa using hfc)
    have ht : impl.transform debug fuel input input.length outputLength = some r := hr
    have hI1 := (transformWith_inv false debug impl._pRSA.private_decrypt impl.blockSize
      fuel impl._pos impl._pBuf input outputLength r hI ht).1
    obtain ⟨impl1, h1⟩ := ih (impl.after r) hB hI1
      (fun d hd => hf d (List.mem_cons_of_mem _ hd))
    refine ⟨impl1, ?_⟩
    unfold RSADecryptImpl.transforms
    rw [ht]
    exact h1

theorem new_inv (pRSA : RSA) : ImplInv pRSA.size 0 (List.replicate pRSA.size 0) :=
  ⟨⟨Int.le_refl 0, Int.ofNat_nonneg pRSA.size⟩, List.length_replicate _ _⟩

/-- C21: for `RSAEncryptImpl` and for `RSADecryptImpl` over a key of block size
`B`, after every sequence of calls of `transform` on the constructed object,
each with an input of `inputLength >= 0` bytes, `0 <= _pos <= B` holds and the
buffer still has `B` bytes.  In a further call of `transform` neither the
assertion `_pos <= rsaSize` at entry nor the assertion `rsaSize >= _pos` in the
loop fails, and at the head of every pass through its loop `_pos` is between 0
and `B` and a pass that copies writes `missing > 0` bytes at offsets
`_pos .. _pos + missing <= B`, all taken from the input.  For `B > 0` the
sequence of calls does end, given two passes for every input byte and one
more. -/
theorem transform_keeps_pos_within_block (pRSA : RSA) (debug : Bool) (fuel : Nat)
    (calls : List (List Nat × Int)) :
    (∀ impl : RSAEncryptImpl,
      RSAEncryptImpl.transforms debug fuel (RSAEncryptImpl.new pRSA) calls = some impl →
      impl.blockSize = pRSA.size ∧
      0 ≤ impl._pos ∧ impl._pos ≤ pRSA.size ∧ impl._pBuf.length = pRSA.size ∧
      ∀ (input : List Nat) (outputLength : Int),
        (∀ (fuel1 : Nat) (r : CallResult),
          impl.transform debug fuel1 input input.length outputLength = some r →
          r.result ≠ .error (.AssertionViolationException "_pos <= rsaSize") ∧
          r.result ≠ .error (.AssertionViolationException "rsaSize >= _pos")) ∧
        (∀ (k : Nat) (s : Loop),
          Loop.passes true debug impl._pRSA.public_encrypt impl.blockSize k
            (Loop.entry impl._pos impl._pBuf input input.length outputLength) = some s →
          0 ≤ s._pos ∧ s._pos ≤ pRSA.size ∧ s._pBuf.length = pRSA.size ∧
          (s.inputLength > 0 → s._pos < pRSA.size →
            0 < s.missing pRSA.size ∧ s._pos + s.missing pRSA.size ≤ pRSA.size ∧
            (s.missing pRSA.size).toNat ≤ s.input.length))) ∧
    (∀ impl : RSADecryptImpl,
      RSADecryptImpl.transforms debug fuel (RSADecryptImpl.new pRSA) calls = some impl →
      impl.blockSize = pRSA.size ∧
      0 ≤ impl._pos ∧ impl._pos ≤ pRSA.size ∧ impl._pBuf.length = pRSA.size ∧
      ∀ (input : List Nat) (outputLength : Int),
        (∀ (fuel1 : Nat) (r : CallResult),
          impl.transform debug fuel1 input input.length outputLength = some r →
          r.result ≠ .error (.AssertionViolationException "_pos <= rsaSize") ∧
          r.result ≠ .error (.AssertionViolationException "rsaSize >= _pos")) ∧
        (∀ (k : Nat) (s : Loop),
          Loop.passes false debug impl._pRSA.private_decrypt impl.blockSize k
            (Loop.entry impl._pos impl._pBuf input input.length outputLength) = some s →
          0 ≤ s._pos ∧ s._pos ≤ pRSA.size ∧ s._pBuf.length = pRSA.size ∧
          (s.inputLength > 0 → s._pos < pRSA.size →
            0 < s.missing pRSA.size ∧ s._pos + s.missing pRSA.size ≤ pRSA.size ∧
            (s.missing pRSA.size).toNat ≤ s.input.length))) ∧
    (0 < pRSA.size → (∀ c ∈ calls, 2 * c.1.length + 1 ≤ fuel) →
      (∃ impl, RSAEncryptImpl.transforms debug fuel (RSAEncryptImpl.new pRSA) calls
        = some impl) ∧
      (∃ impl, RSADecryptImpl.transforms debug fuel (RSADecryptImpl.new pRSA) calls
        = some impl)) := by
  refine ⟨?_, ?_, ?_⟩
  · intro impl h
    obtain ⟨hk, hI⟩ := encrypt_transforms_inv debug fuel calls (RSAEncryptImpl.new pRSA)
      impl (new_inv pRSA) h
    have hB : impl.blockSize = pRSA.size := by
      unfold RSAEncryptImpl.blockSize
      rw [hk]
      rfl
    have hI1 : ImplInv pRSA.size impl._pos impl._pBuf := hI
    refine ⟨hB, hI1.1.1, hI1.1.2, hI1.2, ?_⟩
    intro input outputLength
    refine ⟨?_, ?_⟩
    · intro fuel1 r hr
      have hI2 : ImplInv impl.blockSize impl._pos impl._pBuf := by
        rw [hB]
        exact hI1
      exact (transformWith_inv true debug impl._pRSA.public_encrypt impl.blockSize
        fuel1 impl._pos impl._pBuf input outputLength r hI2 hr).2
    · intro k s hs
      rw [hB] at hs
      exact copy_in_bounds pRSA.size s
        (passes_inv true debug impl._pRSA.public_encrypt pRSA.size k _ s ⟨hI1, rfl⟩ hs)
  · intro impl h
    obtain ⟨hk, hI⟩ := decrypt_transforms_inv debug fuel calls (RSADecryptImpl.new pRSA)
      impl (new_inv pRSA) h
    have hB : impl.blockSize = pRSA.size := by
      unfold RSADecryptImpl.blockSize
      rw [hk]
      rfl
    have hI1 : ImplInv pRSA.size impl._pos impl._pBuf := hI
    refine ⟨hB, hI1.1.1, hI1.1.2, hI1.2, ?_⟩
    intro input outputLength
    refine ⟨?_, ?_⟩
    · intro fuel1 r hr
      have hI2 : ImplInv impl.blockSize impl._pos impl._pBuf := by
        rw [hB]
        exact hI1
      exact (transformWith_inv false debug impl._pRSA.private_decrypt impl.blockSize
        fuel1 impl._pos impl._pBuf input outputLength r hI2 hr).2
    · intro k s hs
      rw [hB] at hs
      exact copy_in_bounds pRSA.size s
        (passes_inv false debug impl._pRSA.private_decrypt pRSA.size k _ s ⟨hI1, rfl⟩ hs)
  · intro hB hf
    exact ⟨encrypt_transforms_terminates debug fuel calls (RSAEncryptImpl.new pRSA) hB
        (new_inv pRSA) hf,
      decrypt_transforms_terminates debug fuel calls (RSADecryptImpl.new pRSA) hB
        (new_inv pRSA) hf⟩

/-- The invariant of C21 on the key of four bytes: after one call of
`RSAEncryptImpl::transform` with nine bytes, which gives two blocks to the block
operation, one byte is buffered. -/
theorem transform_keeps_pos_within_block_witness :
    RSAEncryptImpl.transforms true 20 (RSAEncryptImpl.new sampleKey)
        [([1, 2, 3, 4, 5, 6, 7, 8, 9], 100)] = some ⟨1, sampleKey, [9, 6, 7, 8]⟩ ∧
    ((0 : Int) ≤ 1 ∧ (1 : Int) ≤ sampleKey.size ∧
      [9, 6, 7, 8].length = sampleKey.size) :=
  ⟨rfl,
    have h := (transform_keeps_pos_within_block sampleKey true 20
      [([1, 2, 3, 4, 5, 6, 7, 8, 9], 100)]).1 ⟨1, sampleKey, [9, 6, 7, 8]⟩ rfl
    ⟨h.2.1, h.2.2.1, h.2.2.2.1⟩⟩

end Poco.Crypto

namespace Poco.Crypto

/-! ## RSA stream transforms: the loop terminates -/

theorem body_progress (assertOutput debug : Bool)
    (op : List Nat → Padding → Int × List Nat) (B : Nat) (hB : 0 < B)
    (s s1 : Loop) (hP : PosInv B s._pos) (hl : s.inputLength > 0)
    (hb : Loop.body assertOutput debug op B s = .ok s1) :
    (s._pos < B ∧ s1.inputLength < s.inputLength) ∨
    (s._pos = B ∧ s1._pos = 0 ∧ s1.inputLength = s.inputLength ∧
      ∃ s2, Loop.body assertOutput debug op B s1 = .ok s2 ∧
        s2.inputLength < s1.inputLength) := by
  rcases body_ok_cases assertOutput debug op B s s1 hP.2 hb with
    ⟨hlt, hs⟩ | ⟨heq, hs, -, -⟩
  · left
    subst hs
    obtain ⟨m1, m2, m3⟩ := missing_bounds B s hlt hl
    have hi : (s.afterCopy B).inputLength = s.inputLength - s.missing B := rfl
    rw [hi]
    exact ⟨hlt, by omega⟩
  · right
    subst hs
    have hp : (s.afterBlock op B)._pos = 0 := rfl
    have hi : (s.afterBlock op B).inputLength = s.inputLength := rfl
    have hlt : (s.afterBlock op B)._pos < B := by
      rw [hp]
      omega
    refine ⟨heq, hp, hi, (s.afterBlock op B).afterCopy B,
      body_of_copy assertOutput debug op B _ hlt, ?_⟩
    obtain ⟨m1, m2, m3⟩ := missing_bounds B (s.afterBlock op B) hlt (by rw [hi]; exact hl)
    have hi2 : ((s.afterBlock op B).afterCopy B).inputLength
        = (s.afterBlock op B).inputLength - (s.afterBlock op B).missing B := rfl
    rw [hi2]
    omega

/-- C24: for a key of block size `B > 0` and `0 <= _pos <= B`, the loop of
`RSAEncryptImpl::transform` and of `RSADecryptImpl::transform` ends, for every
`inputLength`, within two passes for every input byte and one more, and so
does the call of `transform`.  A pass that the block operation does not end
with an exception either consumes at least one input byte, or it finds the
buffer full and empties it, and then the next pass, which always succeeds,
consumes at least one input byte. -/
theorem transform_loop_terminates (pRSA : RSA) (debug : Bool) (s : Loop) (fuel : Nat)
    (hB : 0 < pRSA.size) (hpos : 0 ≤ s._pos ∧ s._pos ≤ pRSA.size)
    (hfuel : 2 * s.inputLength.toNat + 1 ≤ fuel) :
    (∃ e, Loop.run true debug pRSA.public_encrypt pRSA.size fuel s = some e) ∧
    (∃ e, Loop.run false debug pRSA.private_decrypt pRSA.size fuel s = some e) ∧
    (∃ r, RSAEncryptImpl.transform ⟨s._pos, pRSA, s._pBuf⟩ debug fuel s.input
      s.inputLength s.outputLength = some r) ∧
    (∃ r, RSADecryptImpl.transform ⟨s._pos, pRSA, s._pBuf⟩ debug fuel s.input
      s.inputLength s.outputLength = some r) ∧
    (∀ (assertOutput : Bool) (op : List Nat → Padding → Int × List Nat) (s1 : Loop),
      s.inputLength > 0 → Loop.body assertOutput debug op pRSA.size s = .ok s1 →
      (s._pos < pRSA.size ∧ s1.inputLength < s.inputLength) ∨
      (s._pos = pRSA.size ∧ s1._pos = 0 ∧ s1.inputLength = s.inputLength ∧
        ∃ s2, Loop.body assertOutput debug op pRSA.size s1 = .ok s2 ∧
          s2.inputLength < s1.inputLength)) := by
  have hm : Loop.measure pRSA.size s ≤ fuel := Nat.le_trans (measure_le _ s) hfuel
  refine ⟨run_terminates true debug _ pRSA.size hB fuel s hpos hm,
    run_terminates false debug _ pRSA.size hB fuel s hpos hm,
    transformWith_terminates true debug _ pRSA.size hB fuel _ _ _ _ _ hpos hfuel,
    transformWith_terminates false debug _ pRSA.size hB fuel _ _ _ _ _ hpos hfuel, ?_⟩
  intro assertOutput op s1 hl hb
  exact body_progress assertOutput debug op pRSA.size hB s s1 hpos hl hb

/-- The loop of C24 on the key of four bytes, entered with an empty buffer and
nine input bytes: nineteen passes are enough. -/
theorem transform_loop_terminates_witness :
    (0 < sampleKey.size ∧ 2 * (9 : Int).toNat + 1 ≤ 19) ∧
    ∃ e, Loop.run true true sampleKey.public_encrypt sampleKey.size 19
      (Loop.entry 0 [0, 0, 0, 0] [1, 2, 3, 4, 5, 6, 7, 8, 9] 9 100) = some e :=
  ⟨⟨by decide, by decide⟩,
    (transform_loop_terminates sampleKey true
      (Loop.entry 0 [0, 0, 0, 0] [1, 2, 3, 4, 5, 6, 7, 8, 9] 9 100) 19
      (by decide) ⟨by decide, by decide⟩ (by decide)).1⟩

/-! ## RSA stream transforms: what a call of `transform` does -/

theorem blocks_count (B k q t : Nat) (hB : 0 < B) (h : B * k + q = t) (h1 : 1 ≤ q)
    (h2 : q ≤ B) : (t + B - 1) / B - 1 = k := by
  have h3 : t + B - 1 = B * k + (q + B - 1) := by omega
  have h4 : (q + B - 1) / B = 1 :=
    Nat.div_eq_of_lt_le (by omega) (by omega)
  rw [h3, Nat.mul_add_div hB, h4]
  omega

theorem transformWith_account (assertOutput debug : Bool)
    (op : List Nat → Padding → Int × List Nat) (B : Nat) (fuel : Nat)
    (pos : Int) (buf input : List Nat) (outputLength : Int) (r : CallResult) (rc : Int)
    (hI : ImplInv B pos buf)
    (h : transformWith assertOutput debug op B fuel pos buf input input.length
      outputLength = some r)
    (hok : r.result = .ok rc) :
    ImplInv B r._pos r._pBuf ∧
    (r.calls.map Prod.fst).flatten ++ r._pBuf.take r._pos.toNat
      = buf.take pos.toNat ++ input ∧
    (∀ c ∈ r.calls, c.1.length = B ∧ c.2 = Padding.RSA_NO_PADDING) ∧
    rc = (r.calls.map (fun c => (op c.1 c.2).1)).sum ∧
    r.output = (r.calls.map (fun c => (op c.1 c.2).2)).flatten ∧
    (0 < input.length → 1 ≤ r._pos) ∧
    (input.length = 0 → r.calls = [] ∧ r._pos = pos ∧ r._pBuf = buf) := by
  rcases transformWith_cases assertOutput debug op B fuel pos buf input input.length
    outputLength r h with ⟨-, hr⟩ | hr | ⟨-, s, hrun, hr⟩ | ⟨e, s, hrun, hr⟩
  · subst hr
    cases hok
  · subst hr
    cases hok
  · subst hr
    have hrc : rc = s.rc := (Except.ok.inj hok).symm
    subst hrc
    have hentry : (fun t : Loop => t.Inv B ∧ t.Acc op B (buf.take pos.toNat ++ input) ∧
        (0 < input.length → t.inputLength > 0 ∨ 1 ≤ t._pos))
        (Loop.entry pos buf input input.length outputLength) := by
      refine ⟨⟨hI, rfl⟩, ⟨?_, ?_, rfl, rfl⟩, ?_⟩
      · show ([] : List (List Nat)).flatten ++ buf.take pos.toNat ++ input
          = buf.take pos.toNat ++ input
        rfl
      · intro c hc
        cases hc
      · intro hn
        left
        show (input.length : Int) > 0
        omega
    obtain ⟨⟨hInv, hAcc, hprog⟩, hdone⟩ := run_returned assertOutput debug op B
      (fun t : Loop => t.Inv B ∧ t.Acc op B (buf.take pos.toNat ++ input) ∧
        (0 < input.length → t.inputLength > 0 ∨ 1 ≤ t._pos))
      (fun t t1 ht hl hb =>
        ⟨body_inv assertOutput debug op B t t1 ht.1 hl hb,
          (body_acc assertOutput debug op B _ t t1 ht.1 ht.2.1 hl hb).1,
          fun _ => (body_acc assertOutput debug op B _ t t1 ht.1 ht.2.1 hl hb).2⟩)
      fuel _ s hentry hrun
    have hlen : s.input.length = 0 := by
      have h2 := hInv.2
      omega
    have hnil : s.input = [] := List.length_eq_zero.mp hlen
    obtain ⟨hD, hC, hsum, hout⟩ := hAcc
    rw [hnil, List.append_nil] at hD
    refine ⟨hInv.1, hD, hC, hsum, hout, ?_, ?_⟩
    · intro hn
      rcases hprog hn with hp | hp
      · exact absurd hp hdone
      · exact hp
    · intro hn
      have hnot : ¬ (Loop.entry pos buf input input.length outputLength).inputLength > 0 := by
        show ¬ (input.length : Int) > 0
        omega
      rw [run_of_done assertOutput debug op B fuel _ hnot] at hrun
      have hs : Loop.entry pos buf input input.length outputLength = s :=
        LoopEnd.returned.inj (Option.some.inj hrun)
      rw [← hs]
      exact ⟨rfl, rfl, rfl⟩
  · subst hr
    cases hok

/-- C22, as the code has it: a call of `RSAEncryptImpl::transform` on a key of
block size `B > 0`, with `p` bytes buffered, `0 <= p <= B`, and `n` input
bytes, that returns without an exception, has for `n > 0` called the block
operation exactly `ceil((p + n) / B) - 1` times, each time without padding on a
block of `B` bytes; these blocks followed by the bytes buffered at the end are
the bytes buffered at entry followed by the input; it ends with
`_pos = p + n - B * calls`, which is between 1 and `B`; it returns the sum of
the values that the block operations returned, and has written what they
wrote.  For `n = 0` it has called nothing, returns 0 and leaves `_pos` and the
buffer as they were. -/
theorem transform_fills_buffer_before_writing (impl : RSAEncryptImpl) (debug : Bool)
    (fuel : Nat) (input : List Nat) (outputLength : Int) (r : CallResult) (rc : Int)
    (hB : 0 < impl.blockSize)
    (hp : 0 ≤ impl._pos ∧ impl._pos ≤ impl.blockSize)
    (hbuf : impl._pBuf.length = impl.blockSize)
    (hr : impl.transform debug fuel input input.length outputLength = some r)
    (hok : r.result = .ok rc) :
    (0 < input.length →
      r.calls.length
        = (impl._pos.toNat + input.length + impl.blockSize - 1) / impl.blockSize - 1 ∧
      (∀ c ∈ r.calls, c.1.length = impl.blockSize ∧ c.2 = Padding.RSA_NO_PADDING) ∧
      (r.calls.map Prod.fst).flatten ++ r._pBuf.take r._pos.toNat
        = impl._pBuf.take impl._pos.toNat ++ input ∧
      r._pos = impl._pos + input.length - impl.blockSize * r.calls.length ∧
      1 ≤ r._pos ∧ r._pos ≤ impl.blockSize ∧
      rc = (r.calls.map (fun c => (impl._pRSA.public_encrypt c.1 c.2).1)).sum ∧
      r.output = (r.calls.map (fun c => (impl._pRSA.public_encrypt c.1 c.2).2)).flatten) ∧
    (input.length = 0 →
      r.calls = [] ∧ rc = 0 ∧ r.output = [] ∧ r._pos = impl._pos ∧
      r._pBuf = impl._pBuf) := by
  obtain ⟨hI, hD, hC, hsum, hout, h1, h0⟩ := transformWith_account true debug
    impl._pRSA.public_encrypt impl.blockSize fuel impl._pos impl._pBuf input
    outputLength r rc ⟨hp, hbuf⟩ hr hok
  refine ⟨?_, ?_⟩
  · intro hn
    have hpos1 := h1 hn
    have hlen := congrArg List.length hD
    rw [List.length_append, List.length_append, List.length_take, List.length_take,
      flatten_length_of_blocks impl.blockSize r.calls hC, hI.2, hbuf] at hlen
    have hle := hI.1.2
    have hge := hI.1.1
    have hmin1 : min r._pos.toNat impl.blockSize = r._pos.toNat := by omega
    have hmin2 : min impl._pos.toNat impl.blockSize = impl._pos.toNat := by omega
    rw [hmin1, hmin2] at hlen
    have hcount := blocks_count impl.blockSize r.calls.length r._pos.toNat
      (impl._pos.toNat + input.length) hB hlen (by omega) (by omega)
    refine ⟨hcount.symm, hC, hD, ?_, hpos1, hle, hsum, hout⟩
    have hcast : ((impl.blockSize * r.calls.length : Nat) : Int)
        = (impl.blockSize : Int) * (r.calls.length : Int) := Int.ofNat_mul _ _
    omega
  · intro hn
    obtain ⟨hc, hpos, hb⟩ := h0 hn
    refine ⟨hc, ?_, ?_, hpos, hb⟩
    · rw [hsum, hc]
      rfl
    · rw [hout, hc]
      rfl

/-- The call of C22 on the key of four bytes, with an empty buffer and nine
input bytes: two blocks, one byte left in the buffer, eight bytes returned. -/
theorem transform_fills_buffer_before_writing_witness :
    (RSAEncryptImpl.new sampleKey).transform true 20 [1, 2, 3, 4, 5, 6, 7, 8, 9] 9 100
      = some ⟨1, [9, 6, 7, 8], .ok 8, [4, 3, 2, 1, 8, 7, 6, 5],
          [([1, 2, 3, 4], .RSA_NO_PADDING), ([5, 6, 7, 8], .RSA_NO_PADDING)]⟩ ∧
    ([([1, 2, 3, 4], Padding.RSA_NO_PADDING), ([5, 6, 7, 8], .RSA_NO_PADDING)].length
        = ((0 : Int).toNat + 9 + 4 - 1) / 4 - 1 ∧
      (1 : Int) = 0 + 9 - 4 * 2) :=
  ⟨rfl,
    have h := (transform_fills_buffer_before_writing (RSAEncryptImpl.new sampleKey)
      true 20 [1, 2, 3, 4, 5, 6, 7, 8, 9] 100
      ⟨1, [9, 6, 7, 8], .ok 8, [4, 3, 2, 1, 8, 7, 6, 5],
        [([1, 2, 3, 4], .RSA_NO_PADDING), ([5, 6, 7, 8], .RSA_NO_PADDING)]⟩ 8
      (by decide) ⟨by decide, by decide⟩ rfl rfl rfl).1 (by decide)
    ⟨h.1, h.2.2.2.1⟩⟩

/-- C22, as it is stated, fails: on the key of four bytes, with an empty
buffer, nine input bytes ask for `ceil(9 / 4) - 1 = 2` calls of the block
operation and `_pos = 1` at the end; the first block, which begins with 255, is
refused by the block operation, and the call ends after this one call with an
`IOException` and `_pos = 4`, five input bytes not consumed. -/
theorem transform_stops_at_refused_block :
    ((RSAEncryptImpl.new sampleKey).transform true 20
        [255, 2, 3, 4, 5, 6, 7, 8, 9] 9 100).map
      (fun r => (r._pos, r.result, r.calls)) =
      some (4, .error .IOException, [([255, 2, 3, 4], .RSA_NO_PADDING)]) ∧
    (0 + 9 + 4 - 1) / 4 - 1 = 2 :=
  ⟨rfl, rfl⟩

/-! ## RSA stream transforms: `finalize` -/

theorem transform_one_block (pRSA : RSA) (debug : Bool) (fuel : Nat)
    (input : List Nat) (outputLength : Int) (hB : 0 < pRSA.size)
    (hn : input.length = pRSA.size) (hout : outputLength ≥ pRSA.size) :
    ∃ r, (RSAEncryptImpl.new pRSA).transform debug (fuel + 1) input input.length
        outputLength = some r ∧
      r.result = .ok 0 ∧ r._pos = pRSA.size ∧ r._pBuf.take pRSA.size = input ∧
      r.calls = [] := by
  have hlt : (Loop.entry 0 (List.replicate pRSA.size 0) input input.length
      outputLength)._pos < pRSA.size := by
    show (0 : Int) < pRSA.size
    omega
  have hl : (Loop.entry 0 (List.replicate pRSA.size 0) input input.length
      outputLength).inputLength > 0 := by
    show (input.length : Int) > 0
    omega
  have hm : (Loop.entry 0 (List.replicate pRSA.size 0) input input.length
      outputLength).missing pRSA.size = pRSA.size := by
    unfold Loop.missing
    show (if (pRSA.size : Int) - 0 > (input.length : Int) then (input.length : Int)
      else (pRSA.size : Int) - 0) = pRSA.size
    split <;> omega
  have hdone : ¬ ((Loop.entry 0 (List.replicate pRSA.size 0) input input.length
      outputLength).afterCopy pRSA.size).inputLength > 0 := by
    show ¬ (input.length : Int) - (Loop.entry 0 (List.replicate pRSA.size 0) input
      input.length outputLength).missing pRSA.size > 0
    rw [hm]
    omega
  have hrun : Loop.run true debug pRSA.public_encrypt pRSA.size (fuel + 1)
      (Loop.entry 0 (List.replicate pRSA.size 0) input input.length outputLength)
      = some (.returned ((Loop.entry 0 (List.replicate pRSA.size 0) input input.length
          outputLength).afterCopy pRSA.size)) := by
    unfold Loop.run
    rw [if_pos hl, body_of_copy true debug pRSA.public_encrypt pRSA.size _ hlt]
    exact run_of_done true debug pRSA.public_encrypt pRSA.size fuel _ hdone
  have htr : (RSAEncryptImpl.new pRSA).transform debug (fuel + 1) input input.length
      outputLength
      = some ⟨((Loop.entry 0 (List.replicate pRSA.size 0) input input.length
            outputLength).afterCopy pRSA.size)._pos,
          ((Loop.entry 0 (List.replicate pRSA.size 0) input input.length
            outputLength).afterCopy pRSA.size)._pBuf, .ok 0, [], []⟩ := by
    show transformWith true debug pRSA.public_encrypt pRSA.size (fuel + 1) 0
      (List.replicate pRSA.size 0) input input.length outputLength = _
    unfold transformWith
    rw [if_neg (fun hc => hc.2 (Int.ofNat_nonneg _)), if_neg (not_not.mpr hout)]
    unfold Loop.entry at hrun
    rw [hrun]
    rfl
  refine ⟨_, htr, rfl, ?_, ?_, rfl⟩
  · show (0 : Int) + (Loop.entry 0 (List.replicate pRSA.size 0) input input.length
      outputLength).missing pRSA.size = pRSA.size
    rw [hm]
    omega
  · show (memcpy (List.replicate pRSA.size 0) 0 input
      ((Loop.entry 0 (List.replicate pRSA.size 0) input input.length
        outputLength).missing pRSA.size)).take pRSA.size = input
    rw [hm]
    have h2 := memcpy_take (List.replicate pRSA.size 0) input 0 pRSA.size
      (Int.le_refl 0) (Int.ofNat_nonneg _) (by rw [List.length_replicate]; omega)
      (by omega)
    have h3 : ((0 : Int) + (pRSA.size : Int)).toNat = pRSA.size := by omega
    have h4 : ((pRSA.size : Int)).toNat = pRSA.size := by omega
    rw [h3, h4] at h2
    rw [h2, ← hn]
    simp

theorem finalize_after_full_block (pRSA : RSA) (debug : Bool) (fuel : Nat)
    (input : List Nat) (outputLength length : Int) (hB : 11 < pRSA.size)
    (hn : input.length = pRSA.size) (hout : outputLength ≥ pRSA.size)
    (hlen : length % 18446744073709551616 ≥ pRSA.size) :
    ∃ r, (RSAEncryptImpl.new pRSA).transform debug (fuel + 1) input input.length
        outputLength = some r ∧
      r.result = .ok 0 ∧
      (((RSAEncryptImpl.new pRSA).after r).finalize length).calls
        = [(input, .RSA_PKCS1_PADDING)] ∧
      ¬ (input.length : Int) ≤ (RSAEncryptImpl.new pRSA).blockSize - OVERFLOW := by
  obtain ⟨r, hr, hok, hpos, hbuf, -⟩ := transform_one_block pRSA debug fuel input
    outputLength (by omega) hn hout
  refine ⟨r, hr, hok, ?_, ?_⟩
  · unfold RSAEncryptImpl.finalize
    have hp : ((RSAEncryptImpl.new pRSA).after r)._pos = pRSA.size := hpos
    have hb : ((RSAEncryptImpl.new pRSA).after r)._pBuf = r._pBuf := rfl
    have hs : ((RSAEncryptImpl.new pRSA).after r).blockSize = pRSA.size := rfl
    rw [hs, if_neg (not_not.mpr hlen), hp, if_pos (by omega), hb]
    have h4 : ((pRSA.size : Int)).toNat = pRSA.size := by omega
    rw [h4, hbuf]
    split <;> rfl
  · show ¬ (input.length : Int) ≤ (pRSA.size : Int) - 11
    omega

theorem finalize_of_empty (impl : RSAEncryptImpl) (length : Int) (h : impl._pos = 0) :
    (impl.finalize length).calls = [] ∧
    (length % 18446744073709551616 ≥ impl.blockSize →
      (impl.finalize length).result = .ok 0) := by
  unfold RSAEncryptImpl.finalize
  by_cases hl : ¬ length % 18446744073709551616 ≥ (impl.blockSize : Int)
  · rw [if_pos hl]
    exact ⟨rfl, fun hc => absurd hc hl⟩
  · rw [if_neg hl, if_neg (by omega)]
    exact ⟨rfl, fun _ => rfl⟩

/-- C23 fails in the code: on the key of sixteen bytes, whose operation with
PKCS#1 padding takes at most `16 - OVERFLOW = 5` bytes, a call of `transform`
with sixteen bytes on the constructed encryptor returns 0 with `_pos = 16`, and
`finalize` then gives all sixteen buffered bytes to the operation with PKCS#1
padding, which fails: `finalize` throws an `IOException`. -/
theorem finalize_pads_full_block :
    (RSAEncryptImpl.new paddedKey).transform true 40
        [1, 2, 3, 4, 5, 6, 7, 8, 9, 10, 11, 12, 13, 14, 15, 16] 16 16
      = some ⟨16, [1, 2, 3, 4, 5, 6, 7, 8, 9, 10, 11, 12, 13, 14, 15, 16], .ok 0, [], []⟩ ∧
    ((RSAEncryptImpl.new paddedKey).after
        ⟨16, [1, 2, 3, 4, 5, 6, 7, 8, 9, 10, 11, 12, 13, 14, 15, 16], .ok 0, [], []⟩).finalize 16
      = ⟨16, [1, 2, 3, 4, 5, 6, 7, 8, 9, 10, 11, 12, 13, 14, 15, 16], .error .IOException, [],
          [([1, 2, 3, 4, 5, 6, 7, 8, 9, 10, 11, 12, 13, 14, 15, 16], .RSA_PKCS1_PADDING)]⟩ ∧
    ¬ (16 : Int) ≤ (RSAEncryptImpl.new paddedKey).blockSize - OVERFLOW :=
  ⟨rfl, rfl, by decide⟩

end Poco.Crypto
